import Mathlib

set_option maxHeartbeats 1000000
set_option maxRecDepth 8000
set_option synthInstance.maxHeartbeats 1000000

/-!
Verification development for the serial packet protocol engine of
`dodobot_serial_bridge.cpp` (class `DodobotSerialBridge`).

The C++ source is shallowly embedded below:
* payloads and frames are `List Char` (the wire is ASCII text),
* machine integers are `Nat`/`Int` with explicit `% 2^w` where the C code
  performs a narrowing cast or unsigned wraparound,
* the mutable object state (`_serialBuffer`, `_serialBufferIndex`,
  `_readPacketNum`, `_writePacketNum`, `robotState`, `readyState`, the
  message records, the clock reference) is an explicit `Bridge` record
  threaded through the functions,
* C++ exceptions from `std::stoi`/`std::stol`/`std::stof`/`std::stoul`
  are `Option`/outcome values,
* `std::stof` is modelled at fixed-point (values in ten-thousandths, an
  `Int`), following the spec's own description of float arguments as
  "fixed-point float with 4 decimal digits" (spec section 4.7 and the design
  note in section 9); IEEE rounding is out of scope of this model.

Constants `PACKET_START_0 = 0x12` and `PACKET_START_1 = 0x34` are taken from
the device error strings in `logPacketErrorCode` ("c1 != \x12", "c2 != \x34");
`PACKET_STOP` and the `CHECK_SEGMENT` macro live in the header that is not
part of the sources, and are modelled from the spec where noted.
-/

/-- Start marker byte 0 (0x12, from "c1 != \x12" in `logPacketErrorCode`). -/
def PACKET_START_0 : Char := Char.ofNat 18

/-- Start marker byte 1 (0x34, from "c2 != \x34" in `logPacketErrorCode`). -/
def PACKET_START_1 : Char := Char.ofNat 52

/-- Modelled from the spec: the stop marker is a single fixed byte distinct
from the start bytes and payload characters (spec section 6); the commented-out
`readline` / "remove newline character" code in `readSerial` indicates it is
the newline byte. Its exact value is irrelevant to every theorem below except
through `PACKET_STOP`-freeness side conditions. -/
def PACKET_STOP : Char := '\n'

/-- C `isspace` in the default locale: space (32) and 9..13. -/
def isSpaceC (c : Char) : Bool :=
  decide (c.toNat = 32 ∨ (9 ≤ c.toNat ∧ c.toNat ≤ 13))

/-- Decimal digit test, byte values 48..57. -/
def isDigitB (c : Char) : Bool :=
  decide (48 ≤ c.toNat ∧ c.toNat ≤ 57)

/-- Drops the leading `isspace` run, as `strtol`-family functions do. -/
def skipSpaces : List Char → List Char
  | [] => []
  | c :: rest => if isSpaceC c then skipSpaces rest else c :: rest

/-- Splits off the longest leading run of decimal digits. -/
def splitDigits : List Char → List Char × List Char
  | [] => ([], [])
  | c :: rest =>
    if isDigitB c then
      let p := splitDigits rest
      (c :: p.1, p.2)
    else ([], c :: rest)

/-- Value of a decimal digit string (most significant first). -/
def digitsVal (l : List Char) : Nat :=
  l.foldl (fun a c => 10 * a + (c.toNat - 48)) 0

/-- Consumes an optional leading sign character, returning the sign factor. -/
def signSplit : List Char → Int × List Char
  | [] => (1, [])
  | c :: r => if c = '-' then (-1, r) else if c = '+' then (1, r) else (1, c :: r)

/-- Core of `strtol` base 10: optional whitespace, optional sign, then a
nonempty longest run of digits (`none` models the `std::invalid_argument`
throw); trailing junk is ignored. -/
def strtolVal (l : List Char) : Option Int :=
  let sl := signSplit (skipSpaces l)
  let ds := (splitDigits sl.2).1
  if ds = [] then none else some (sl.1 * (digitsVal ds : Int))

/-- `std::stoi`: `strtol` with the `int` range check (out-of-range throws,
modelled as `none`). -/
def stoiCore (l : List Char) : Option Int :=
  match strtolVal l with
  | none => none
  | some v => if v < -2147483648 ∨ 2147483647 < v then none else some v

/-- `std::stol` (64-bit `long`): `strtol` with the `long` range check. -/
def stolCore (l : List Char) : Option Int :=
  match strtolVal l with
  | none => none
  | some v =>
    if v < -9223372036854775808 ∨ 9223372036854775807 < v then none else some v

/-- Fraction digits after a leading decimal point, if present. -/
def fracDigits : List Char → List Char
  | [] => []
  | c :: r => if c = '.' then (splitDigits r).1 else []

/-- `std::stof`, modelled at fixed-point (result in ten-thousandths).
Modelled from the spec: floats are "fixed-point float with 4 decimal digits"
(spec sections 4.7 and 9); parses sign, integer digits, optional fraction;
fraction digits beyond the fourth are dropped. -/
def stofCore (l : List Char) : Option Int :=
  let sl := signSplit (skipSpaces l)
  let ip := splitDigits sl.2
  let fp := fracDigits ip.2
  if ip.1 = [] ∧ fp = [] then none
  else
    let f4 := fp.take 4 ++ List.replicate (4 - (fp.take 4).length) '0'
    some (sl.1 * ((digitsVal ip.1 * 10000 + digitsVal f4 : Nat) : Int))

/-- Value of one hex digit character, if it is one. -/
def hexVal (c : Char) : Option Nat :=
  if 48 ≤ c.toNat ∧ c.toNat ≤ 57 then some (c.toNat - 48)
  else if 97 ≤ c.toNat ∧ c.toNat ≤ 102 then some (c.toNat - 87)
  else if 65 ≤ c.toNat ∧ c.toNat ≤ 70 then some (c.toNat - 55)
  else none

/-- `std::stoul(s, nullptr, 16)` on the two-character string `[c1, c2]`
(the checksum suffix in `readSerial`): optional whitespace or sign before the
digits, longest hex-digit run, unsigned 64-bit wraparound on `-`; `none`
models the `std::invalid_argument` throw when no hex digit is found.
A lone leading `0` followed by a non-digit (as in "0x") parses as 0,
which the first branch already yields. -/
def stoulHexPair (c1 c2 : Char) : Option Nat :=
  match hexVal c1 with
  | some v1 =>
    match hexVal c2 with
    | some v2 => some (16 * v1 + v2)
    | none => some v1
  | none =>
    if isSpaceC c1 || c1 = '+' then hexVal c2
    else if c1 = '-' then (hexVal c2).map (fun v => (18446744073709551616 - v) % 18446744073709551616)
    else none

/-- Decimal digit character (callers always pass a value below 10). -/
def digitChar : Nat → Char
  | 0 => '0' | 1 => '1' | 2 => '2' | 3 => '3' | 4 => '4'
  | 5 => '5' | 6 => '6' | 7 => '7' | 8 => '8' | _ => '9'

/-- Fuel-driven decimal rendering helper (fuel is always at least the value,
so it never runs out). -/
def natDecAux : Nat → Nat → List Char → List Char
  | 0, _, acc => acc
  | f + 1, n, acc =>
    if n < 10 then digitChar n :: acc
    else natDecAux f (n / 10) (digitChar (n % 10) :: acc)

/-- Decimal rendering of a natural number, as `operator<<` on an unsigned
integer produces. -/
def natDec (n : Nat) : List Char := natDecAux (n + 1) n []

/-- Decimal rendering of a signed integer, as `operator<<` on an `int`
produces. -/
def fmtInt (i : Int) : List Char :=
  if i < 0 then '-' :: natDec i.natAbs else natDec i.natAbs

/-- Rendering of a fixed-point value (ten-thousandths) the way
`std::fixed << std::setprecision(4)` prints the corresponding decimal:
sign, integer part, '.', exactly four fraction digits. -/
def fmtFixed4 (x : Int) : List Char :=
  (if x < 0 then ['-'] else []) ++ natDec (x.natAbs / 10000) ++ '.' ::
    [digitChar (x.natAbs / 1000 % 10), digitChar (x.natAbs / 100 % 10),
     digitChar (x.natAbs / 10 % 10), digitChar (x.natAbs % 10)]

/-- Lowercase hex digit character (callers always pass a value below 16). -/
def hexChar : Nat → Char
  | 0 => '0' | 1 => '1' | 2 => '2' | 3 => '3' | 4 => '4'
  | 5 => '5' | 6 => '6' | 7 => '7' | 8 => '8' | 9 => '9'
  | 10 => 'a' | 11 => 'b' | 12 => 'c' | 13 => 'd' | 14 => 'e' | _ => 'f'

/-- Minimal lowercase hex rendering of a byte value, as
`sstream << std::hex << (int)calc_checksum` produces for values up to 255. -/
def hexRep (n : Nat) : List Char :=
  if n < 16 then [hexChar n] else [hexChar (n / 16), hexChar (n % 16)]

/-- The 8-bit running checksum of `readSerial`/`writeSerial`:
`uint8_t calc_checksum += (uint8_t)c` over the given characters. -/
def checksum8 (l : List Char) : Nat :=
  l.foldl (fun a c => (a + c.toNat % 256) % 256) 0

/-- Narrowing cast `(uint32_t)v` of a C `int`/`long` value. -/
def intToU32 (v : Int) : Nat := (v % 4294967296).toNat

/-- Narrowing cast `(uint16_t)v`. -/
def intToU16 (v : Int) : Nat := (v % 65536).toNat

/-- Cast `(unsigned long long)v`. -/
def intToU64 (v : Int) : Nat := (v % 18446744073709551616).toNat

/-- Index of the first tab at or after the cursor, relative to the cursor
(`std::string::find('\t', index)`, viewed on the dropped suffix). -/
def tabIdx : List Char → Option Nat
  | [] => none
  | c :: rest => if c = '\t' then some 0 else (tabIdx rest).map (· + 1)

/-- Device operational state (`StructRobotState`), overwritten field by field
by the "state" category decode. `loop_rate` carries the fixed-point model of
the `double` field. -/
structure RobotState where
  time_ms : Nat
  is_active : Bool
  battery_ok : Bool
  motors_active : Bool
  loop_rate : Int
  deriving DecidableEq

/-- Readiness state (`StructReadyState`). -/
structure ReadyState where
  robot_name : List Char
  is_ready : Bool
  time_ms : Nat
  deriving DecidableEq

/-- The `drive_msg` record; `parseDrive` fills the encoder fields and
`parseBumper` reuses the same record for the bumper fields, exactly as the
source does. `stampMs` is the host-time stamp produced by `getDeviceTime`,
in milliseconds. -/
structure DriveMsg where
  stampMs : Nat
  left_ticks : Int
  right_ticks : Int
  left_speed : Int
  right_speed : Int
  bump1 : Int
  bump2 : Int
  deriving DecidableEq

/-- The `fsr_msg` record (`left`/`right` are `uint16_t`). -/
structure FsrMsg where
  stampMs : Nat
  left : Nat
  right : Nat
  deriving DecidableEq

/-- The `gripper_msg` record. -/
structure GripperMsg where
  stampMs : Nat
  position : Int
  deriving DecidableEq

/-- The `linear_msg` record (`position` is `uint16_t`). -/
structure LinearMsg where
  stampMs : Nat
  position : Nat
  has_error : Bool
  is_homed : Bool
  is_active : Bool
  deriving DecidableEq

/-- The `battery_msg` record (fixed-point model of the float fields). -/
structure BatteryMsg where
  stampMs : Nat
  current : Int
  voltage : Int
  deriving DecidableEq

/-- The `tilter_msg` record. -/
structure TilterMsg where
  stampMs : Nat
  position : Int
  deriving DecidableEq

/-- Observable log events of the engine (ROS_ERROR/ROS_WARN calls of the
protocol paths; fields record the values the source interpolates). -/
inductive LogMsg where
  | tooShortLog
  | checksumParseFail
  | chkMismatch (recv calcd : Nat)
  | seqMissingLog
  | desync (recv expected : Nat)
  | catMissingLog
  | dispatchExn
  | segmentMissing
  | packetError (code : Int) (pn : Nat)
  deriving DecidableEq

/-- Messages handed to the publish collaborator (`*_pub.publish(...)`). -/
inductive PubEvent where
  | drive (m : DriveMsg)
  | bumper (m : DriveMsg)
  | fsr (m : FsrMsg)
  | gripper (m : GripperMsg)
  | linear (m : LinearMsg)
  | battery (m : BatteryMsg)
  | tilter (m : TilterMsg)
  deriving DecidableEq

/-- The mutable state of a `DodobotSerialBridge` object that the protocol
engine touches: parse cursor, sequence counters, device state, clock
reference, the persistent message records, and the observable log/publish
streams (most recent first). -/
structure Bridge where
  serialBuffer : List Char
  serialBufferIndex : Nat
  currentBufferSegment : List Char
  currentSegmentNum : Int
  readPacketNum : Nat
  writePacketNum : Nat
  robotState : RobotState
  readyState : ReadyState
  deviceStartTimeMs : Nat
  offsetTimeMs : Nat
  driveMsg : DriveMsg
  fsrMsg : FsrMsg
  gripperMsg : GripperMsg
  linearMsg : LinearMsg
  batteryMsg : BatteryMsg
  tilterMsg : TilterMsg
  log : List LogMsg
  pub : List PubEvent
  deriving DecidableEq

/-- Constructor state (lines 22-43): counters zero, cursor reset, device not
ready; `startMs` is `ros::Time::now()` at construction, in milliseconds. -/
def initialBridge (startMs : Nat) : Bridge where
  serialBuffer := []
  serialBufferIndex := 0
  currentBufferSegment := []
  currentSegmentNum := -1
  readPacketNum := 0
  writePacketNum := 0
  robotState := ⟨0, false, false, false, 0⟩
  readyState := ⟨[], false, 0⟩
  deviceStartTimeMs := startMs
  offsetTimeMs := 0
  driveMsg := ⟨0, 0, 0, 0, 0, 0, 0⟩
  fsrMsg := ⟨0, 0, 0⟩
  gripperMsg := ⟨0, 0⟩
  linearMsg := ⟨0, 0, false, false, false⟩
  batteryMsg := ⟨0, 0, 0⟩
  tilterMsg := ⟨0, 0⟩
  log := []
  pub := []

/-- `setStartTime(uint32_t time_ms)`: capture the clock reference
(`hostNowMs` is `ros::Time::now()` in milliseconds). -/
def setStartTime (hostNowMs time_ms : Nat) (b : Bridge) : Bridge :=
  { b with deviceStartTimeMs := hostNowMs, offsetTimeMs := time_ms % 4294967296 }

/-- `getDeviceTime(uint32_t time_ms)`, in milliseconds:
`deviceStartTime + (double)(time_ms - offsetTimeMs) / 1000.0` seconds, where
the subtraction is unsigned 32-bit (both operands are `uint32_t`; the declared
type of `offsetTimeMs` is in the missing header and is modelled as `uint32_t`
matching the `uint32_t` parameter of `setStartTime` that is its only nonzero
source). The wrapped difference in milliseconds divided by 1000.0 seconds is
exactly the wrapped difference as a millisecond duration. -/
def getDeviceTimeMs (b : Bridge) (time_ms : Nat) : Nat :=
  b.deviceStartTimeMs +
    (time_ms % 4294967296 + (4294967296 - b.offsetTimeMs % 4294967296)) % 4294967296

/-- `getNextSegment()` (lines 260-278): returns false with segment ordinal
-1 when the cursor is at or past the end; otherwise extracts up to the next
tab (or the rest of the buffer) and advances the cursor past the separator. -/
def getNextSegment (b : Bridge) : Bool × Bridge :=
  if b.serialBufferIndex ≥ b.serialBuffer.length then
    (false, { b with currentSegmentNum := -1 })
  else
    match tabIdx (b.serialBuffer.drop b.serialBufferIndex) with
    | none =>
      (true, { b with currentBufferSegment := b.serialBuffer.drop b.serialBufferIndex,
                      serialBufferIndex := b.serialBuffer.length,
                      currentSegmentNum := b.currentSegmentNum + 1 })
    | some k =>
      (true, { b with currentBufferSegment := (b.serialBuffer.drop b.serialBufferIndex).take k,
                      serialBufferIndex := b.serialBufferIndex + k + 1,
                      currentSegmentNum := b.currentSegmentNum + 1 })

/-- Result of one field-decode step inside a category decode routine:
the segment was missing (`CHECK_SEGMENT` returned from the routine), a parse
threw (the exception will be caught at the `processSerialPacket` call site),
or a value was produced. -/
inductive Step (α : Type) where
  | missing (b : Bridge)
  | exn (b : Bridge)
  | ok (v : α) (b : Bridge)

/-- Modelled from the spec: the `CHECK_SEGMENT` macro (defined in the header,
which is not among the sources) fetches the next segment and, when none is
left, reports a segment-missing error and returns from the decode routine
(spec section 4.4: a missing required segment aborts that category's decode
and is reported as a segment-missing error). -/
def nextSegStep (b : Bridge) : Step (List Char) :=
  match getNextSegment b with
  | (true, b1) => .ok b1.currentBufferSegment b1
  | (false, b1) => .missing { b1 with log := .segmentMissing :: b1.log }

/-- One `CHECK_SEGMENT; T v = parse(_currentBufferSegment)` step:
a failed parse is the thrown exception (`Step.exn`). -/
def segParse (parse : List Char → Option Int) (b : Bridge) : Step Int :=
  match nextSegStep b with
  | .missing b1 => .missing b1
  | .exn b1 => .exn b1
  | .ok s b1 =>
    match parse s with
    | some v => .ok v b1
    | none => .exn b1

/-- `CHECK_SEGMENT` alone (the unused power field of `parseBattery`) or with
the raw segment as the value (the ready name). -/
def segRaw (b : Bridge) : Step (List Char) := nextSegStep b

/-- `parseDrive()` (lines 595-604): device-ms (via `stol`, cast `uint32_t`,
through `getDeviceTime`), left/right ticks (`stol`), left/right speeds
(`stof`), then publish. A thrown parse leaves the earlier in-place updates
of `drive_msg` applied. -/
def parseDrive (b : Bridge) : Bool × Bridge :=
  match segParse stolCore b with
  | .missing b1 => (true, b1)
  | .exn b1 => (false, b1)
  | .ok t b1 =>
  let b1 := { b1 with driveMsg := { b1.driveMsg with stampMs := getDeviceTimeMs b1 (intToU32 t) } }
  match segParse stolCore b1 with
  | .missing b2 => (true, b2)
  | .exn b2 => (false, b2)
  | .ok lt b2 =>
  let b2 := { b2 with driveMsg := { b2.driveMsg with left_ticks := lt } }
  match segParse stolCore b2 with
  | .missing b3 => (true, b3)
  | .exn b3 => (false, b3)
  | .ok rt b3 =>
  let b3 := { b3 with driveMsg := { b3.driveMsg with right_ticks := rt } }
  match segParse stofCore b3 with
  | .missing b4 => (true, b4)
  | .exn b4 => (false, b4)
  | .ok ls b4 =>
  let b4 := { b4 with driveMsg := { b4.driveMsg with left_speed := ls } }
  match segParse stofCore b4 with
  | .missing b5 => (true, b5)
  | .exn b5 => (false, b5)
  | .ok rs b5 =>
  let b5 := { b5 with driveMsg := { b5.driveMsg with right_speed := rs } }
  (true, { b5 with pub := .drive b5.driveMsg :: b5.pub })

/-- `parseBumper()` (lines 606-613): reuses `drive_msg` for the stamp and the
two bumper fields, publishing it on `bumper_pub`, exactly as the source does. -/
def parseBumper (b : Bridge) : Bool × Bridge :=
  match segParse stolCore b with
  | .missing b1 => (true, b1)
  | .exn b1 => (false, b1)
  | .ok t b1 =>
  let b1 := { b1 with driveMsg := { b1.driveMsg with stampMs := getDeviceTimeMs b1 (intToU32 t) } }
  match segParse stolCore b1 with
  | .missing b2 => (true, b2)
  | .exn b2 => (false, b2)
  | .ok v1 b2 =>
  let b2 := { b2 with driveMsg := { b2.driveMsg with bump1 := v1 } }
  match segParse stolCore b2 with
  | .missing b3 => (true, b3)
  | .exn b3 => (false, b3)
  | .ok v2 b3 =>
  let b3 := { b3 with driveMsg := { b3.driveMsg with bump2 := v2 } }
  (true, { b3 with pub := .bumper b3.driveMsg :: b3.pub })

/-- `parseFSR()` (lines 615-622): stamp, left and right force (`(uint16_t)stoi`). -/
def parseFSR (b : Bridge) : Bool × Bridge :=
  match segParse stolCore b with
  | .missing b1 => (true, b1)
  | .exn b1 => (false, b1)
  | .ok t b1 =>
  let b1 := { b1 with fsrMsg := { b1.fsrMsg with stampMs := getDeviceTimeMs b1 (intToU32 t) } }
  match segParse stoiCore b1 with
  | .missing b2 => (true, b2)
  | .exn b2 => (false, b2)
  | .ok lv b2 =>
  let b2 := { b2 with fsrMsg := { b2.fsrMsg with left := intToU16 lv } }
  match segParse stoiCore b2 with
  | .missing b3 => (true, b3)
  | .exn b3 => (false, b3)
  | .ok rv b3 =>
  let b3 := { b3 with fsrMsg := { b3.fsrMsg with right := intToU16 rv } }
  (true, { b3 with pub := .fsr b3.fsrMsg :: b3.pub })

/-- `parseGripper()` (lines 624-630): stamp and position (`(int)stoi`). -/
def parseGripper (b : Bridge) : Bool × Bridge :=
  match segParse stolCore b with
  | .missing b1 => (true, b1)
  | .exn b1 => (false, b1)
  | .ok t b1 =>
  let b1 := { b1 with gripperMsg := { b1.gripperMsg with stampMs := getDeviceTimeMs b1 (intToU32 t) } }
  match segParse stoiCore b1 with
  | .missing b2 => (true, b2)
  | .exn b2 => (false, b2)
  | .ok p b2 =>
  let b2 := { b2 with gripperMsg := { b2.gripperMsg with position := p } }
  (true, { b2 with pub := .gripper b2.gripperMsg :: b2.pub })

/-- `parseLinear()` (lines 632-641): stamp, position (`(uint16_t)stoi`), and
the three boolean flags (`(bool)stoi`). -/
def parseLinear (b : Bridge) : Bool × Bridge :=
  match segParse stolCore b with
  | .missing b1 => (true, b1)
  | .exn b1 => (false, b1)
  | .ok t b1 =>
  let b1 := { b1 with linearMsg := { b1.linearMsg with stampMs := getDeviceTimeMs b1 (intToU32 t) } }
  match segParse stoiCore b1 with
  | .missing b2 => (true, b2)
  | .exn b2 => (false, b2)
  | .ok p b2 =>
  let b2 := { b2 with linearMsg := { b2.linearMsg with position := intToU16 p } }
  match segParse stoiCore b2 with
  | .missing b3 => (true, b3)
  | .exn b3 => (false, b3)
  | .ok he b3 =>
  let b3 := { b3 with linearMsg := { b3.linearMsg with has_error := he ≠ 0 } }
  match segParse stoiCore b3 with
  | .missing b4 => (true, b4)
  | .exn b4 => (false, b4)
  | .ok hm b4 =>
  let b4 := { b4 with linearMsg := { b4.linearMsg with is_homed := hm ≠ 0 } }
  match segParse stoiCore b4 with
  | .missing b5 => (true, b5)
  | .exn b5 => (false, b5)
  | .ok ia b5 =>
  let b5 := { b5 with linearMsg := { b5.linearMsg with is_active := ia ≠ 0 } }
  (true, { b5 with pub := .linear b5.linearMsg :: b5.pub })

/-- `parseBattery()` (lines 643-652): stamp, current (`stof`), one consumed
but unused segment, voltage (`stof`). -/
def parseBattery (b : Bridge) : Bool × Bridge :=
  match segParse stolCore b with
  | .missing b1 => (true, b1)
  | .exn b1 => (false, b1)
  | .ok t b1 =>
  let b1 := { b1 with batteryMsg := { b1.batteryMsg with stampMs := getDeviceTimeMs b1 (intToU32 t) } }
  match segParse stofCore b1 with
  | .missing b2 => (true, b2)
  | .exn b2 => (false, b2)
  | .ok cur b2 =>
  let b2 := { b2 with batteryMsg := { b2.batteryMsg with current := cur } }
  match segRaw b2 with
  | .missing b3 => (true, b3)
  | .exn b3 => (false, b3)
  | .ok _ b3 =>
  match segParse stofCore b3 with
  | .missing b4 => (true, b4)
  | .exn b4 => (false, b4)
  | .ok volt b4 =>
  let b4 := { b4 with batteryMsg := { b4.batteryMsg with voltage := volt } }
  (true, { b4 with pub := .battery b4.batteryMsg :: b4.pub })

/-- `parseTilter()` (lines 661-667): stamp and position (`(int)stoi`). -/
def parseTilter (b : Bridge) : Bool × Bridge :=
  match segParse stolCore b with
  | .missing b1 => (true, b1)
  | .exn b1 => (false, b1)
  | .ok t b1 =>
  let b1 := { b1 with tilterMsg := { b1.tilterMsg with stampMs := getDeviceTimeMs b1 (intToU32 t) } }
  match segParse stoiCore b1 with
  | .missing b2 => (true, b2)
  | .exn b2 => (false, b2)
  | .ok p b2 =>
  let b2 := { b2 with tilterMsg := { b2.tilterMsg with position := p } }
  (true, { b2 with pub := .tilter b2.tilterMsg :: b2.pub })

/-- `processSerialPacket(category)` (lines 284-333). The returned boolean is
true when the routine returned normally (including the `CHECK_SEGMENT` early
returns and unknown categories, which fall through silently) and false when a
parse threw; the exception is caught at the call site in `readSerial`.
All field writes happen in place as each segment is parsed, so an abort keeps
the updates already made — the `txrx`, `state` and `ready` branches are inline
here exactly as in the source. -/
def processSerialPacket (category : List Char) (b : Bridge) : Bool × Bridge :=
  if category = "txrx".toList then
    match segParse stolCore b with
    | .missing b1 => (true, b1)
    | .exn b1 => (false, b1)
    | .ok pn b1 =>
    match segParse stoiCore b1 with
    | .missing b2 => (true, b2)
    | .exn b2 => (false, b2)
    | .ok ec b2 =>
      if ec ≠ 0 then (true, { b2 with log := .packetError ec (intToU64 pn) :: b2.log })
      else (true, b2)
  else if category = "state".toList then
    match segParse stoiCore b with
    | .missing b1 => (true, b1)
    | .exn b1 => (false, b1)
    | .ok t b1 =>
    let b1 := { b1 with robotState := { b1.robotState with time_ms := intToU32 t } }
    match segParse stoiCore b1 with
    | .missing b2 => (true, b2)
    | .exn b2 => (false, b2)
    | .ok act b2 =>
    let b2 := { b2 with robotState := { b2.robotState with is_active := act ≠ 0 } }
    match segParse stoiCore b2 with
    | .missing b3 => (true, b3)
    | .exn b3 => (false, b3)
    | .ok bat b3 =>
    let b3 := { b3 with robotState := { b3.robotState with battery_ok := bat ≠ 0 } }
    match segParse stoiCore b3 with
    | .missing b4 => (true, b4)
    | .exn b4 => (false, b4)
    | .ok mot b4 =>
    let b4 := { b4 with robotState := { b4.robotState with motors_active := mot ≠ 0 } }
    match segParse stofCore b4 with
    | .missing b5 => (true, b5)
    | .exn b5 => (false, b5)
    | .ok lr b5 =>
    (true, { b5 with robotState := { b5.robotState with loop_rate := lr } })
  else if category = "enc".toList then parseDrive b
  else if category = "bump".toList then parseBumper b
  else if category = "fsr".toList then parseFSR b
  else if category = "grip".toList then parseGripper b
  else if category = "linear".toList then parseLinear b
  else if category = "batt".toList then parseBattery b
  else if category = "tilt".toList then parseTilter b
  else if category = "ready".toList then
    match segParse stoiCore b with
    | .missing b1 => (true, b1)
    | .exn b1 => (false, b1)
    | .ok t b1 =>
    let b1 := { b1 with readyState := { b1.readyState with time_ms := intToU32 t } }
    match segRaw b1 with
    | .missing b2 => (true, b2)
    | .exn b2 => (false, b2)
    | .ok name b2 =>
    (true, { b2 with readyState := { b2.readyState with robot_name := name, is_ready := true } })
  else (true, b)

/-- Outcome of one `readSerial` decode of a complete received payload
(the part of `readSerial` after the stop byte, lines 186-257).
`seqParseException` is the `std::stoi` throw at line 228, which `readSerial`
does NOT catch — it propagates to the caller. -/
inductive DecodeOutcome where
  | tooShort
  | checksumParseError
  | checksumMismatch
  | seqMissing
  | seqParseException
  | catMissing
  | dispatchException
  | ok
  deriving DecidableEq

/-- The received checksum (lines 205-212):
`(uint16_t)std::stoul(buffer.substr(len - 2), nullptr, 16)`. -/
def parseRecvChecksum (payload : List Char) : Option Nat :=
  match payload.drop (payload.length - 2) with
  | [c1, c2] => (stoulHexPair c1 c2).map (· % 65536)
  | _ => none

/-- Lines 248-257 of `readSerial`: on normal dispatch return bump the read
counter and succeed; a dispatch exception is caught, logged, and returns
without bumping it. -/
def dispatchTail : Bool × Bridge → DecodeOutcome × Bridge
  | (true, b3) => (.ok, { b3 with readPacketNum := b3.readPacketNum + 1 })
  | (false, b3) => (.dispatchException, { b3 with log := .dispatchExn :: b3.log })

/-- Lines 236-257 of `readSerial`: find the category segment (else log, bump
the read counter, fail), strip the two checksum characters from the working
buffer, dispatch, and handle the dispatch result with `dispatchTail`. -/
def dispatchStage (b : Bridge) : DecodeOutcome × Bridge :=
  match getNextSegment b with
  | (false, b1) =>
    (.catMissing, { b1 with readPacketNum := b1.readPacketNum + 1, log := .catMissingLog :: b1.log })
  | (true, b1) =>
    let category := b1.currentBufferSegment
    let b2 := { b1 with serialBuffer := b1.serialBuffer.take (b1.serialBuffer.length - 2) }
    dispatchTail (processSerialPacket category b2)

/-- Lines 222-233 of `readSerial`: take the packet-number segment (else log,
bump the counter, fail), parse it with `std::stoi` — whose exception is NOT
caught and escapes `readSerial` — cast to `uint32_t`, and on a mismatch with
the local counter log a desync and reset the local counter to the received
value; then continue with the category/dispatch stage. -/
def decodeSeqOnward (b : Bridge) : DecodeOutcome × Bridge :=
  match getNextSegment b with
  | (false, b1) =>
    (.seqMissing, { b1 with readPacketNum := b1.readPacketNum + 1, log := .seqMissingLog :: b1.log })
  | (true, b1) =>
    match stoiCore b1.currentBufferSegment with
    | none => (.seqParseException, b1)
    | some v =>
      let recvNum := intToU32 v
      let b2 :=
        if recvNum ≠ b1.readPacketNum then
          { b1 with readPacketNum := recvNum, log := .desync recvNum b1.readPacketNum :: b1.log }
        else b1
      dispatchStage b2

/-- Lines 186-257 of `readSerial`: the decode of one complete payload (the
bytes between the start pair and the stop byte). Too-short payloads and
checksum mismatches log and bump the read counter; a checksum-parse failure
logs and returns with the counter untouched. -/
def decodePacket (payload : List Char) (b0 : Bridge) : DecodeOutcome × Bridge :=
  let b := { b0 with serialBuffer := payload }
  if payload.length < 5 then
    (.tooShort, { b with readPacketNum := b.readPacketNum + 1, log := .tooShortLog :: b.log })
  else
    let b := { b with serialBufferIndex := 0 }
    let calcv := checksum8 (payload.take (payload.length - 2))
    match parseRecvChecksum payload with
    | none => (.checksumParseError, { b with log := .checksumParseFail :: b.log })
    | some recv =>
      if calcv ≠ recv then
        (.checksumMismatch,
         { b with readPacketNum := b.readPacketNum + 1, log := .chkMismatch recv calcv :: b.log })
      else decodeSeqOnward b

/-- Typed outbound argument, one per format character of `writeSerial`
("d" int32, "u" uint32, "s" string, "f" fixed-point float) — the spec's
tagged-argument view (section 4.7) of the varargs interface. -/
inductive WArg where
  | d (i : Int)
  | u (n : Nat)
  | s (str : List Char)
  | f (x : Int)
  deriving DecidableEq

/-- The text `sstream` receives for one argument. -/
def fmtArg : WArg → List Char
  | .d i => fmtInt i
  | .u n => natDec n
  | .s str => str
  | .f x => fmtFixed4 x

/-- The per-argument part of the outbound payload: a separator then the
argument's text, for each argument in order. -/
def argsText : List WArg → List Char
  | [] => []
  | a :: rest => '\t' :: fmtArg a ++ argsText rest

/-- `writeSerial(name, formats, ...)` (lines 336-394): builds
start bytes, write counter, separator, name, separator-prefixed arguments,
then the 8-bit checksum of every byte after the two start bytes, rendered in
hex ("0"-prefixed below 0x10), then the stop byte; writes the frame and
increments the write counter. Returns the transmitted frame. -/
def writeSerial (name : List Char) (args : List WArg) (b : Bridge) : List Char × Bridge :=
  let packet := PACKET_START_0 :: PACKET_START_1 ::
    (natDec b.writePacketNum ++ '\t' :: (name ++ argsText args))
  let calcv := checksum8 (packet.drop 2)
  let frame := packet ++ ((if calcv < 16 then ['0'] else []) ++ hexRep calcv) ++ [PACKET_STOP]
  (frame, { b with writePacketNum := b.writePacketNum + 1 })

/-- The readiness probe transmission of `checkReady()` (lines 105 and 117):
`writeSerial("?", "s", "dodobot")` — command name "?", format string "s"
(one string argument), argument "dodobot". -/
def checkReadyProbe (b : Bridge) : List Char × Bridge :=
  writeSerial ("?".toList) [.s ("dodobot".toList)] b

/-- `waitForPacketStart()` (lines 134-164) on the list of bytes that are (or
will become) available before the 50 ms window closes. One byte is read; if
it is `PACKET_START_0` a second byte is read and tested against
`PACKET_START_1`. The `c2` parameter threads the stale previously-read second
byte that line 155 tests while `c2` is otherwise uninitialized. When fewer
than two bytes remain the loop spins on `available() < 2` until the window
closes and returns false ("no frame yet"). Returns the flag, the unread
rest of the stream, and the final stale `c2`. -/
def waitForPacketStart : List Char → Char → Bool × List Char × Char
  | [], c2 => (false, [], c2)
  | [c], c2 => (false, [c], c2)
  | c1 :: r :: rs, c2 =>
    if c1 = PACKET_START_0 then
      if r = PACKET_START_1 then (true, rs, r)
      else waitForPacketStart rs r
    else if c1 = PACKET_STOP ∨ c2 = PACKET_STOP then (false, r :: rs, c2)
    else waitForPacketStart (r :: rs) c2

/-- The byte-accumulation loop of `readSerial` (lines 172-182): appends every
available byte until a `PACKET_STOP` arrives. The loop `while (true) { if
(available()) ... }` has no timeout, so if the stream ends with no stop byte
the code spins forever; `none` models that the loop never returns. -/
def accumulateFrame : List Char → Option (List Char × List Char)
  | [] => none
  | c :: rest =>
    if c = PACKET_STOP then some ([], rest)
    else (accumulateFrame rest).map (fun p => (c :: p.1, p.2))

/-- Overall outcome of one `readSerial()` call on a byte stream. -/
inductive ReadOutcome where
  | noStart
  | neverReturns
  | decoded (o : DecodeOutcome)
  deriving DecidableEq

/-- `readSerial()` (lines 166-258) on the stream of available bytes:
start-pair search, byte accumulation until the stop byte (`neverReturns` if
it never arrives), then the payload decode. Returns the outcome, the updated
bridge, and the bytes left in the stream. -/
def readSerialM (stream : List Char) (c2 : Char) (b : Bridge) : ReadOutcome × Bridge × List Char :=
  match waitForPacketStart stream c2 with
  | (false, rest, _) => (.noStart, b, rest)
  | (true, rest, _) =>
    match accumulateFrame rest with
    | none => (.neverReturns, b, [])
    | some (payload, rest1) =>
      let r := decodePacket payload b
      (.decoded r.1, r.2, rest1)

/-- The driving loop (`run()`/`loop()`, lines 409-454) at per-payload
granularity: each received payload is decoded in turn; every outcome is
locally recovered except the uncaught sequence-parse exception, which
escapes `readSerial` and `loop`, is caught by the `try` in `run()`, sets
exit code 1 and breaks the loop. Returns the exit code and final state. -/
def runSession : List (List Char) → Bridge → Nat × Bridge
  | [], b => (0, b)
  | p :: ps, b =>
    match decodePacket p b with
    | (.seqParseException, b1) => (1, b1)
    | (_, b1) => runSession ps b1

/-- A stream contains a consecutive start-marker pair
(`PACKET_START_0` immediately followed by `PACKET_START_1`). -/
def containsStartPair : List Char → Bool
  | [] => false
  | [_] => false
  | c1 :: c2 :: rest =>
    (c1 = PACKET_START_0 ∧ c2 = PACKET_START_1) ∨ containsStartPair (c2 :: rest)

/-- One row of the category/command table (spec section 4.4), carrying the
typed field values the host would encode: the device-ms stamp, the
category-specific fields, and for `batt` the consumed-but-unused power
field. Used to state the encode/decode round trip. -/
inductive CatCmd where
  | txrx (pn : Nat) (ec : Int)
  | state (ms : Nat) (act bat mot : Bool) (rate : Int)
  | enc (ms : Nat) (lt rt : Int) (ls rs : Int)
  | bump (ms : Nat) (v1 v2 : Int)
  | fsr (ms : Nat) (lv rv : Nat)
  | grip (ms : Nat) (pos : Int)
  | linear (ms : Nat) (pos : Nat) (he hm ia : Bool)
  | batt (ms : Nat) (cur : Int) (unused : Nat) (volt : Int)
  | tilt (ms : Nat) (pos : Int)
  | ready (ms : Nat) (name : List Char)

/-- Boolean fields travel as the integers 0/1. -/
def boolArg (f : Bool) : WArg := .d (if f then 1 else 0)

/-- The wire category token of a table row. -/
def cmdName : CatCmd → List Char
  | .txrx .. => "txrx".toList
  | .state .. => "state".toList
  | .enc .. => "enc".toList
  | .bump .. => "bump".toList
  | .fsr .. => "fsr".toList
  | .grip .. => "grip".toList
  | .linear .. => "linear".toList
  | .batt .. => "batt".toList
  | .tilt .. => "tilt".toList
  | .ready .. => "ready".toList

/-- The tagged argument list of a table row, in the wire field order of
spec section 4.4. -/
def cmdArgs : CatCmd → List WArg
  | .txrx pn ec => [.u pn, .d ec]
  | .state ms act bat mot rate => [.u ms, boolArg act, boolArg bat, boolArg mot, .f rate]
  | .enc ms lt rt ls rs => [.u ms, .d lt, .d rt, .f ls, .f rs]
  | .bump ms v1 v2 => [.u ms, .d v1, .d v2]
  | .fsr ms lv rv => [.u ms, .u lv, .u rv]
  | .grip ms pos => [.u ms, .d pos]
  | .linear ms pos he hm ia => [.u ms, .u pos, boolArg he, boolArg hm, boolArg ia]
  | .batt ms cur unused volt => [.u ms, .f cur, .u unused, .f volt]
  | .tilt ms pos => [.u ms, .d pos]
  | .ready ms name => [.u ms, .s name]

/-- Ranges under which the decode-side parses and narrowing casts reproduce
the encoded values: device-ms fits the parse used by that category (`stoi`
for `state` and `ready`, `stol` elsewhere) and the `uint32_t` cast; `d`-tag
fields are `int32` values; `uint16_t`-cast fields fit 16 bits; string fields
are nonempty and free of the separator and stop bytes. -/
def WFCmd : CatCmd → Prop
  | .txrx pn ec => pn ≤ 2147483647 ∧ -2147483648 ≤ ec ∧ ec ≤ 2147483647
  | .state ms _ _ _ _ => ms ≤ 2147483647
  | .enc ms lt rt _ _ => ms < 4294967296 ∧ -2147483648 ≤ lt ∧ lt ≤ 2147483647 ∧
      -2147483648 ≤ rt ∧ rt ≤ 2147483647
  | .bump ms v1 v2 => ms < 4294967296 ∧ -2147483648 ≤ v1 ∧ v1 ≤ 2147483647 ∧
      -2147483648 ≤ v2 ∧ v2 ≤ 2147483647
  | .fsr ms lv rv => ms < 4294967296 ∧ lv < 65536 ∧ rv < 65536
  | .grip ms pos => ms < 4294967296 ∧ -2147483648 ≤ pos ∧ pos ≤ 2147483647
  | .linear ms pos _ _ _ => ms < 4294967296 ∧ pos < 65536
  | .batt ms _ unused _ => ms < 4294967296 ∧ unused ≤ 2147483647
  | .tilt ms pos => ms < 4294967296 ∧ -2147483648 ≤ pos ∧ pos ≤ 2147483647
  | .ready ms name => ms ≤ 2147483647 ∧ name ≠ [] ∧ '\t' ∉ name ∧ PACKET_STOP ∉ name

/-- What "the decode reproduced the encoded category and field values" means
for each table row: the decoded record published (or the device/readiness
state written, or the `txrx` log entry) carries exactly the encoded field
values, with device-ms resolved through `getDeviceTime`. `b1` is the state
in which the decode started and `b2` its result. -/
def Reproduces : CatCmd → Bridge → Bridge → Prop
  | .txrx pn ec, b1, b2 =>
      (ec ≠ 0 → b2.log.head? = some (.packetError ec pn)) ∧
      (ec = 0 → b2.pub = b1.pub ∧ b2.robotState = b1.robotState ∧ b2.readyState = b1.readyState)
  | .state ms act bat mot rate, _, b2 =>
      b2.robotState = ⟨ms, act, bat, mot, rate⟩
  | .enc ms lt rt ls rs, b1, b2 =>
      b2.pub = .drive
        { b1.driveMsg with
          stampMs := getDeviceTimeMs b1 ms,
          left_ticks := lt,
          right_ticks := rt,
          left_speed := ls,
          right_speed := rs } :: b1.pub
  | .bump ms v1 v2, b1, b2 =>
      b2.pub = .bumper
        { b1.driveMsg with
          stampMs := getDeviceTimeMs b1 ms,
          bump1 := v1,
          bump2 := v2 } :: b1.pub
  | .fsr ms lv rv, b1, b2 =>
      b2.pub = .fsr ⟨getDeviceTimeMs b1 ms, lv, rv⟩ :: b1.pub
  | .grip ms pos, b1, b2 =>
      b2.pub = .gripper ⟨getDeviceTimeMs b1 ms, pos⟩ :: b1.pub
  | .linear ms pos he hm ia, b1, b2 =>
      b2.pub = .linear ⟨getDeviceTimeMs b1 ms, pos, he, hm, ia⟩ :: b1.pub
  | .batt ms cur _ volt, b1, b2 =>
      b2.pub = .battery ⟨getDeviceTimeMs b1 ms, cur, volt⟩ :: b1.pub
  | .tilt ms pos, b1, b2 =>
      b2.pub = .tilter ⟨getDeviceTimeMs b1 ms, pos⟩ :: b1.pub
  | .ready ms name, _, b2 =>
      b2.readyState = ⟨name, true, ms⟩

/-- The bridge state in which the dispatcher runs when a frame encoded by
`writeSerial name (a0 :: rest) b` is fed straight back through the receiver
and validator: write counter already incremented, working buffer holding the
payload with the category tokenized, and the read counter resynchronized to
the frame's sequence number when it differed. -/
def rtState (b : Bridge) (name : List Char) (a0 : WArg) (rest : List WArg) : Bridge :=
  { b with
    writePacketNum := b.writePacketNum + 1,
    serialBuffer := natDec b.writePacketNum ++ '\t' :: (name ++ argsText (a0 :: rest)),
    serialBufferIndex := 0 + (natDec b.writePacketNum).length + 1 + name.length + 1,
    currentBufferSegment := name,
    currentSegmentNum := b.currentSegmentNum + 1 + 1,
    readPacketNum :=
      if b.writePacketNum = b.readPacketNum then b.readPacketNum else b.writePacketNum,
    log :=
      if b.writePacketNum = b.readPacketNum then b.log
      else .desync b.writePacketNum b.readPacketNum :: b.log }

/-! Lemma kit: characters, digits, decimal and hex rendering. -/

theorem charNe_of_toNat_ne {c d : Char} (h : c.toNat ≠ d.toNat) : c ≠ d :=
  fun he => h (congrArg Char.toNat he)

theorem digitChar_toNat : ∀ d : Fin 10, (digitChar d.val).toNat = 48 + d.val := by decide

theorem digitChar_isDigit : ∀ d : Fin 10, isDigitB (digitChar d.val) = true := by decide

theorem hexChar_hexVal : ∀ d : Fin 16, hexVal (hexChar d.val) = some d.val := by decide

theorem isDigitB_toNat {c : Char} (h : isDigitB c = true) : 48 ≤ c.toNat ∧ c.toNat ≤ 57 := by
  simpa [isDigitB] using h

theorem digit_not_space {c : Char} (h : isDigitB c = true) : isSpaceC c = false := by
  rcases isDigitB_toNat h with ⟨h1, h2⟩
  simp only [isSpaceC, decide_eq_false_iff_not]
  omega

theorem digit_ne_tab {c : Char} (h : isDigitB c = true) : c ≠ '\t' := by
  rcases isDigitB_toNat h with ⟨h1, _⟩
  refine charNe_of_toNat_ne ?_
  have ht : ('\t').toNat = 9 := rfl
  omega

theorem digit_ne_stop {c : Char} (h : isDigitB c = true) : c ≠ PACKET_STOP := by
  rcases isDigitB_toNat h with ⟨h1, _⟩
  refine charNe_of_toNat_ne ?_
  have ht : PACKET_STOP.toNat = 10 := rfl
  omega

theorem digit_ne_minus {c : Char} (h : isDigitB c = true) : c ≠ '-' := by
  rcases isDigitB_toNat h with ⟨h1, _⟩
  refine charNe_of_toNat_ne ?_
  have ht : ('-').toNat = 45 := rfl
  omega

theorem digit_ne_plus {c : Char} (h : isDigitB c = true) : c ≠ '+' := by
  rcases isDigitB_toNat h with ⟨h1, _⟩
  refine charNe_of_toNat_ne ?_
  have ht : ('+').toNat = 43 := rfl
  omega

theorem dot_not_digit : isDigitB '.' = false := by decide

theorem natDecAux_spec :
    ∀ f n acc, n < f →
      ∃ ds, natDecAux f n acc = ds ++ acc ∧ ds ≠ [] ∧
        (∀ c ∈ ds, isDigitB c = true) ∧ digitsVal ds = n := by
  intro f
  induction f with
  | zero => intro n acc h; omega
  | succ f ih =>
    intro n acc h
    by_cases h10 : n < 10
    · refine ⟨[digitChar n], ?_, ?_, ?_, ?_⟩
      · simp [natDecAux, h10]
      · simp
      · intro c hc
        simp only [List.mem_singleton] at hc
        subst hc
        exact digitChar_isDigit ⟨n, h10⟩
      · have hv := digitChar_toNat ⟨n, h10⟩
        simp only [Fin.val_mk] at hv
        simp only [digitsVal, List.foldl]
        omega
    · have hdiv : n / 10 < f := by
        have : n / 10 < n := Nat.div_lt_self (by omega) (by omega)
        omega
      obtain ⟨ds, heq, hne, hdig, hval⟩ := ih (n / 10) (digitChar (n % 10) :: acc) hdiv
      refine ⟨ds ++ [digitChar (n % 10)], ?_, ?_, ?_, ?_⟩
      · simp only [natDecAux, if_neg h10]
        rw [heq, List.append_assoc]
        rfl
      · simp
      · intro c hc
        rcases List.mem_append.mp hc with hc | hc
        · exact hdig c hc
        · simp only [List.mem_singleton] at hc
          subst hc
          exact digitChar_isDigit ⟨n % 10, Nat.mod_lt _ (by omega)⟩
      · simp only [digitsVal, List.foldl_append, List.foldl]
        have h1 : digitsVal ds = n / 10 := hval
        have h2 := digitChar_toNat ⟨n % 10, Nat.mod_lt _ (by omega)⟩
        simp only [digitsVal] at h1
        rw [h1]
        simp only [Fin.val_mk] at h2
        omega

theorem natDec_spec (n : Nat) :
    natDec n ≠ [] ∧ (∀ c ∈ natDec n, isDigitB c = true) ∧ digitsVal (natDec n) = n := by
  obtain ⟨ds, heq, hne, hdig, hval⟩ := natDecAux_spec (n + 1) n [] (by omega)
  simp only [natDec, heq, List.append_nil]
  exact ⟨hne, hdig, hval⟩

theorem natDec_ne_nil (n : Nat) : natDec n ≠ [] := (natDec_spec n).1

theorem natDec_digits (n : Nat) : ∀ c ∈ natDec n, isDigitB c = true := (natDec_spec n).2.1

theorem natDec_val (n : Nat) : digitsVal (natDec n) = n := (natDec_spec n).2.2

theorem natDec_no_tab (n : Nat) : '\t' ∉ natDec n := by
  intro h
  exact digit_ne_tab (natDec_digits n _ h) rfl

theorem natDec_no_stop (n : Nat) : PACKET_STOP ∉ natDec n := by
  intro h
  exact digit_ne_stop (natDec_digits n _ h) rfl

/-! Lemma kit: the strtol-family parsers applied to rendered numbers. -/

theorem skipSpaces_of_head {c : Char} (rest : List Char) (h : isSpaceC c = false) :
    skipSpaces (c :: rest) = c :: rest := by
  simp [skipSpaces, h]

theorem splitDigits_all (ds : List Char) (h : ∀ c ∈ ds, isDigitB c = true) :
    splitDigits ds = (ds, []) := by
  induction ds with
  | nil => rfl
  | cons c rest ih =>
    have hc : isDigitB c = true := h c (List.mem_cons_self c rest)
    have := ih (fun d hd => h d (List.mem_cons_of_mem c hd))
    simp [splitDigits, hc, this]

theorem splitDigits_append (ds : List Char) {c : Char} (r : List Char)
    (h : ∀ d ∈ ds, isDigitB d = true) (hc : isDigitB c = false) :
    splitDigits (ds ++ c :: r) = (ds, c :: r) := by
  induction ds with
  | nil => simp [splitDigits, hc]
  | cons d rest ih =>
    have hd : isDigitB d = true := h d (List.mem_cons_self d rest)
    have := ih (fun e he => h e (List.mem_cons_of_mem d he))
    simp [splitDigits, hd, this]

theorem signSplit_of_head {c : Char} (rest : List Char) (h1 : c ≠ '-') (h2 : c ≠ '+') :
    signSplit (c :: rest) = (1, c :: rest) := by
  simp [signSplit, h1, h2]

theorem strtolVal_natDec (n : Nat) : strtolVal (natDec n) = some (n : Int) := by
  obtain ⟨c, t, hct⟩ := List.exists_cons_of_ne_nil (natDec_ne_nil n)
  have hcd : isDigitB c = true := by
    refine natDec_digits n c ?_
    rw [hct]; exact List.mem_cons_self c t
  have h1 : skipSpaces (natDec n) = natDec n := by
    rw [hct]; exact skipSpaces_of_head t (digit_not_space hcd)
  have h2 : signSplit (natDec n) = (1, natDec n) := by
    rw [hct]; exact signSplit_of_head t (digit_ne_minus hcd) (digit_ne_plus hcd)
  have h3 : splitDigits (natDec n) = (natDec n, []) := splitDigits_all _ (natDec_digits n)
  simp only [strtolVal, h1, h2, h3, if_neg (natDec_ne_nil n), natDec_val, one_mul]

theorem strtolVal_fmtInt (i : Int) : strtolVal (fmtInt i) = some i := by
  by_cases hneg : i < 0
  · have habs : ((i.natAbs : Nat) : Int) = -i := by
      omega
    simp only [fmtInt, if_pos hneg]
    have h1 : skipSpaces ('-' :: natDec i.natAbs) = '-' :: natDec i.natAbs :=
      skipSpaces_of_head _ (by decide)
    have h2 : signSplit ('-' :: natDec i.natAbs) = (-1, natDec i.natAbs) := by
      simp [signSplit]
    have h3 : splitDigits (natDec i.natAbs) = (natDec i.natAbs, []) :=
      splitDigits_all _ (natDec_digits _)
    simp only [strtolVal, h1, h2, h3, if_neg (natDec_ne_nil _), natDec_val]
    rw [habs]
    ring_nf
  · have habs : ((i.natAbs : Nat) : Int) = i := by
      omega
    simp only [fmtInt, if_neg hneg]
    rw [strtolVal_natDec, habs]

theorem stoiCore_fmtInt {i : Int} (h1 : -2147483648 ≤ i) (h2 : i ≤ 2147483647) :
    stoiCore (fmtInt i) = some i := by
  simp only [stoiCore, strtolVal_fmtInt]
  rw [if_neg (by omega)]

theorem stolCore_fmtInt {i : Int} (h1 : -9223372036854775808 ≤ i) (h2 : i ≤ 9223372036854775807) :
    stolCore (fmtInt i) = some i := by
  simp only [stolCore, strtolVal_fmtInt]
  rw [if_neg (by omega)]

theorem stoiCore_natDec {n : Nat} (h : n ≤ 2147483647) : stoiCore (natDec n) = some (n : Int) := by
  simp only [stoiCore, strtolVal_natDec]
  rw [if_neg (by omega)]

theorem stolCore_natDec {n : Nat} (h : n ≤ 9223372036854775807) :
    stolCore (natDec n) = some (n : Int) := by
  simp only [stolCore, strtolVal_natDec]
  rw [if_neg (by omega)]

theorem digitsVal_four (a b c d : Nat) (ha : a < 10) (hb : b < 10) (hc : c < 10) (hd : d < 10) :
    digitsVal [digitChar a, digitChar b, digitChar c, digitChar d] =
      1000 * a + 100 * b + 10 * c + d := by
  have h1 := digitChar_toNat ⟨a, ha⟩
  have h2 := digitChar_toNat ⟨b, hb⟩
  have h3 := digitChar_toNat ⟨c, hc⟩
  have h4 := digitChar_toNat ⟨d, hd⟩
  simp only [Fin.val_mk] at h1 h2 h3 h4
  simp only [digitsVal, List.foldl]
  omega

theorem fourFrac_val (r : Nat) :
    1000 * (r / 1000 % 10) + 100 * (r / 100 % 10) + 10 * (r / 10 % 10) + r % 10 = r % 10000 := by
  have e1 : r / 1000 % 10 = r % 10000 / 1000 := Nat.div_mod_eq_mod_mul_div r 1000 10
  have e2 : r / 100 % 10 = r % 1000 / 100 := Nat.div_mod_eq_mod_mul_div r 100 10
  have e3 : r / 10 % 10 = r % 100 / 10 := Nat.div_mod_eq_mod_mul_div r 10 10
  omega

theorem stofCore_digits (q : Nat) (fds : List Char)
    (hfd : ∀ c ∈ fds, isDigitB c = true) (hlen : fds.length = 4) :
    stofCore (natDec q ++ '.' :: fds) = some ((q * 10000 + digitsVal fds : Nat) : Int) := by
  obtain ⟨c, t, hct⟩ := List.exists_cons_of_ne_nil (natDec_ne_nil q)
  have hcd : isDigitB c = true := by
    refine natDec_digits q c ?_
    rw [hct]; exact List.mem_cons_self c t
  have h1 : skipSpaces (natDec q ++ '.' :: fds) = natDec q ++ '.' :: fds := by
    rw [hct, List.cons_append]
    exact skipSpaces_of_head _ (digit_not_space hcd)
  have h2 : signSplit (natDec q ++ '.' :: fds) = (1, natDec q ++ '.' :: fds) := by
    rw [hct, List.cons_append]
    exact signSplit_of_head _ (digit_ne_minus hcd) (digit_ne_plus hcd)
  have h3 : splitDigits (natDec q ++ '.' :: fds) = (natDec q, '.' :: fds) :=
    splitDigits_append _ _ (natDec_digits q) dot_not_digit
  have h4 : fracDigits ('.' :: fds) = fds := by
    simp [fracDigits, splitDigits_all fds hfd]
  have h5 : fds.take 4 = fds := List.take_of_length_le (by omega)
  simp only [stofCore, h1, h2, h3, h4, h5, hlen,
    Nat.sub_self, List.replicate_zero, List.append_nil, natDec_val, one_mul]
  rw [if_neg (fun hco => (natDec_ne_nil q) hco.1)]

theorem stofCore_neg_digits (q : Nat) (fds : List Char)
    (hfd : ∀ c ∈ fds, isDigitB c = true) (hlen : fds.length = 4) :
    stofCore ('-' :: (natDec q ++ '.' :: fds)) =
      some (-((q * 10000 + digitsVal fds : Nat) : Int)) := by
  have h1 : skipSpaces ('-' :: (natDec q ++ '.' :: fds)) = '-' :: (natDec q ++ '.' :: fds) :=
    skipSpaces_of_head _ (by decide)
  have h2 : signSplit ('-' :: (natDec q ++ '.' :: fds)) = (-1, natDec q ++ '.' :: fds) := by
    simp [signSplit]
  have h3 : splitDigits (natDec q ++ '.' :: fds) = (natDec q, '.' :: fds) :=
    splitDigits_append _ _ (natDec_digits q) dot_not_digit
  have h4 : fracDigits ('.' :: fds) = fds := by
    simp [fracDigits, splitDigits_all fds hfd]
  have h5 : fds.take 4 = fds := List.take_of_length_le (by omega)
  simp only [stofCore, h1, h2, h3, h4, h5, hlen,
    Nat.sub_self, List.replicate_zero, List.append_nil, natDec_val]
  rw [if_neg (fun hco => (natDec_ne_nil q) hco.1)]
  congr 1
  ring

theorem fmtFixed4_digits_val (r : Nat) :
    digitsVal [digitChar (r / 1000 % 10), digitChar (r / 100 % 10),
      digitChar (r / 10 % 10), digitChar (r % 10)] = r % 10000 := by
  rw [digitsVal_four _ _ _ _ (Nat.mod_lt _ (by omega)) (Nat.mod_lt _ (by omega))
    (Nat.mod_lt _ (by omega)) (Nat.mod_lt _ (by omega))]
  exact fourFrac_val r

theorem fmtFixed4_all_digits (r : Nat) :
    ∀ c ∈ [digitChar (r / 1000 % 10), digitChar (r / 100 % 10),
      digitChar (r / 10 % 10), digitChar (r % 10)], isDigitB c = true := by
  intro c hcm
  simp only [List.mem_cons, List.mem_singleton] at hcm
  rcases hcm with h | h | h | h | h
  · subst h; exact digitChar_isDigit ⟨_, Nat.mod_lt _ (by omega)⟩
  · subst h; exact digitChar_isDigit ⟨_, Nat.mod_lt _ (by omega)⟩
  · subst h; exact digitChar_isDigit ⟨_, Nat.mod_lt _ (by omega)⟩
  · subst h; exact digitChar_isDigit ⟨_, Nat.mod_lt _ (by omega)⟩
  · exact absurd h (by simp)

theorem stofCore_fmtFixed4 (x : Int) : stofCore (fmtFixed4 x) = some x := by
  by_cases hneg : x < 0
  · simp only [fmtFixed4, if_pos hneg, List.singleton_append, List.cons_append,
      List.nil_append]
    rw [stofCore_neg_digits _ _ (fmtFixed4_all_digits x.natAbs) (by simp),
      fmtFixed4_digits_val]
    have hdm : (x.natAbs / 10000 * 10000 + x.natAbs % 10000 : Nat) = x.natAbs := by omega
    rw [hdm]
    congr 1
    omega
  · simp only [fmtFixed4, if_neg hneg, List.nil_append]
    rw [stofCore_digits _ _ (fmtFixed4_all_digits x.natAbs) (by simp),
      fmtFixed4_digits_val]
    have hdm : (x.natAbs / 10000 * 10000 + x.natAbs % 10000 : Nat) = x.natAbs := by omega
    rw [hdm]
    congr 1
    omega

/-! Lemma kit: checksums and their hex rendering. -/

theorem checksum8_fold_lt (l : List Char) : ∀ a, a < 256 →
    l.foldl (fun a c => (a + c.toNat % 256) % 256) a < 256 := by
  induction l with
  | nil => intro a ha; simpa using ha
  | cons c rest ih =>
    intro a _
    exact ih _ (Nat.mod_lt _ (by omega))

theorem checksum8_lt (l : List Char) : checksum8 l < 256 :=
  checksum8_fold_lt l 0 (by omega)

theorem hexChar_ne_stop : ∀ d : Fin 16, hexChar d.val ≠ PACKET_STOP := by decide

theorem hexPad_spec (c : Nat) (h : c < 256) :
    ∃ d1 d2, (if c < 16 then ['0'] else []) ++ hexRep c = [d1, d2] ∧
      stoulHexPair d1 d2 = some c ∧ d1 ≠ PACKET_STOP ∧ d2 ≠ PACKET_STOP := by
  by_cases h16 : c < 16
  · refine ⟨'0', hexChar c, ?_, ?_, by decide, hexChar_ne_stop ⟨c, by omega⟩⟩
    · simp [hexRep, h16]
    · have hv := hexChar_hexVal ⟨c, by omega⟩
      simp only [Fin.val_mk] at hv
      have h0 : hexVal '0' = some 0 := by decide
      simp [stoulHexPair, h0, hv]
  · refine ⟨hexChar (c / 16), hexChar (c % 16), ?_, ?_,
      hexChar_ne_stop ⟨c / 16, by omega⟩, hexChar_ne_stop ⟨c % 16, Nat.mod_lt _ (by omega)⟩⟩
    · simp [hexRep, h16]
    · have hv1 := hexChar_hexVal ⟨c / 16, by omega⟩
      have hv2 := hexChar_hexVal ⟨c % 16, Nat.mod_lt _ (by omega)⟩
      simp only [Fin.val_mk] at hv1 hv2
      simp only [stoulHexPair, hv1, hv2]
      congr 1
      omega

/-! Lemma kit: the tokenizer on structured buffers. -/

theorem tabIdx_no_tab (seg : List Char) (h : '\t' ∉ seg) : tabIdx seg = none := by
  induction seg with
  | nil => rfl
  | cons c rest ih =>
    have hc : c ≠ '\t' := fun he => h (he ▸ List.mem_cons_self c rest)
    have hr := ih (fun hm => h (List.mem_cons_of_mem c hm))
    simp [tabIdx, hc, hr]

theorem tabIdx_append (seg rest : List Char) (h : '\t' ∉ seg) :
    tabIdx (seg ++ '\t' :: rest) = some seg.length := by
  induction seg with
  | nil => simp [tabIdx]
  | cons c s ih =>
    have hc : c ≠ '\t' := fun he => h (he ▸ List.mem_cons_self c s)
    have hr := ih (fun hm => h (List.mem_cons_of_mem c hm))
    simp [tabIdx, hc, hr]

theorem dropView_next {l : List Char} {i : Nat} {seg rest : List Char}
    (h : l.drop i = seg ++ '\t' :: rest) : l.drop (i + seg.length + 1) = rest := by
  have h1 : l.drop (i + seg.length + 1) = (l.drop i).drop (seg.length + 1) := by
    rw [List.drop_drop]
    ring_nf
  rw [h1, h]
  have h2 : seg ++ '\t' :: rest = (seg ++ ['\t']) ++ rest := by simp
  rw [h2]
  have h3 : (seg ++ ['\t']).length = seg.length + 1 := by simp
  rw [← h3, List.drop_left]

theorem getNextSegment_mid (b : Bridge) (seg rest : List Char)
    (hview : b.serialBuffer.drop b.serialBufferIndex = seg ++ '\t' :: rest)
    (hseg : '\t' ∉ seg) :
    getNextSegment b = (true,
      { b with currentBufferSegment := seg,
               serialBufferIndex := b.serialBufferIndex + seg.length + 1,
               currentSegmentNum := b.currentSegmentNum + 1 }) := by
  have hlt : b.serialBufferIndex < b.serialBuffer.length := by
    by_contra hge
    rw [List.drop_eq_nil_of_le (by omega)] at hview
    exact List.append_ne_nil_of_right_ne_nil seg (List.cons_ne_nil _ _) hview.symm
  have htab : tabIdx (b.serialBuffer.drop b.serialBufferIndex) = some seg.length := by
    rw [hview]; exact tabIdx_append seg rest hseg
  have htake : (b.serialBuffer.drop b.serialBufferIndex).take seg.length = seg := by
    rw [hview]
    have : seg ++ '\t' :: rest = seg ++ ('\t' :: rest) := rfl
    rw [this, List.take_left]
  simp only [getNextSegment]
  rw [if_neg (by omega), htab]
  simp [htake]

theorem getNextSegment_last (b : Bridge) (seg : List Char)
    (hview : b.serialBuffer.drop b.serialBufferIndex = seg)
    (hne : seg ≠ []) (hseg : '\t' ∉ seg) :
    getNextSegment b = (true,
      { b with currentBufferSegment := seg,
               serialBufferIndex := b.serialBuffer.length,
               currentSegmentNum := b.currentSegmentNum + 1 }) := by
  have hlt : b.serialBufferIndex < b.serialBuffer.length := by
    by_contra hge
    rw [List.drop_eq_nil_of_le (by omega)] at hview
    exact hne hview.symm
  have htab : tabIdx (b.serialBuffer.drop b.serialBufferIndex) = none := by
    rw [hview]; exact tabIdx_no_tab seg hseg
  simp only [getNextSegment]
  rw [if_neg (by omega), htab]
  simp [hview]

theorem getNextSegment_none (b : Bridge)
    (hview : b.serialBuffer.drop b.serialBufferIndex = []) :
    getNextSegment b = (false, { b with currentSegmentNum := -1 }) := by
  have hge : b.serialBufferIndex ≥ b.serialBuffer.length := by
    by_contra hlt
    have hlen := congrArg List.length hview
    rw [List.length_drop] at hlen
    simp only [List.length_nil] at hlen
    omega
  simp [getNextSegment, hge]

/-! Lemma kit: `CHECK_SEGMENT`-with-parse steps on structured buffers. -/

theorem nextSegStep_mid (b : Bridge) (seg rest : List Char)
    (hview : b.serialBuffer.drop b.serialBufferIndex = seg ++ '\t' :: rest)
    (hseg : '\t' ∉ seg) :
    nextSegStep b = .ok seg
      { b with currentBufferSegment := seg,
               serialBufferIndex := b.serialBufferIndex + seg.length + 1,
               currentSegmentNum := b.currentSegmentNum + 1 } := by
  simp [nextSegStep, getNextSegment_mid b seg rest hview hseg]

theorem nextSegStep_last (b : Bridge) (seg : List Char)
    (hview : b.serialBuffer.drop b.serialBufferIndex = seg)
    (hne : seg ≠ []) (hseg : '\t' ∉ seg) :
    nextSegStep b = .ok seg
      { b with currentBufferSegment := seg,
               serialBufferIndex := b.serialBuffer.length,
               currentSegmentNum := b.currentSegmentNum + 1 } := by
  simp [nextSegStep, getNextSegment_last b seg hview hne hseg]

theorem nextSegStep_none (b : Bridge)
    (hview : b.serialBuffer.drop b.serialBufferIndex = []) :
    nextSegStep b = .missing
      { b with currentSegmentNum := -1, log := .segmentMissing :: b.log } := by
  simp [nextSegStep, getNextSegment_none b hview]

theorem segParse_mid (parse : List Char → Option Int) (b : Bridge) (seg rest : List Char) (v : Int)
    (hview : b.serialBuffer.drop b.serialBufferIndex = seg ++ '\t' :: rest)
    (hseg : '\t' ∉ seg) (hp : parse seg = some v) :
    segParse parse b = .ok v
      { b with currentBufferSegment := seg,
               serialBufferIndex := b.serialBufferIndex + seg.length + 1,
               currentSegmentNum := b.currentSegmentNum + 1 } := by
  simp [segParse, nextSegStep_mid b seg rest hview hseg, hp]

theorem segParse_last (parse : List Char → Option Int) (b : Bridge) (seg : List Char) (v : Int)
    (hview : b.serialBuffer.drop b.serialBufferIndex = seg)
    (hne : seg ≠ []) (hseg : '\t' ∉ seg) (hp : parse seg = some v) :
    segParse parse b = .ok v
      { b with currentBufferSegment := seg,
               serialBufferIndex := b.serialBuffer.length,
               currentSegmentNum := b.currentSegmentNum + 1 } := by
  simp [segParse, nextSegStep_last b seg hview hne hseg, hp]

theorem segParse_mid_exn (parse : List Char → Option Int) (b : Bridge) (seg rest : List Char)
    (hview : b.serialBuffer.drop b.serialBufferIndex = seg ++ '\t' :: rest)
    (hseg : '\t' ∉ seg) (hp : parse seg = none) :
    segParse parse b = .exn
      { b with currentBufferSegment := seg,
               serialBufferIndex := b.serialBufferIndex + seg.length + 1,
               currentSegmentNum := b.currentSegmentNum + 1 } := by
  simp [segParse, nextSegStep_mid b seg rest hview hseg, hp]

theorem segParse_last_exn (parse : List Char → Option Int) (b : Bridge) (seg : List Char)
    (hview : b.serialBuffer.drop b.serialBufferIndex = seg)
    (hne : seg ≠ []) (hseg : '\t' ∉ seg) (hp : parse seg = none) :
    segParse parse b = .exn
      { b with currentBufferSegment := seg,
               serialBufferIndex := b.serialBuffer.length,
               currentSegmentNum := b.currentSegmentNum + 1 } := by
  simp [segParse, nextSegStep_last b seg hview hne hseg, hp]

theorem segParse_none (parse : List Char → Option Int) (b : Bridge)
    (hview : b.serialBuffer.drop b.serialBufferIndex = []) :
    segParse parse b = .missing
      { b with currentSegmentNum := -1, log := .segmentMissing :: b.log } := by
  simp [segParse, nextSegStep_none b hview]

/-! Lemma kit: the validator/decoder applied to a well-formed encoded payload. -/

theorem intToU32_coe (n : Nat) (h : n < 4294967296) : intToU32 (n : Int) = n := by
  simp only [intToU32]
  rw [Int.emod_eq_of_lt (by omega) (by omega)]
  simp

theorem take_prefix_pair (body : List Char) (d1 d2 : Char) :
    (body ++ [d1, d2]).take ((body ++ [d1, d2]).length - 2) = body := by
  have h : (body ++ [d1, d2]).length - 2 = body.length := by
    simp
  rw [h, List.take_left]

theorem drop_prefix_pair (body : List Char) (d1 d2 : Char) :
    (body ++ [d1, d2]).drop ((body ++ [d1, d2]).length - 2) = [d1, d2] := by
  have h : (body ++ [d1, d2]).length - 2 = body.length := by
    simp
  rw [h, List.drop_left]

theorem dispatchStage_mid (b : Bridge) (cat rest2 : List Char)
    (hview : b.serialBuffer.drop b.serialBufferIndex = cat ++ '\t' :: rest2)
    (hcat : '\t' ∉ cat) :
    dispatchStage b = dispatchTail (processSerialPacket cat
      { b with currentBufferSegment := cat,
               serialBufferIndex := b.serialBufferIndex + cat.length + 1,
               currentSegmentNum := b.currentSegmentNum + 1,
               serialBuffer := b.serialBuffer.take (b.serialBuffer.length - 2) }) := by
  simp only [dispatchStage, getNextSegment_mid b cat rest2 hview hcat]

theorem decode_encoded (b : Bridge) (w : Nat) (cat joined : List Char) (d1 d2 : Char)
    (hw : w ≤ 2147483647) (hcat_tab : '\t' ∉ cat) (hcat_ne : cat ≠ [])
    (hchk : stoulHexPair d1 d2 = some (checksum8 (natDec w ++ '\t' :: (cat ++ '\t' :: joined)))) :
    decodePacket (natDec w ++ '\t' :: (cat ++ '\t' :: joined) ++ [d1, d2]) b =
      dispatchTail (processSerialPacket cat
        { b with
          serialBuffer := natDec w ++ '\t' :: (cat ++ '\t' :: joined),
          serialBufferIndex := 0 + (natDec w).length + 1 + cat.length + 1,
          currentBufferSegment := cat,
          currentSegmentNum := b.currentSegmentNum + 1 + 1,
          readPacketNum := if w = b.readPacketNum then b.readPacketNum else w,
          log := if w = b.readPacketNum then b.log else .desync w b.readPacketNum :: b.log }) := by
  have hndne := natDec_ne_nil w
  have hndlen : 1 ≤ (natDec w).length := List.length_pos.mpr hndne
  have hcatlen : 1 ≤ cat.length := List.length_pos.mpr hcat_ne
  have hlen5 : ¬((natDec w ++ '\t' :: (cat ++ '\t' :: joined) ++ [d1, d2]).length < 5) := by
    simp only [List.length_append, List.length_cons]
    simp
    omega
  have htake := take_prefix_pair (natDec w ++ '\t' :: (cat ++ '\t' :: joined)) d1 d2
  have hdropchk := drop_prefix_pair (natDec w ++ '\t' :: (cat ++ '\t' :: joined)) d1 d2
  have hclt : checksum8 (natDec w ++ '\t' :: (cat ++ '\t' :: joined)) < 65536 :=
    lt_of_lt_of_le (checksum8_lt _) (by omega)
  have hrecv : parseRecvChecksum (natDec w ++ '\t' :: (cat ++ '\t' :: joined) ++ [d1, d2]) =
      some (checksum8 (natDec w ++ '\t' :: (cat ++ '\t' :: joined))) := by
    unfold parseRecvChecksum
    rw [hdropchk]
    simp only [hchk, Option.map_some']
    rw [Nat.mod_eq_of_lt hclt]
  have hd2 : (natDec w ++ '\t' :: (cat ++ '\t' :: joined) ++ [d1, d2]).drop
      (0 + (natDec w).length + 1) = cat ++ '\t' :: (joined ++ [d1, d2]) := by
    have hv : (natDec w ++ '\t' :: (cat ++ '\t' :: joined) ++ [d1, d2]).drop 0 =
        natDec w ++ '\t' :: (cat ++ '\t' :: joined ++ [d1, d2]) := by
      simp [List.append_assoc]
    have hstep := @dropView_next (natDec w ++ '\t' :: (cat ++ '\t' :: joined) ++ [d1, d2])
      0 (natDec w) (cat ++ '\t' :: joined ++ [d1, d2]) hv
    rw [hstep]
    simp [List.append_assoc]
  simp only [decodePacket, htake, hrecv]
  rw [if_neg hlen5, if_neg (by simp)]
  simp only [decodeSeqOnward]
  rw [getNextSegment_mid _ (natDec w) (cat ++ '\t' :: joined ++ [d1, d2])
    (by simp [List.append_assoc]) (natDec_no_tab w)]
  simp only [stoiCore_natDec hw]
  rw [intToU32_coe w (by omega)]
  by_cases hsync : w = b.readPacketNum
  · rw [if_neg (show ¬(w ≠ b.readPacketNum) from fun hne => hne hsync)]
    have hds := dispatchStage_mid
      { b with serialBuffer := natDec w ++ '\t' :: (cat ++ '\t' :: joined) ++ [d1, d2],
               serialBufferIndex := 0 + (natDec w).length + 1,
               currentBufferSegment := natDec w,
               currentSegmentNum := b.currentSegmentNum + 1 }
      cat (joined ++ [d1, d2]) (by exact hd2) hcat_tab
    simp only [] at hds
    rw [htake] at hds
    rw [hds]
    simp only [if_pos hsync]
  · rw [if_pos hsync]
    have hds := dispatchStage_mid
      { b with serialBuffer := natDec w ++ '\t' :: (cat ++ '\t' :: joined) ++ [d1, d2],
               serialBufferIndex := 0 + (natDec w).length + 1,
               currentBufferSegment := natDec w,
               currentSegmentNum := b.currentSegmentNum + 1,
               readPacketNum := w,
               log := .desync w b.readPacketNum :: b.log }
      cat (joined ++ [d1, d2]) (by exact hd2) hcat_tab
    simp only [] at hds
    rw [htake] at hds
    rw [hds]
    simp only [if_neg hsync]

/-! Lemma kit: the receiver and encoder on a complete well-formed frame. -/

theorem intToU16_coe (n : Nat) (h : n < 65536) : intToU16 (n : Int) = n := by
  simp only [intToU16]
  rw [Int.emod_eq_of_lt (by omega) (by omega)]
  simp

theorem intToU64_coe (n : Nat) (h : n ≤ 9223372036854775807) : intToU64 (n : Int) = n := by
  simp only [intToU64]
  rw [Int.emod_eq_of_lt (by omega) (by omega)]
  simp

theorem waitForPacketStart_frame (rest : List Char) (c2 : Char) :
    waitForPacketStart (PACKET_START_0 :: PACKET_START_1 :: rest) c2 =
      (true, rest, PACKET_START_1) := by
  simp [waitForPacketStart]

theorem accumulateFrame_clean (l rest : List Char) (h : PACKET_STOP ∉ l) :
    accumulateFrame (l ++ PACKET_STOP :: rest) = some (l, rest) := by
  induction l with
  | nil => simp [accumulateFrame]
  | cons c t ih =>
    have hc : c ≠ PACKET_STOP := fun he => h (he ▸ List.mem_cons_self c t)
    have ht := ih (fun hm => h (List.mem_cons_of_mem c hm))
    simp [accumulateFrame, hc, ht]

theorem writeSerial_frame (name : List Char) (args : List WArg) (b : Bridge) :
    ∃ d1 d2,
      (writeSerial name args b).1 =
        PACKET_START_0 :: PACKET_START_1 ::
          ((natDec b.writePacketNum ++ '\t' :: (name ++ argsText args)) ++ [d1, d2] ++
            [PACKET_STOP]) ∧
      (writeSerial name args b).2 = { b with writePacketNum := b.writePacketNum + 1 } ∧
      stoulHexPair d1 d2 =
        some (checksum8 (natDec b.writePacketNum ++ '\t' :: (name ++ argsText args))) ∧
      d1 ≠ PACKET_STOP ∧ d2 ≠ PACKET_STOP := by
  have hdrop : (PACKET_START_0 :: PACKET_START_1 ::
      (natDec b.writePacketNum ++ '\t' :: (name ++ argsText args))).drop 2 =
      natDec b.writePacketNum ++ '\t' :: (name ++ argsText args) := rfl
  obtain ⟨d1, d2, hpair, hparse, hne1, hne2⟩ :=
    hexPad_spec (checksum8 (natDec b.writePacketNum ++ '\t' :: (name ++ argsText args)))
      (checksum8_lt _)
  refine ⟨d1, d2, ?_, rfl, hparse, hne1, hne2⟩
  simp only [writeSerial, hdrop, hpair]
  simp [List.append_assoc]

theorem roundtrip_master (b : Bridge) (name : List Char) (a0 : WArg) (rest : List WArg)
    (cst : Char)
    (hw : b.writePacketNum ≤ 2147483647) (hnt : '\t' ∉ name) (hne : name ≠ [])
    (hsn : PACKET_STOP ∉ name) (hstop : PACKET_STOP ∉ fmtArg a0 ++ argsText rest) :
    readSerialM (writeSerial name (a0 :: rest) b).1 cst (writeSerial name (a0 :: rest) b).2 =
      (.decoded (dispatchTail (processSerialPacket name (rtState b name a0 rest))).1,
       (dispatchTail (processSerialPacket name (rtState b name a0 rest))).2, []) := by
  obtain ⟨d1, d2, hframe, hb2, hchk, hne1, hne2⟩ := writeSerial_frame name (a0 :: rest) b
  have htabstop : ('\t' : Char) ≠ PACKET_STOP := by decide
  have hargs_unfold : argsText (a0 :: rest) = '\t' :: (fmtArg a0 ++ argsText rest) := rfl
  have hnostop : PACKET_STOP ∉
      (natDec b.writePacketNum ++ '\t' :: (name ++ argsText (a0 :: rest))) ++ [d1, d2] := by
    intro hmem
    rcases List.mem_append.mp hmem with hm | hm
    · rcases List.mem_append.mp hm with hm1 | hm1
      · exact natDec_no_stop _ hm1
      · rcases List.mem_cons.mp hm1 with hm2 | hm2
        · exact htabstop hm2.symm
        · rcases List.mem_append.mp hm2 with hm3 | hm3
          · exact hsn hm3
          · rw [hargs_unfold] at hm3
            rcases List.mem_cons.mp hm3 with hm4 | hm4
            · exact htabstop hm4.symm
            · exact hstop hm4
    · rcases List.mem_cons.mp hm with hm1 | hm1
      · exact hne1 hm1.symm
      · rcases List.mem_cons.mp hm1 with hm2 | hm2
        · exact hne2 hm2.symm
        · simp at hm2
  have hdec : decodePacket
      ((natDec b.writePacketNum ++ '\t' :: (name ++ argsText (a0 :: rest))) ++ [d1, d2])
      { b with writePacketNum := b.writePacketNum + 1 } =
      dispatchTail (processSerialPacket name
        { { b with writePacketNum := b.writePacketNum + 1 } with
          serialBuffer := natDec b.writePacketNum ++ '\t' :: (name ++ argsText (a0 :: rest)),
          serialBufferIndex := 0 + (natDec b.writePacketNum).length + 1 + name.length + 1,
          currentBufferSegment := name,
          currentSegmentNum := b.currentSegmentNum + 1 + 1,
          readPacketNum :=
            if b.writePacketNum = b.readPacketNum then b.readPacketNum else b.writePacketNum,
          log :=
            if b.writePacketNum = b.readPacketNum then b.log
            else .desync b.writePacketNum b.readPacketNum :: b.log }) :=
    decode_encoded { b with writePacketNum := b.writePacketNum + 1 }
      b.writePacketNum name (fmtArg a0 ++ argsText rest) d1 d2 hw hnt hne hchk
  simp only [readSerialM, hframe, hb2, waitForPacketStart_frame]
  simp only [accumulateFrame_clean _ _ hnostop]
  rw [hdec]
  rfl

/-! Lemma kit: rendered arguments contain no separator or stop bytes. -/

theorem fmtInt_ne_nil (i : Int) : fmtInt i ≠ [] := by
  unfold fmtInt
  split
  · simp
  · exact natDec_ne_nil _

theorem fmtInt_no_tab (i : Int) : '\t' ∉ fmtInt i := by
  unfold fmtInt
  split
  · intro h
    rcases List.mem_cons.mp h with h | h
    · exact absurd h (by decide)
    · exact natDec_no_tab _ h
  · exact natDec_no_tab _

theorem fmtInt_no_stop (i : Int) : PACKET_STOP ∉ fmtInt i := by
  unfold fmtInt
  split
  · intro h
    rcases List.mem_cons.mp h with h | h
    · exact absurd h (by decide)
    · exact natDec_no_stop _ h
  · exact natDec_no_stop _

theorem fmtFixed4_ne_nil (x : Int) : fmtFixed4 x ≠ [] := by
  unfold fmtFixed4
  exact List.append_ne_nil_of_right_ne_nil _ (List.cons_ne_nil _ _)

theorem fmtFixed4_no_tab (x : Int) : '\t' ∉ fmtFixed4 x := by
  unfold fmtFixed4
  intro h
  rcases List.mem_append.mp h with h | h
  · rcases List.mem_append.mp h with h | h
    · split at h
      · rcases List.mem_singleton.mp h with h1
        exact absurd h1 (by decide)
      · simp at h
    · exact natDec_no_tab _ h
  · rcases List.mem_cons.mp h with h | h
    · exact absurd h (by decide)
    · exact digit_ne_tab (fmtFixed4_all_digits x.natAbs _ h) rfl

theorem fmtFixed4_no_stop (x : Int) : PACKET_STOP ∉ fmtFixed4 x := by
  unfold fmtFixed4
  intro h
  rcases List.mem_append.mp h with h | h
  · rcases List.mem_append.mp h with h | h
    · split at h
      · rcases List.mem_singleton.mp h with h1
        exact absurd h1 (by decide)
      · simp at h
    · exact natDec_no_stop _ h
  · rcases List.mem_cons.mp h with h | h
    · exact absurd h (by decide)
    · exact digit_ne_stop (fmtFixed4_all_digits x.natAbs _ h) rfl

theorem rtState_view (b : Bridge) (name : List Char) (a0 : WArg) (rest : List WArg) :
    (rtState b name a0 rest).serialBuffer.drop (rtState b name a0 rest).serialBufferIndex =
      fmtArg a0 ++ argsText rest := by
  have hv0 : (natDec b.writePacketNum ++
      '\t' :: (name ++ ('\t' :: (fmtArg a0 ++ argsText rest)))).drop 0 =
      natDec b.writePacketNum ++ '\t' :: (name ++ ('\t' :: (fmtArg a0 ++ argsText rest))) :=
    List.drop_zero _
  have h1 := @dropView_next
    (natDec b.writePacketNum ++ '\t' :: (name ++ ('\t' :: (fmtArg a0 ++ argsText rest))))
    0 (natDec b.writePacketNum) (name ++ ('\t' :: (fmtArg a0 ++ argsText rest))) hv0
  have h2 := @dropView_next
    (natDec b.writePacketNum ++ '\t' :: (name ++ ('\t' :: (fmtArg a0 ++ argsText rest))))
    (0 + (natDec b.writePacketNum).length + 1) name (fmtArg a0 ++ argsText rest) h1
  exact h2

theorem dispatch_tilt (bd : Bridge) (ms : Nat) (pos : Int)
    (hview : bd.serialBuffer.drop bd.serialBufferIndex =
      natDec ms ++ '\t' :: (fmtInt pos ++ argsText []))
    (hms : ms < 4294967296) (hp1 : -2147483648 ≤ pos) (hp2 : pos ≤ 2147483647) :
    parseTilter bd = (true,
      { bd with
        currentBufferSegment := fmtInt pos,
        serialBufferIndex := bd.serialBuffer.length,
        currentSegmentNum := bd.currentSegmentNum + 1 + 1,
        tilterMsg := ⟨getDeviceTimeMs bd ms, pos⟩,
        pub := .tilter ⟨getDeviceTimeMs bd ms, pos⟩ :: bd.pub }) := by
  have hs1 := segParse_mid stolCore bd (natDec ms) (fmtInt pos ++ argsText [])
    ((ms : Nat) : Int) hview (natDec_no_tab ms) (stolCore_natDec (by omega))
  have hview2 : bd.serialBuffer.drop (bd.serialBufferIndex + (natDec ms).length + 1) =
      fmtInt pos := by
    have h := dropView_next hview
    simpa [argsText] using h
  have hs2 := segParse_last stoiCore
    { bd with currentBufferSegment := natDec ms,
              serialBufferIndex := bd.serialBufferIndex + (natDec ms).length + 1,
              currentSegmentNum := bd.currentSegmentNum + 1,
              tilterMsg := { bd.tilterMsg with stampMs := getDeviceTimeMs bd ms } }
    (fmtInt pos) pos (by exact hview2) (fmtInt_ne_nil pos) (fmtInt_no_tab pos)
    (stoiCore_fmtInt hp1 hp2)
  simp only [getDeviceTimeMs] at hs2
  simp only [parseTilter, hs1, intToU32_coe ms hms, getDeviceTimeMs]
  simp only [hs2]

theorem boolVal_decide (f : Bool) : (decide ((if f then (1 : Int) else 0) ≠ 0)) = f := by
  cases f <;> decide

theorem dispatch_grip (bd : Bridge) (ms : Nat) (pos : Int)
    (hview : bd.serialBuffer.drop bd.serialBufferIndex =
      natDec ms ++ '\t' :: (fmtInt pos ++ argsText []))
    (hms : ms < 4294967296) (hp1 : -2147483648 ≤ pos) (hp2 : pos ≤ 2147483647) :
    parseGripper bd = (true,
      { bd with
        currentBufferSegment := fmtInt pos,
        serialBufferIndex := bd.serialBuffer.length,
        currentSegmentNum := bd.currentSegmentNum + 1 + 1,
        gripperMsg := ⟨getDeviceTimeMs bd ms, pos⟩,
        pub := .gripper ⟨getDeviceTimeMs bd ms, pos⟩ :: bd.pub }) := by
  have hs1 := segParse_mid stolCore bd (natDec ms) (fmtInt pos ++ argsText [])
    ((ms : Nat) : Int) hview (natDec_no_tab ms) (stolCore_natDec (by omega))
  have hview2 : bd.serialBuffer.drop (bd.serialBufferIndex + (natDec ms).length + 1) =
      fmtInt pos := by
    have h := dropView_next hview
    simpa [argsText] using h
  have hs2 := segParse_last stoiCore
    { bd with currentBufferSegment := natDec ms,
              serialBufferIndex := bd.serialBufferIndex + (natDec ms).length + 1,
              currentSegmentNum := bd.currentSegmentNum + 1,
              gripperMsg := { bd.gripperMsg with stampMs := getDeviceTimeMs bd ms } }
    (fmtInt pos) pos (by exact hview2) (fmtInt_ne_nil pos) (fmtInt_no_tab pos)
    (stoiCore_fmtInt hp1 hp2)
  simp only [getDeviceTimeMs] at hs2
  simp only [parseGripper, hs1, intToU32_coe ms hms, getDeviceTimeMs]
  simp only [hs2]

theorem dispatch_fsr (bd : Bridge) (ms lv rv : Nat)
    (hview : bd.serialBuffer.drop bd.serialBufferIndex =
      natDec ms ++ '\t' :: (natDec lv ++ ('\t' :: (natDec rv ++ argsText []))))
    (hms : ms < 4294967296) (hlv : lv < 65536) (hrv : rv < 65536) :
    parseFSR bd = (true,
      { bd with
        currentBufferSegment := natDec rv,
        serialBufferIndex := bd.serialBuffer.length,
        currentSegmentNum := bd.currentSegmentNum + 1 + 1 + 1,
        fsrMsg := ⟨getDeviceTimeMs bd ms, lv, rv⟩,
        pub := .fsr ⟨getDeviceTimeMs bd ms, lv, rv⟩ :: bd.pub }) := by
  have hs1 := segParse_mid stolCore bd (natDec ms)
    (natDec lv ++ ('\t' :: (natDec rv ++ argsText [])))
    ((ms : Nat) : Int) hview (natDec_no_tab ms) (stolCore_natDec (by omega))
  have hview2 := dropView_next hview
  have hs2 := segParse_mid stoiCore
    { bd with currentBufferSegment := natDec ms,
              serialBufferIndex := bd.serialBufferIndex + (natDec ms).length + 1,
              currentSegmentNum := bd.currentSegmentNum + 1,
              fsrMsg := { bd.fsrMsg with stampMs := getDeviceTimeMs bd ms } }
    (natDec lv) (natDec rv ++ argsText []) ((lv : Nat) : Int)
    (by exact hview2) (natDec_no_tab lv) (stoiCore_natDec (by omega))
  have hview3 : bd.serialBuffer.drop
      (bd.serialBufferIndex + (natDec ms).length + 1 + (natDec lv).length + 1) = natDec rv := by
    have h := dropView_next hview2
    simpa [argsText] using h
  have hs3 := segParse_last stoiCore
    { bd with currentBufferSegment := natDec lv,
              serialBufferIndex :=
                bd.serialBufferIndex + (natDec ms).length + 1 + (natDec lv).length + 1,
              currentSegmentNum := bd.currentSegmentNum + 1 + 1,
              fsrMsg := { bd.fsrMsg with stampMs := getDeviceTimeMs bd ms, left := lv } }
    (natDec rv) ((rv : Nat) : Int) (by exact hview3) (natDec_ne_nil rv) (natDec_no_tab rv)
    (stoiCore_natDec (by omega))
  simp only [getDeviceTimeMs] at hs2 hs3
  simp only [parseFSR, hs1, intToU32_coe ms hms, getDeviceTimeMs]
  simp only [hs2, intToU16_coe lv (by omega)]
  simp only [hs3, intToU16_coe rv (by omega)]

theorem dispatch_enc (bd : Bridge) (ms : Nat) (lt rt ls rs : Int)
    (hview : bd.serialBuffer.drop bd.serialBufferIndex =
      natDec ms ++ '\t' :: (fmtInt lt ++ ('\t' :: (fmtInt rt ++
        ('\t' :: (fmtFixed4 ls ++ ('\t' :: (fmtFixed4 rs ++ argsText []))))))))
    (hms : ms < 4294967296)
    (hlt1 : -2147483648 ≤ lt) (hlt2 : lt ≤ 2147483647)
    (hrt1 : -2147483648 ≤ rt) (hrt2 : rt ≤ 2147483647) :
    parseDrive bd = (true,
      { bd with
        currentBufferSegment := fmtFixed4 rs,
        serialBufferIndex := bd.serialBuffer.length,
        currentSegmentNum := bd.currentSegmentNum + 1 + 1 + 1 + 1 + 1,
        driveMsg :=
          { bd.driveMsg with
            stampMs := getDeviceTimeMs bd ms,
            left_ticks := lt,
            right_ticks := rt,
            left_speed := ls,
            right_speed := rs },
        pub := .drive
          { bd.driveMsg with
            stampMs := getDeviceTimeMs bd ms,
            left_ticks := lt,
            right_ticks := rt,
            left_speed := ls,
            right_speed := rs } :: bd.pub }) := by
  have hs1 := segParse_mid stolCore bd (natDec ms)
    (fmtInt lt ++ ('\t' :: (fmtInt rt ++
      ('\t' :: (fmtFixed4 ls ++ ('\t' :: (fmtFixed4 rs ++ argsText [])))))))
    ((ms : Nat) : Int) hview (natDec_no_tab ms) (stolCore_natDec (by omega))
  have hview2 := dropView_next hview
  have hs2 := segParse_mid stolCore
    { bd with
      currentBufferSegment := natDec ms,
      serialBufferIndex := bd.serialBufferIndex + (natDec ms).length + 1,
      currentSegmentNum := bd.currentSegmentNum + 1,
      driveMsg := { bd.driveMsg with stampMs := getDeviceTimeMs bd ms } }
    (fmtInt lt)
    (fmtInt rt ++ ('\t' :: (fmtFixed4 ls ++ ('\t' :: (fmtFixed4 rs ++ argsText [])))))
    lt (by exact hview2) (fmtInt_no_tab lt) (stolCore_fmtInt (by omega) (by omega))
  have hview3 := dropView_next hview2
  have hs3 := segParse_mid stolCore
    { bd with
      currentBufferSegment := fmtInt lt,
      serialBufferIndex :=
        bd.serialBufferIndex + (natDec ms).length + 1 + (fmtInt lt).length + 1,
      currentSegmentNum := bd.currentSegmentNum + 1 + 1,
      driveMsg :=
        { bd.driveMsg with
          stampMs := getDeviceTimeMs bd ms,
          left_ticks := lt } }
    (fmtInt rt) (fmtFixed4 ls ++ ('\t' :: (fmtFixed4 rs ++ argsText [])))
    rt (by exact hview3) (fmtInt_no_tab rt) (stolCore_fmtInt (by omega) (by omega))
  have hview4 := dropView_next hview3
  have hs4 := segParse_mid stofCore
    { bd with
      currentBufferSegment := fmtInt rt,
      serialBufferIndex := bd.serialBufferIndex + (natDec ms).length + 1 +
        (fmtInt lt).length + 1 + (fmtInt rt).length + 1,
      currentSegmentNum := bd.currentSegmentNum + 1 + 1 + 1,
      driveMsg :=
        { bd.driveMsg with
          stampMs := getDeviceTimeMs bd ms,
          left_ticks := lt,
          right_ticks := rt } }
    (fmtFixed4 ls) (fmtFixed4 rs ++ argsText [])
    ls (by exact hview4) (fmtFixed4_no_tab ls) (stofCore_fmtFixed4 ls)
  have hview5 : bd.serialBuffer.drop (bd.serialBufferIndex + (natDec ms).length + 1 +
      (fmtInt lt).length + 1 + (fmtInt rt).length + 1 + (fmtFixed4 ls).length + 1) =
      fmtFixed4 rs := by
    have h := dropView_next hview4
    simpa [argsText] using h
  have hs5 := segParse_last stofCore
    { bd with
      currentBufferSegment := fmtFixed4 ls,
      serialBufferIndex := bd.serialBufferIndex + (natDec ms).length + 1 +
        (fmtInt lt).length + 1 + (fmtInt rt).length + 1 + (fmtFixed4 ls).length + 1,
      currentSegmentNum := bd.currentSegmentNum + 1 + 1 + 1 + 1,
      driveMsg :=
        { bd.driveMsg with
          stampMs := getDeviceTimeMs bd ms,
          left_ticks := lt,
          right_ticks := rt,
          left_speed := ls } }
    (fmtFixed4 rs) rs (by exact hview5) (fmtFixed4_ne_nil rs) (fmtFixed4_no_tab rs)
    (stofCore_fmtFixed4 rs)
  simp only [getDeviceTimeMs] at hs2 hs3 hs4 hs5
  simp only [parseDrive, hs1, intToU32_coe ms hms, getDeviceTimeMs]
  simp only [hs2]
  simp only [hs3]
  simp only [hs4]
  simp only [hs5]

theorem dispatch_bump (bd : Bridge) (ms : Nat) (v1 v2 : Int)
    (hview : bd.serialBuffer.drop bd.serialBufferIndex =
      natDec ms ++ '\t' :: (fmtInt v1 ++ ('\t' :: (fmtInt v2 ++ argsText []))))
    (hms : ms < 4294967296)
    (hv11 : -2147483648 ≤ v1) (hv12 : v1 ≤ 2147483647)
    (hv21 : -2147483648 ≤ v2) (hv22 : v2 ≤ 2147483647) :
    parseBumper bd = (true,
      { bd with
        currentBufferSegment := fmtInt v2,
        serialBufferIndex := bd.serialBuffer.length,
        currentSegmentNum := bd.currentSegmentNum + 1 + 1 + 1,
        driveMsg :=
          { bd.driveMsg with
            stampMs := getDeviceTimeMs bd ms,
            bump1 := v1,
            bump2 := v2 },
        pub := .bumper
          { bd.driveMsg with
            stampMs := getDeviceTimeMs bd ms,
            bump1 := v1,
            bump2 := v2 } :: bd.pub }) := by
  have hs1 := segParse_mid stolCore bd (natDec ms)
    (fmtInt v1 ++ ('\t' :: (fmtInt v2 ++ argsText [])))
    ((ms : Nat) : Int) hview (natDec_no_tab ms) (stolCore_natDec (by omega))
  have hview2 := dropView_next hview
  have hs2 := segParse_mid stolCore
    { bd with
      currentBufferSegment := natDec ms,
      serialBufferIndex := bd.serialBufferIndex + (natDec ms).length + 1,
      currentSegmentNum := bd.currentSegmentNum + 1,
      driveMsg := { bd.driveMsg with stampMs := getDeviceTimeMs bd ms } }
    (fmtInt v1) (fmtInt v2 ++ argsText [])
    v1 (by exact hview2) (fmtInt_no_tab v1) (stolCore_fmtInt (by omega) (by omega))
  have hview3 : bd.serialBuffer.drop
      (bd.serialBufferIndex + (natDec ms).length + 1 + (fmtInt v1).length + 1) =
      fmtInt v2 := by
    have h := dropView_next hview2
    simpa [argsText] using h
  have hs3 := segParse_last stolCore
    { bd with
      currentBufferSegment := fmtInt v1,
      serialBufferIndex :=
        bd.serialBufferIndex + (natDec ms).length + 1 + (fmtInt v1).length + 1,
      currentSegmentNum := bd.currentSegmentNum + 1 + 1,
      driveMsg :=
        { bd.driveMsg with
          stampMs := getDeviceTimeMs bd ms,
          bump1 := v1 } }
    (fmtInt v2) v2 (by exact hview3) (fmtInt_ne_nil v2) (fmtInt_no_tab v2)
    (stolCore_fmtInt (by omega) (by omega))
  simp only [getDeviceTimeMs] at hs2 hs3
  simp only [parseBumper, hs1, intToU32_coe ms hms, getDeviceTimeMs]
  simp only [hs2]
  simp only [hs3]

theorem dispatch_batt (bd : Bridge) (ms : Nat) (cur : Int) (unused : Nat) (volt : Int)
    (hview : bd.serialBuffer.drop bd.serialBufferIndex =
      natDec ms ++ '\t' :: (fmtFixed4 cur ++ ('\t' :: (natDec unused ++
        ('\t' :: (fmtFixed4 volt ++ argsText []))))))
    (hms : ms < 4294967296) :
    parseBattery bd = (true,
      { bd with
        currentBufferSegment := fmtFixed4 volt,
        serialBufferIndex := bd.serialBuffer.length,
        currentSegmentNum := bd.currentSegmentNum + 1 + 1 + 1 + 1,
        batteryMsg := ⟨getDeviceTimeMs bd ms, cur, volt⟩,
        pub := .battery ⟨getDeviceTimeMs bd ms, cur, volt⟩ :: bd.pub }) := by
  have hs1 := segParse_mid stolCore bd (natDec ms)
    (fmtFixed4 cur ++ ('\t' :: (natDec unused ++ ('\t' :: (fmtFixed4 volt ++ argsText [])))))
    ((ms : Nat) : Int) hview (natDec_no_tab ms) (stolCore_natDec (by omega))
  have hview2 := dropView_next hview
  have hs2 := segParse_mid stofCore
    { bd with
      currentBufferSegment := natDec ms,
      serialBufferIndex := bd.serialBufferIndex + (natDec ms).length + 1,
      currentSegmentNum := bd.currentSegmentNum + 1,
      batteryMsg := { bd.batteryMsg with stampMs := getDeviceTimeMs bd ms } }
    (fmtFixed4 cur) (natDec unused ++ ('\t' :: (fmtFixed4 volt ++ argsText [])))
    cur (by exact hview2) (fmtFixed4_no_tab cur) (stofCore_fmtFixed4 cur)
  have hview3 := dropView_next hview2
  have hs3 := nextSegStep_mid
    { bd with
      currentBufferSegment := fmtFixed4 cur,
      serialBufferIndex :=
        bd.serialBufferIndex + (natDec ms).length + 1 + (fmtFixed4 cur).length + 1,
      currentSegmentNum := bd.currentSegmentNum + 1 + 1,
      batteryMsg :=
        { bd.batteryMsg with
          stampMs := getDeviceTimeMs bd ms,
          current := cur } }
    (natDec unused) (fmtFixed4 volt ++ argsText [])
    (by exact hview3) (natDec_no_tab unused)
  have hview4 : bd.serialBuffer.drop (bd.serialBufferIndex + (natDec ms).length + 1 +
      (fmtFixed4 cur).length + 1 + (natDec unused).length + 1) = fmtFixed4 volt := by
    have h := dropView_next hview3
    simpa [argsText] using h
  have hs4 := segParse_last stofCore
    { bd with
      currentBufferSegment := natDec unused,
      serialBufferIndex := bd.serialBufferIndex + (natDec ms).length + 1 +
        (fmtFixed4 cur).length + 1 + (natDec unused).length + 1,
      currentSegmentNum := bd.currentSegmentNum + 1 + 1 + 1,
      batteryMsg :=
        { bd.batteryMsg with
          stampMs := getDeviceTimeMs bd ms,
          current := cur } }
    (fmtFixed4 volt) volt (by exact hview4) (fmtFixed4_ne_nil volt) (fmtFixed4_no_tab volt)
    (stofCore_fmtFixed4 volt)
  simp only [getDeviceTimeMs] at hs2 hs3 hs4
  simp only [parseBattery, hs1, intToU32_coe ms hms, getDeviceTimeMs]
  simp only [hs2]
  simp only [segRaw, hs3]
  simp only [hs4]

theorem boolInt_lb (f : Bool) : -2147483648 ≤ (if f then (1 : Int) else 0) := by
  cases f <;> norm_num

theorem boolInt_ub (f : Bool) : (if f then (1 : Int) else 0) ≤ 2147483647 := by
  cases f <;> norm_num

theorem dispatch_linear (bd : Bridge) (ms pos : Nat) (he hm ia : Bool)
    (hview : bd.serialBuffer.drop bd.serialBufferIndex =
      natDec ms ++ '\t' :: (natDec pos ++ ('\t' :: (fmtInt (if he then 1 else 0) ++
        ('\t' :: (fmtInt (if hm then 1 else 0) ++
          ('\t' :: (fmtInt (if ia then 1 else 0) ++ argsText []))))))))
    (hms : ms < 4294967296) (hpos : pos < 65536) :
    parseLinear bd = (true,
      { bd with
        currentBufferSegment := fmtInt (if ia then 1 else 0),
        serialBufferIndex := bd.serialBuffer.length,
        currentSegmentNum := bd.currentSegmentNum + 1 + 1 + 1 + 1 + 1,
        linearMsg := ⟨getDeviceTimeMs bd ms, pos, he, hm, ia⟩,
        pub := .linear ⟨getDeviceTimeMs bd ms, pos, he, hm, ia⟩ :: bd.pub }) := by
  have hs1 := segParse_mid stolCore bd (natDec ms)
    (natDec pos ++ ('\t' :: (fmtInt (if he then 1 else 0) ++
      ('\t' :: (fmtInt (if hm then 1 else 0) ++
        ('\t' :: (fmtInt (if ia then 1 else 0) ++ argsText [])))))))
    ((ms : Nat) : Int) hview (natDec_no_tab ms) (stolCore_natDec (by omega))
  have hview2 := dropView_next hview
  have hs2 := segParse_mid stoiCore
    { bd with
      currentBufferSegment := natDec ms,
      serialBufferIndex := bd.serialBufferIndex + (natDec ms).length + 1,
      currentSegmentNum := bd.currentSegmentNum + 1,
      linearMsg := { bd.linearMsg with stampMs := getDeviceTimeMs bd ms } }
    (natDec pos)
    (fmtInt (if he then 1 else 0) ++ ('\t' :: (fmtInt (if hm then 1 else 0) ++
      ('\t' :: (fmtInt (if ia then 1 else 0) ++ argsText [])))))
    ((pos : Nat) : Int) (by exact hview2) (natDec_no_tab pos) (stoiCore_natDec (by omega))
  have hview3 := dropView_next hview2
  have hs3 := segParse_mid stoiCore
    { bd with
      currentBufferSegment := natDec pos,
      serialBufferIndex :=
        bd.serialBufferIndex + (natDec ms).length + 1 + (natDec pos).length + 1,
      currentSegmentNum := bd.currentSegmentNum + 1 + 1,
      linearMsg :=
        { bd.linearMsg with
          stampMs := getDeviceTimeMs bd ms,
          position := pos } }
    (fmtInt (if he then 1 else 0))
    (fmtInt (if hm then 1 else 0) ++ ('\t' :: (fmtInt (if ia then 1 else 0) ++ argsText [])))
    (if he then 1 else 0) (by exact hview3) (fmtInt_no_tab _)
    (stoiCore_fmtInt (boolInt_lb he) (boolInt_ub he))
  have hview4 := dropView_next hview3
  have hs4 := segParse_mid stoiCore
    { bd with
      currentBufferSegment := fmtInt (if he then 1 else 0),
      serialBufferIndex := bd.serialBufferIndex + (natDec ms).length + 1 +
        (natDec pos).length + 1 + (fmtInt (if he then 1 else 0)).length + 1,
      currentSegmentNum := bd.currentSegmentNum + 1 + 1 + 1,
      linearMsg :=
        { bd.linearMsg with
          stampMs := getDeviceTimeMs bd ms,
          position := pos,
          has_error := he } }
    (fmtInt (if hm then 1 else 0))
    (fmtInt (if ia then 1 else 0) ++ argsText [])
    (if hm then 1 else 0) (by exact hview4) (fmtInt_no_tab _)
    (stoiCore_fmtInt (boolInt_lb hm) (boolInt_ub hm))
  have hview5 : bd.serialBuffer.drop (bd.serialBufferIndex + (natDec ms).length + 1 +
      (natDec pos).length + 1 + (fmtInt (if he then 1 else 0)).length + 1 +
      (fmtInt (if hm then 1 else 0)).length + 1) = fmtInt (if ia then 1 else 0) := by
    have h := dropView_next hview4
    simpa [argsText] using h
  have hs5 := segParse_last stoiCore
    { bd with
      currentBufferSegment := fmtInt (if hm then 1 else 0),
      serialBufferIndex := bd.serialBufferIndex + (natDec ms).length + 1 +
        (natDec pos).length + 1 + (fmtInt (if he then 1 else 0)).length + 1 +
        (fmtInt (if hm then 1 else 0)).length + 1,
      currentSegmentNum := bd.currentSegmentNum + 1 + 1 + 1 + 1,
      linearMsg :=
        { bd.linearMsg with
          stampMs := getDeviceTimeMs bd ms,
          position := pos,
          has_error := he,
          is_homed := hm } }
    (fmtInt (if ia then 1 else 0)) (if ia then 1 else 0) (by exact hview5)
    (fmtInt_ne_nil _) (fmtInt_no_tab _)
    (stoiCore_fmtInt (boolInt_lb ia) (boolInt_ub ia))
  simp only [getDeviceTimeMs] at hs2 hs3 hs4 hs5
  simp only [parseLinear, hs1, intToU32_coe ms hms, getDeviceTimeMs]
  simp only [hs2, intToU16_coe pos (by omega)]
  simp only [hs3, boolVal_decide]
  simp only [hs4, boolVal_decide]
  simp only [hs5, boolVal_decide]

theorem dispatch_state (bd : Bridge) (ms : Nat) (act bat mot : Bool) (rate : Int)
    (hview : bd.serialBuffer.drop bd.serialBufferIndex =
      natDec ms ++ '\t' :: (fmtInt (if act then 1 else 0) ++
        ('\t' :: (fmtInt (if bat then 1 else 0) ++
          ('\t' :: (fmtInt (if mot then 1 else 0) ++
            ('\t' :: (fmtFixed4 rate ++ argsText []))))))))
    (hms : ms ≤ 2147483647) :
    processSerialPacket ("state".toList) bd = (true,
      { bd with
        currentBufferSegment := fmtFixed4 rate,
        serialBufferIndex := bd.serialBuffer.length,
        currentSegmentNum := bd.currentSegmentNum + 1 + 1 + 1 + 1 + 1,
        robotState := ⟨ms, act, bat, mot, rate⟩ }) := by
  have hs1 := segParse_mid stoiCore bd (natDec ms)
    (fmtInt (if act then 1 else 0) ++ ('\t' :: (fmtInt (if bat then 1 else 0) ++
      ('\t' :: (fmtInt (if mot then 1 else 0) ++ ('\t' :: (fmtFixed4 rate ++ argsText [])))))))
    ((ms : Nat) : Int) hview (natDec_no_tab ms) (stoiCore_natDec (by omega))
  have hview2 := dropView_next hview
  have hs2 := segParse_mid stoiCore
    { bd with
      currentBufferSegment := natDec ms,
      serialBufferIndex := bd.serialBufferIndex + (natDec ms).length + 1,
      currentSegmentNum := bd.currentSegmentNum + 1,
      robotState := { bd.robotState with time_ms := ms } }
    (fmtInt (if act then 1 else 0))
    (fmtInt (if bat then 1 else 0) ++ ('\t' :: (fmtInt (if mot then 1 else 0) ++
      ('\t' :: (fmtFixed4 rate ++ argsText [])))))
    (if act then 1 else 0) (by exact hview2) (fmtInt_no_tab _)
    (stoiCore_fmtInt (boolInt_lb act) (boolInt_ub act))
  have hview3 := dropView_next hview2
  have hs3 := segParse_mid stoiCore
    { bd with
      currentBufferSegment := fmtInt (if act then 1 else 0),
      serialBufferIndex := bd.serialBufferIndex + (natDec ms).length + 1 +
        (fmtInt (if act then 1 else 0)).length + 1,
      currentSegmentNum := bd.currentSegmentNum + 1 + 1,
      robotState :=
        { bd.robotState with
          time_ms := ms,
          is_active := act } }
    (fmtInt (if bat then 1 else 0))
    (fmtInt (if mot then 1 else 0) ++ ('\t' :: (fmtFixed4 rate ++ argsText [])))
    (if bat then 1 else 0) (by exact hview3) (fmtInt_no_tab _)
    (stoiCore_fmtInt (boolInt_lb bat) (boolInt_ub bat))
  have hview4 := dropView_next hview3
  have hs4 := segParse_mid stoiCore
    { bd with
      currentBufferSegment := fmtInt (if bat then 1 else 0),
      serialBufferIndex := bd.serialBufferIndex + (natDec ms).length + 1 +
        (fmtInt (if act then 1 else 0)).length + 1 +
        (fmtInt (if bat then 1 else 0)).length + 1,
      currentSegmentNum := bd.currentSegmentNum + 1 + 1 + 1,
      robotState :=
        { bd.robotState with
          time_ms := ms,
          is_active := act,
          battery_ok := bat } }
    (fmtInt (if mot then 1 else 0))
    (fmtFixed4 rate ++ argsText [])
    (if mot then 1 else 0) (by exact hview4) (fmtInt_no_tab _)
    (stoiCore_fmtInt (boolInt_lb mot) (boolInt_ub mot))
  have hview5 : bd.serialBuffer.drop (bd.serialBufferIndex + (natDec ms).length + 1 +
      (fmtInt (if act then 1 else 0)).length + 1 +
      (fmtInt (if bat then 1 else 0)).length + 1 +
      (fmtInt (if mot then 1 else 0)).length + 1) = fmtFixed4 rate := by
    have h := dropView_next hview4
    simpa [argsText] using h
  have hs5 := segParse_last stofCore
    { bd with
      currentBufferSegment := fmtInt (if mot then 1 else 0),
      serialBufferIndex := bd.serialBufferIndex + (natDec ms).length + 1 +
        (fmtInt (if act then 1 else 0)).length + 1 +
        (fmtInt (if bat then 1 else 0)).length + 1 +
        (fmtInt (if mot then 1 else 0)).length + 1,
      currentSegmentNum := bd.currentSegmentNum + 1 + 1 + 1 + 1,
      robotState :=
        { bd.robotState with
          time_ms := ms,
          is_active := act,
          battery_ok := bat,
          motors_active := mot } }
    (fmtFixed4 rate) rate (by exact hview5) (fmtFixed4_ne_nil rate) (fmtFixed4_no_tab rate)
    (stofCore_fmtFixed4 rate)
  simp only [processSerialPacket, reduceIte]
  simp only [hs1]
  rw [intToU32_coe ms (by omega)]
  simp only [hs2, boolVal_decide]
  simp only [hs3, boolVal_decide]
  simp only [hs4, boolVal_decide]
  simp only [hs5]
  rw [if_neg (by decide)]

theorem dispatch_txrx (bd : Bridge) (pn : Nat) (ec : Int)
    (hview : bd.serialBuffer.drop bd.serialBufferIndex =
      natDec pn ++ '\t' :: (fmtInt ec ++ argsText []))
    (hpn : pn ≤ 2147483647) (hec1 : -2147483648 ≤ ec) (hec2 : ec ≤ 2147483647) :
    processSerialPacket ("txrx".toList) bd =
      (if ec ≠ 0 then
        (true,
          { bd with
            currentBufferSegment := fmtInt ec,
            serialBufferIndex := bd.serialBuffer.length,
            currentSegmentNum := bd.currentSegmentNum + 1 + 1,
            log := .packetError ec pn :: bd.log })
      else
        (true,
          { bd with
            currentBufferSegment := fmtInt ec,
            serialBufferIndex := bd.serialBuffer.length,
            currentSegmentNum := bd.currentSegmentNum + 1 + 1 })) := by
  have hs1 := segParse_mid stolCore bd (natDec pn) (fmtInt ec ++ argsText [])
    ((pn : Nat) : Int) hview (natDec_no_tab pn) (stolCore_natDec (by omega))
  have hview2 : bd.serialBuffer.drop (bd.serialBufferIndex + (natDec pn).length + 1) =
      fmtInt ec := by
    have h := dropView_next hview
    simpa [argsText] using h
  have hs2 := segParse_last stoiCore
    { bd with
      currentBufferSegment := natDec pn,
      serialBufferIndex := bd.serialBufferIndex + (natDec pn).length + 1,
      currentSegmentNum := bd.currentSegmentNum + 1 }
    (fmtInt ec) ec (by exact hview2) (fmtInt_ne_nil ec) (fmtInt_no_tab ec)
    (stoiCore_fmtInt hec1 hec2)
  simp only [processSerialPacket, reduceIte]
  simp only [hs1]
  simp only [hs2]
  rw [intToU64_coe pn (by omega)]

theorem dispatch_ready (bd : Bridge) (ms : Nat) (name2 : List Char)
    (hview : bd.serialBuffer.drop bd.serialBufferIndex =
      natDec ms ++ '\t' :: (name2 ++ argsText []))
    (hms : ms ≤ 2147483647) (hn1 : name2 ≠ []) (hn2 : '\t' ∉ name2) :
    processSerialPacket ("ready".toList) bd = (true,
      { bd with
        currentBufferSegment := name2,
        serialBufferIndex := bd.serialBuffer.length,
        currentSegmentNum := bd.currentSegmentNum + 1 + 1,
        readyState := ⟨name2, true, ms⟩ }) := by
  have hs1 := segParse_mid stoiCore bd (natDec ms) (name2 ++ argsText [])
    ((ms : Nat) : Int) hview (natDec_no_tab ms) (stoiCore_natDec (by omega))
  have hview2 : bd.serialBuffer.drop (bd.serialBufferIndex + (natDec ms).length + 1) =
      name2 := by
    have h := dropView_next hview
    simpa [argsText] using h
  have hs2 := nextSegStep_last
    { bd with
      currentBufferSegment := natDec ms,
      serialBufferIndex := bd.serialBufferIndex + (natDec ms).length + 1,
      currentSegmentNum := bd.currentSegmentNum + 1,
      readyState := { bd.readyState with time_ms := ms } }
    name2 (by exact hview2) hn1 hn2
  simp only [] at hs2
  simp only [processSerialPacket, reduceIte]
  simp only [hs1]
  rw [intToU32_coe ms (by omega)]
  simp only [segRaw, hs2]
  rw [if_neg (by decide), if_neg (by decide), if_neg (by decide), if_neg (by decide),
    if_neg (by decide), if_neg (by decide), if_neg (by decide), if_neg (by decide),
    if_neg (by decide)]

theorem argsText_no_stop (args : List WArg) (h : ∀ a ∈ args, PACKET_STOP ∉ fmtArg a) :
    PACKET_STOP ∉ argsText args := by
  induction args with
  | nil => simp [argsText]
  | cons a rest ih =>
    simp only [argsText]
    intro hm
    rcases List.mem_cons.mp hm with hm | hm
    · exact absurd hm (by decide)
    · rcases List.mem_append.mp hm with hm | hm
      · exact h a (List.mem_cons_self _ _) hm
      · exact ih (fun x hx => h x (List.mem_cons_of_mem _ hx)) hm

theorem rt_case_tilt (b : Bridge) (cst : Char) (ms : Nat) (pos : Int)
    (hw : b.writePacketNum ≤ 2147483647)
    (hms : ms < 4294967296) (hp1 : -2147483648 ≤ pos) (hp2 : pos ≤ 2147483647) :
    (readSerialM (writeSerial ("tilt".toList) [.u ms, .d pos] b).1 cst
        (writeSerial ("tilt".toList) [.u ms, .d pos] b).2).1 = .decoded .ok ∧
    Reproduces (.tilt ms pos) (writeSerial ("tilt".toList) [.u ms, .d pos] b).2
      (readSerialM (writeSerial ("tilt".toList) [.u ms, .d pos] b).1 cst
        (writeSerial ("tilt".toList) [.u ms, .d pos] b).2).2.1 ∧
    (readSerialM (writeSerial ("tilt".toList) [.u ms, .d pos] b).1 cst
        (writeSerial ("tilt".toList) [.u ms, .d pos] b).2).2.2 = [] := by
  have hstop : PACKET_STOP ∉ fmtArg (WArg.u ms) ++ argsText [WArg.d pos] := by
    intro hm
    rcases List.mem_append.mp hm with hm | hm
    · exact natDec_no_stop _ hm
    · refine argsText_no_stop [WArg.d pos] ?_ hm
      intro a ha
      fin_cases ha
      exact fmtInt_no_stop _
  have hmaster := roundtrip_master b ("tilt".toList) (.u ms) [.d pos] cst hw
    (by decide) (by decide) (by decide) hstop
  have hview : (rtState b ("tilt".toList) (.u ms) [.d pos]).serialBuffer.drop
      (rtState b ("tilt".toList) (.u ms) [.d pos]).serialBufferIndex =
      natDec ms ++ '\t' :: (fmtInt pos ++ argsText []) :=
    rtState_view b ("tilt".toList) (.u ms) [.d pos]
  have hdisp := dispatch_tilt (rtState b ("tilt".toList) (.u ms) [.d pos]) ms pos hview
    hms hp1 hp2
  have hsel : processSerialPacket ("tilt".toList) (rtState b ("tilt".toList) (.u ms) [.d pos]) =
      parseTilter (rtState b ("tilt".toList) (.u ms) [.d pos]) := by
    simp only [processSerialPacket, reduceIte]
    rw [if_neg (by decide), if_neg (by decide), if_neg (by decide), if_neg (by decide),
      if_neg (by decide), if_neg (by decide), if_neg (by decide), if_neg (by decide)]
  rw [hmaster, hsel, hdisp]
  simp only [dispatchTail, Reproduces]
  refine ⟨trivial, ?_, trivial⟩
  simp [rtState, getDeviceTimeMs, writeSerial]

theorem rt_case_txrx (b : Bridge) (cst : Char) (pn : Nat) (ec : Int)
    (hw : b.writePacketNum ≤ 2147483647)
    (hpn : pn ≤ 2147483647) (hec1 : -2147483648 ≤ ec) (hec2 : ec ≤ 2147483647) :
    (readSerialM (writeSerial ("txrx".toList) [.u pn, .d ec] b).1 cst
        (writeSerial ("txrx".toList) [.u pn, .d ec] b).2).1 = .decoded .ok ∧
    Reproduces (.txrx pn ec) (writeSerial ("txrx".toList) [.u pn, .d ec] b).2
      (readSerialM (writeSerial ("txrx".toList) [.u pn, .d ec] b).1 cst
        (writeSerial ("txrx".toList) [.u pn, .d ec] b).2).2.1 ∧
    (readSerialM (writeSerial ("txrx".toList) [.u pn, .d ec] b).1 cst
        (writeSerial ("txrx".toList) [.u pn, .d ec] b).2).2.2 = [] := by
  have hstop : PACKET_STOP ∉ fmtArg (WArg.u pn) ++ argsText [WArg.d ec] := by
    intro hm
    rcases List.mem_append.mp hm with hm | hm
    · exact natDec_no_stop _ hm
    · refine argsText_no_stop [WArg.d ec] ?_ hm
      intro a ha
      fin_cases ha
      exact fmtInt_no_stop _
  have hmaster := roundtrip_master b ("txrx".toList) (.u pn) [.d ec] cst hw
    (by decide) (by decide) (by decide) hstop
  have hview : (rtState b ("txrx".toList) (.u pn) [.d ec]).serialBuffer.drop
      (rtState b ("txrx".toList) (.u pn) [.d ec]).serialBufferIndex =
      natDec pn ++ '\t' :: (fmtInt ec ++ argsText []) :=
    rtState_view b ("txrx".toList) (.u pn) [.d ec]
  have hdisp := dispatch_txrx (rtState b ("txrx".toList) (.u pn) [.d ec]) pn ec hview
    hpn hec1 hec2
  rw [hmaster, hdisp]
  by_cases hec : ec = 0
  · rw [if_neg (fun h => h hec)]
    simp only [dispatchTail, Reproduces]
    refine ⟨trivial, ⟨fun hne => absurd hec hne, fun _ => ?_⟩, trivial⟩
    simp [rtState, writeSerial]
  · rw [if_pos hec]
    simp only [dispatchTail, Reproduces]
    refine ⟨trivial, ⟨fun _ => ?_, fun h0 => absurd h0 hec⟩, trivial⟩
    simp [rtState]

theorem rt_case_state (b : Bridge) (cst : Char) (ms : Nat) (act bat mot : Bool) (rate : Int)
    (hw : b.writePacketNum ≤ 2147483647) (hms : ms ≤ 2147483647) :
    (readSerialM (writeSerial ("state".toList)
        [.u ms, boolArg act, boolArg bat, boolArg mot, .f rate] b).1 cst
        (writeSerial ("state".toList) [.u ms, boolArg act, boolArg bat, boolArg mot, .f rate] b).2).1 =
      .decoded .ok ∧
    Reproduces (.state ms act bat mot rate)
      (writeSerial ("state".toList) [.u ms, boolArg act, boolArg bat, boolArg mot, .f rate] b).2
      (readSerialM (writeSerial ("state".toList)
        [.u ms, boolArg act, boolArg bat, boolArg mot, .f rate] b).1 cst
        (writeSerial ("state".toList) [.u ms, boolArg act, boolArg bat, boolArg mot, .f rate] b).2).2.1 ∧
    (readSerialM (writeSerial ("state".toList)
        [.u ms, boolArg act, boolArg bat, boolArg mot, .f rate] b).1 cst
        (writeSerial ("state".toList) [.u ms, boolArg act, boolArg bat, boolArg mot, .f rate] b).2).2.2 =
      [] := by
  have hstop : PACKET_STOP ∉ fmtArg (WArg.u ms) ++
      argsText [boolArg act, boolArg bat, boolArg mot, .f rate] := by
    intro hm
    rcases List.mem_append.mp hm with hm | hm
    · exact natDec_no_stop _ hm
    · refine argsText_no_stop _ ?_ hm
      intro a ha
      fin_cases ha
      · exact fmtInt_no_stop _
      · exact fmtInt_no_stop _
      · exact fmtInt_no_stop _
      · exact fmtFixed4_no_stop _
  have hmaster := roundtrip_master b ("state".toList) (.u ms)
    [boolArg act, boolArg bat, boolArg mot, .f rate] cst hw
    (by decide) (by decide) (by decide) hstop
  have hview : (rtState b ("state".toList) (.u ms)
      [boolArg act, boolArg bat, boolArg mot, .f rate]).serialBuffer.drop
      (rtState b ("state".toList) (.u ms)
        [boolArg act, boolArg bat, boolArg mot, .f rate]).serialBufferIndex =
      natDec ms ++ '\t' :: (fmtInt (if act then 1 else 0) ++
        ('\t' :: (fmtInt (if bat then 1 else 0) ++
          ('\t' :: (fmtInt (if mot then 1 else 0) ++
            ('\t' :: (fmtFixed4 rate ++ argsText []))))))) :=
    rtState_view b ("state".toList) (.u ms) [boolArg act, boolArg bat, boolArg mot, .f rate]
  have hdisp := dispatch_state (rtState b ("state".toList) (.u ms)
    [boolArg act, boolArg bat, boolArg mot, .f rate]) ms act bat mot rate hview hms
  rw [hmaster, hdisp]
  simp only [dispatchTail, Reproduces]
  exact ⟨trivial, trivial, trivial⟩

theorem rt_case_ready (b : Bridge) (cst : Char) (ms : Nat) (name2 : List Char)
    (hw : b.writePacketNum ≤ 2147483647) (hms : ms ≤ 2147483647)
    (hn1 : name2 ≠ []) (hn2 : '\t' ∉ name2) (hn3 : PACKET_STOP ∉ name2) :
    (readSerialM (writeSerial ("ready".toList) [.u ms, .s name2] b).1 cst
        (writeSerial ("ready".toList) [.u ms, .s name2] b).2).1 = .decoded .ok ∧
    Reproduces (.ready ms name2) (writeSerial ("ready".toList) [.u ms, .s name2] b).2
      (readSerialM (writeSerial ("ready".toList) [.u ms, .s name2] b).1 cst
        (writeSerial ("ready".toList) [.u ms, .s name2] b).2).2.1 ∧
    (readSerialM (writeSerial ("ready".toList) [.u ms, .s name2] b).1 cst
        (writeSerial ("ready".toList) [.u ms, .s name2] b).2).2.2 = [] := by
  have hstop : PACKET_STOP ∉ fmtArg (WArg.u ms) ++ argsText [WArg.s name2] := by
    intro hm
    rcases List.mem_append.mp hm with hm | hm
    · exact natDec_no_stop _ hm
    · refine argsText_no_stop [WArg.s name2] ?_ hm
      intro a ha
      fin_cases ha
      exact hn3
  have hmaster := roundtrip_master b ("ready".toList) (.u ms) [.s name2] cst hw
    (by decide) (by decide) (by decide) hstop
  have hview : (rtState b ("ready".toList) (.u ms) [.s name2]).serialBuffer.drop
      (rtState b ("ready".toList) (.u ms) [.s name2]).serialBufferIndex =
      natDec ms ++ '\t' :: (name2 ++ argsText []) :=
    rtState_view b ("ready".toList) (.u ms) [.s name2]
  have hdisp := dispatch_ready (rtState b ("ready".toList) (.u ms) [.s name2]) ms name2 hview
    hms hn1 hn2
  rw [hmaster, hdisp]
  simp only [dispatchTail, Reproduces]
  exact ⟨trivial, trivial, trivial⟩

theorem rt_case_enc (b : Bridge) (cst : Char) (ms : Nat) (lt rt2 ls rs : Int)
    (hw : b.writePacketNum ≤ 2147483647) (hms : ms < 4294967296)
    (hlt1 : -2147483648 ≤ lt) (hlt2 : lt ≤ 2147483647)
    (hrt1 : -2147483648 ≤ rt2) (hrt2 : rt2 ≤ 2147483647) :
    (readSerialM (writeSerial ("enc".toList) [.u ms, .d lt, .d rt2, .f ls, .f rs] b).1 cst (writeSerial ("enc".toList) [.u ms, .d lt, .d rt2, .f ls, .f rs] b).2).1 = .decoded .ok ∧
    Reproduces (.enc ms lt rt2 ls rs) (writeSerial ("enc".toList) [.u ms, .d lt, .d rt2, .f ls, .f rs] b).2 (readSerialM (writeSerial ("enc".toList) [.u ms, .d lt, .d rt2, .f ls, .f rs] b).1 cst (writeSerial ("enc".toList) [.u ms, .d lt, .d rt2, .f ls, .f rs] b).2).2.1 ∧
    (readSerialM (writeSerial ("enc".toList) [.u ms, .d lt, .d rt2, .f ls, .f rs] b).1 cst (writeSerial ("enc".toList) [.u ms, .d lt, .d rt2, .f ls, .f rs] b).2).2.2 = [] := by
  have hstop : PACKET_STOP ∉ fmtArg (WArg.u ms) ++ argsText [WArg.d lt, WArg.d rt2, WArg.f ls, WArg.f rs] := by
    intro hm
    rcases List.mem_append.mp hm with hm | hm
    · exact natDec_no_stop _ hm
    · refine argsText_no_stop [WArg.d lt, WArg.d rt2, WArg.f ls, WArg.f rs] ?_ hm
      intro a ha
      fin_cases ha
      · exact fmtInt_no_stop _
      · exact fmtInt_no_stop _
      · exact fmtFixed4_no_stop _
      · exact fmtFixed4_no_stop _
  have hmaster := roundtrip_master b ("enc".toList) (WArg.u ms) [WArg.d lt, WArg.d rt2, WArg.f ls, WArg.f rs] cst hw
    (by decide) (by decide) (by decide) hstop
  have hview : (rtState b ("enc".toList) (WArg.u ms) [WArg.d lt, WArg.d rt2, WArg.f ls, WArg.f rs]).serialBuffer.drop (rtState b ("enc".toList) (WArg.u ms) [WArg.d lt, WArg.d rt2, WArg.f ls, WArg.f rs]).serialBufferIndex =
      natDec ms ++ '\t' :: (fmtInt lt ++ ('\t' :: (fmtInt rt2 ++
        ('\t' :: (fmtFixed4 ls ++ ('\t' :: (fmtFixed4 rs ++ argsText []))))))) :=
    rtState_view b ("enc".toList) (WArg.u ms) [WArg.d lt, WArg.d rt2, WArg.f ls, WArg.f rs]
  have hdisp := dispatch_enc (rtState b ("enc".toList) (WArg.u ms) [WArg.d lt, WArg.d rt2, WArg.f ls, WArg.f rs]) ms lt rt2 ls rs hview hms hlt1 hlt2 hrt1 hrt2
  have hsel : processSerialPacket ("enc".toList) (rtState b ("enc".toList) (WArg.u ms) [WArg.d lt, WArg.d rt2, WArg.f ls, WArg.f rs]) =
      parseDrive (rtState b ("enc".toList) (WArg.u ms) [WArg.d lt, WArg.d rt2, WArg.f ls, WArg.f rs]) := by
    simp only [processSerialPacket, reduceIte]
    rw [if_neg (by decide), if_neg (by decide)]
  rw [hmaster, hsel, hdisp]
  simp only [dispatchTail, Reproduces]
  refine ⟨trivial, ?_, trivial⟩
  simp [rtState, getDeviceTimeMs, writeSerial]

theorem rt_case_bump (b : Bridge) (cst : Char) (ms : Nat) (v1 v2 : Int)
    (hw : b.writePacketNum ≤ 2147483647) (hms : ms < 4294967296)
    (hv11 : -2147483648 ≤ v1) (hv12 : v1 ≤ 2147483647)
    (hv21 : -2147483648 ≤ v2) (hv22 : v2 ≤ 2147483647) :
    (readSerialM (writeSerial ("bump".toList) [.u ms, .d v1, .d v2] b).1 cst (writeSerial ("bump".toList) [.u ms, .d v1, .d v2] b).2).1 = .decoded .ok ∧
    Reproduces (.bump ms v1 v2) (writeSerial ("bump".toList) [.u ms, .d v1, .d v2] b).2 (readSerialM (writeSerial ("bump".toList) [.u ms, .d v1, .d v2] b).1 cst (writeSerial ("bump".toList) [.u ms, .d v1, .d v2] b).2).2.1 ∧
    (readSerialM (writeSerial ("bump".toList) [.u ms, .d v1, .d v2] b).1 cst (writeSerial ("bump".toList) [.u ms, .d v1, .d v2] b).2).2.2 = [] := by
  have hstop : PACKET_STOP ∉ fmtArg (WArg.u ms) ++ argsText [WArg.d v1, WArg.d v2] := by
    intro hm
    rcases List.mem_append.mp hm with hm | hm
    · exact natDec_no_stop _ hm
    · refine argsText_no_stop [WArg.d v1, WArg.d v2] ?_ hm
      intro a ha
      fin_cases ha
      · exact fmtInt_no_stop _
      · exact fmtInt_no_stop _
  have hmaster := roundtrip_master b ("bump".toList) (WArg.u ms) [WArg.d v1, WArg.d v2] cst hw
    (by decide) (by decide) (by decide) hstop
  have hview : (rtState b ("bump".toList) (WArg.u ms) [WArg.d v1, WArg.d v2]).serialBuffer.drop (rtState b ("bump".toList) (WArg.u ms) [WArg.d v1, WArg.d v2]).serialBufferIndex =
      natDec ms ++ '\t' :: (fmtInt v1 ++ ('\t' :: (fmtInt v2 ++ argsText []))) :=
    rtState_view b ("bump".toList) (WArg.u ms) [WArg.d v1, WArg.d v2]
  have hdisp := dispatch_bump (rtState b ("bump".toList) (WArg.u ms) [WArg.d v1, WArg.d v2]) ms v1 v2 hview hms hv11 hv12 hv21 hv22
  have hsel : processSerialPacket ("bump".toList) (rtState b ("bump".toList) (WArg.u ms) [WArg.d v1, WArg.d v2]) =
      parseBumper (rtState b ("bump".toList) (WArg.u ms) [WArg.d v1, WArg.d v2]) := by
    simp only [processSerialPacket, reduceIte]
    rw [if_neg (by decide), if_neg (by decide), if_neg (by decide)]
  rw [hmaster, hsel, hdisp]
  simp only [dispatchTail, Reproduces]
  refine ⟨trivial, ?_, trivial⟩
  simp [rtState, getDeviceTimeMs, writeSerial]

theorem rt_case_fsr (b : Bridge) (cst : Char) (ms lv rv : Nat)
    (hw : b.writePacketNum ≤ 2147483647) (hms : ms < 4294967296) (hlv : lv < 65536) (hrv : rv < 65536) :
    (readSerialM (writeSerial ("fsr".toList) [.u ms, .u lv, .u rv] b).1 cst (writeSerial ("fsr".toList) [.u ms, .u lv, .u rv] b).2).1 = .decoded .ok ∧
    Reproduces (.fsr ms lv rv) (writeSerial ("fsr".toList) [.u ms, .u lv, .u rv] b).2 (readSerialM (writeSerial ("fsr".toList) [.u ms, .u lv, .u rv] b).1 cst (writeSerial ("fsr".toList) [.u ms, .u lv, .u rv] b).2).2.1 ∧
    (readSerialM (writeSerial ("fsr".toList) [.u ms, .u lv, .u rv] b).1 cst (writeSerial ("fsr".toList) [.u ms, .u lv, .u rv] b).2).2.2 = [] := by
  have hstop : PACKET_STOP ∉ fmtArg (WArg.u ms) ++ argsText [WArg.u lv, WArg.u rv] := by
    intro hm
    rcases List.mem_append.mp hm with hm | hm
    · exact natDec_no_stop _ hm
    · refine argsText_no_stop [WArg.u lv, WArg.u rv] ?_ hm
      intro a ha
      fin_cases ha
      · exact natDec_no_stop _
      · exact natDec_no_stop _
  have hmaster := roundtrip_master b ("fsr".toList) (WArg.u ms) [WArg.u lv, WArg.u rv] cst hw
    (by decide) (by decide) (by decide) hstop
  have hview : (rtState b ("fsr".toList) (WArg.u ms) [WArg.u lv, WArg.u rv]).serialBuffer.drop (rtState b ("fsr".toList) (WArg.u ms) [WArg.u lv, WArg.u rv]).serialBufferIndex =
      natDec ms ++ '\t' :: (natDec lv ++ ('\t' :: (natDec rv ++ argsText []))) :=
    rtState_view b ("fsr".toList) (WArg.u ms) [WArg.u lv, WArg.u rv]
  have hdisp := dispatch_fsr (rtState b ("fsr".toList) (WArg.u ms) [WArg.u lv, WArg.u rv]) ms lv rv hview hms hlv hrv
  have hsel : processSerialPacket ("fsr".toList) (rtState b ("fsr".toList) (WArg.u ms) [WArg.u lv, WArg.u rv]) =
      parseFSR (rtState b ("fsr".toList) (WArg.u ms) [WArg.u lv, WArg.u rv]) := by
    simp only [processSerialPacket, reduceIte]
    rw [if_neg (by decide), if_neg (by decide), if_neg (by decide), if_neg (by decide)]
  rw [hmaster, hsel, hdisp]
  simp only [dispatchTail, Reproduces]
  refine ⟨trivial, ?_, trivial⟩
  simp [rtState, getDeviceTimeMs, writeSerial]

theorem rt_case_grip (b : Bridge) (cst : Char) (ms : Nat) (pos : Int)
    (hw : b.writePacketNum ≤ 2147483647) (hms : ms < 4294967296) (hp1 : -2147483648 ≤ pos) (hp2 : pos ≤ 2147483647) :
    (readSerialM (writeSerial ("grip".toList) [.u ms, .d pos] b).1 cst (writeSerial ("grip".toList) [.u ms, .d pos] b).2).1 = .decoded .ok ∧
    Reproduces (.grip ms pos) (writeSerial ("grip".toList) [.u ms, .d pos] b).2 (readSerialM (writeSerial ("grip".toList) [.u ms, .d pos] b).1 cst (writeSerial ("grip".toList) [.u ms, .d pos] b).2).2.1 ∧
    (readSerialM (writeSerial ("grip".toList) [.u ms, .d pos] b).1 cst (writeSerial ("grip".toList) [.u ms, .d pos] b).2).2.2 = [] := by
  have hstop : PACKET_STOP ∉ fmtArg (WArg.u ms) ++ argsText [WArg.d pos] := by
    intro hm
    rcases List.mem_append.mp hm with hm | hm
    · exact natDec_no_stop _ hm
    · refine argsText_no_stop [WArg.d pos] ?_ hm
      intro a ha
      fin_cases ha
      exact fmtInt_no_stop _
  have hmaster := roundtrip_master b ("grip".toList) (WArg.u ms) [WArg.d pos] cst hw
    (by decide) (by decide) (by decide) hstop
  have hview : (rtState b ("grip".toList) (WArg.u ms) [WArg.d pos]).serialBuffer.drop (rtState b ("grip".toList) (WArg.u ms) [WArg.d pos]).serialBufferIndex =
      natDec ms ++ '\t' :: (fmtInt pos ++ argsText []) :=
    rtState_view b ("grip".toList) (WArg.u ms) [WArg.d pos]
  have hdisp := dispatch_grip (rtState b ("grip".toList) (WArg.u ms) [WArg.d pos]) ms pos hview hms hp1 hp2
  have hsel : processSerialPacket ("grip".toList) (rtState b ("grip".toList) (WArg.u ms) [WArg.d pos]) =
      parseGripper (rtState b ("grip".toList) (WArg.u ms) [WArg.d pos]) := by
    simp only [processSerialPacket, reduceIte]
    rw [if_neg (by decide), if_neg (by decide), if_neg (by decide), if_neg (by decide), if_neg (by decide)]
  rw [hmaster, hsel, hdisp]
  simp only [dispatchTail, Reproduces]
  refine ⟨trivial, ?_, trivial⟩
  simp [rtState, getDeviceTimeMs, writeSerial]

theorem rt_case_linear (b : Bridge) (cst : Char) (ms pos : Nat) (he hm2 ia : Bool)
    (hw : b.writePacketNum ≤ 2147483647) (hms : ms < 4294967296) (hpos : pos < 65536) :
    (readSerialM (writeSerial ("linear".toList) [.u ms, .u pos, boolArg he, boolArg hm2, boolArg ia] b).1 cst (writeSerial ("linear".toList) [.u ms, .u pos, boolArg he, boolArg hm2, boolArg ia] b).2).1 = .decoded .ok ∧
    Reproduces (.linear ms pos he hm2 ia) (writeSerial ("linear".toList) [.u ms, .u pos, boolArg he, boolArg hm2, boolArg ia] b).2 (readSerialM (writeSerial ("linear".toList) [.u ms, .u pos, boolArg he, boolArg hm2, boolArg ia] b).1 cst (writeSerial ("linear".toList) [.u ms, .u pos, boolArg he, boolArg hm2, boolArg ia] b).2).2.1 ∧
    (readSerialM (writeSerial ("linear".toList) [.u ms, .u pos, boolArg he, boolArg hm2, boolArg ia] b).1 cst (writeSerial ("linear".toList) [.u ms, .u pos, boolArg he, boolArg hm2, boolArg ia] b).2).2.2 = [] := by
  have hstop : PACKET_STOP ∉ fmtArg (WArg.u ms) ++ argsText [WArg.u pos, boolArg he, boolArg hm2, boolArg ia] := by
    intro hm
    rcases List.mem_append.mp hm with hm | hm
    · exact natDec_no_stop _ hm
    · refine argsText_no_stop [WArg.u pos, boolArg he, boolArg hm2, boolArg ia] ?_ hm
      intro a ha
      fin_cases ha
      · exact natDec_no_stop _
      · exact fmtInt_no_stop _
      · exact fmtInt_no_stop _
      · exact fmtInt_no_stop _
  have hmaster := roundtrip_master b ("linear".toList) (WArg.u ms) [WArg.u pos, boolArg he, boolArg hm2, boolArg ia] cst hw
    (by decide) (by decide) (by decide) hstop
  have hview : (rtState b ("linear".toList) (WArg.u ms) [WArg.u pos, boolArg he, boolArg hm2, boolArg ia]).serialBuffer.drop (rtState b ("linear".toList) (WArg.u ms) [WArg.u pos, boolArg he, boolArg hm2, boolArg ia]).serialBufferIndex =
      natDec ms ++ '\t' :: (natDec pos ++ ('\t' :: (fmtInt (if he then 1 else 0) ++
        ('\t' :: (fmtInt (if hm2 then 1 else 0) ++
          ('\t' :: (fmtInt (if ia then 1 else 0) ++ argsText []))))))) :=
    rtState_view b ("linear".toList) (WArg.u ms) [WArg.u pos, boolArg he, boolArg hm2, boolArg ia]
  have hdisp := dispatch_linear (rtState b ("linear".toList) (WArg.u ms) [WArg.u pos, boolArg he, boolArg hm2, boolArg ia]) ms pos he hm2 ia hview hms hpos
  have hsel : processSerialPacket ("linear".toList) (rtState b ("linear".toList) (WArg.u ms) [WArg.u pos, boolArg he, boolArg hm2, boolArg ia]) =
      parseLinear (rtState b ("linear".toList) (WArg.u ms) [WArg.u pos, boolArg he, boolArg hm2, boolArg ia]) := by
    simp only [processSerialPacket, reduceIte]
    rw [if_neg (by decide), if_neg (by decide), if_neg (by decide), if_neg (by decide), if_neg (by decide), if_neg (by decide)]
  rw [hmaster, hsel, hdisp]
  simp only [dispatchTail, Reproduces]
  refine ⟨trivial, ?_, trivial⟩
  simp [rtState, getDeviceTimeMs, writeSerial]

theorem rt_case_batt (b : Bridge) (cst : Char) (ms : Nat) (cur : Int) (unused : Nat) (volt : Int)
    (hw : b.writePacketNum ≤ 2147483647) (hms : ms < 4294967296) :
    (readSerialM (writeSerial ("batt".toList) [.u ms, .f cur, .u unused, .f volt] b).1 cst (writeSerial ("batt".toList) [.u ms, .f cur, .u unused, .f volt] b).2).1 = .decoded .ok ∧
    Reproduces (.batt ms cur unused volt) (writeSerial ("batt".toList) [.u ms, .f cur, .u unused, .f volt] b).2 (readSerialM (writeSerial ("batt".toList) [.u ms, .f cur, .u unused, .f volt] b).1 cst (writeSerial ("batt".toList) [.u ms, .f cur, .u unused, .f volt] b).2).2.1 ∧
    (readSerialM (writeSerial ("batt".toList) [.u ms, .f cur, .u unused, .f volt] b).1 cst (writeSerial ("batt".toList) [.u ms, .f cur, .u unused, .f volt] b).2).2.2 = [] := by
  have hstop : PACKET_STOP ∉ fmtArg (WArg.u ms) ++ argsText [WArg.f cur, WArg.u unused, WArg.f volt] := by
    intro hm
    rcases List.mem_append.mp hm with hm | hm
    · exact natDec_no_stop _ hm
    · refine argsText_no_stop [WArg.f cur, WArg.u unused, WArg.f volt] ?_ hm
      intro a ha
      fin_cases ha
      · exact fmtFixed4_no_stop _
      · exact natDec_no_stop _
      · exact fmtFixed4_no_stop _
  have hmaster := roundtrip_master b ("batt".toList) (WArg.u ms) [WArg.f cur, WArg.u unused, WArg.f volt] cst hw
    (by decide) (by decide) (by decide) hstop
  have hview : (rtState b ("batt".toList) (WArg.u ms) [WArg.f cur, WArg.u unused, WArg.f volt]).serialBuffer.drop (rtState b ("batt".toList) (WArg.u ms) [WArg.f cur, WArg.u unused, WArg.f volt]).serialBufferIndex =
      natDec ms ++ '\t' :: (fmtFixed4 cur ++ ('\t' :: (natDec unused ++
        ('\t' :: (fmtFixed4 volt ++ argsText []))))) :=
    rtState_view b ("batt".toList) (WArg.u ms) [WArg.f cur, WArg.u unused, WArg.f volt]
  have hdisp := dispatch_batt (rtState b ("batt".toList) (WArg.u ms) [WArg.f cur, WArg.u unused, WArg.f volt]) ms cur unused volt hview hms
  have hsel : processSerialPacket ("batt".toList) (rtState b ("batt".toList) (WArg.u ms) [WArg.f cur, WArg.u unused, WArg.f volt]) =
      parseBattery (rtState b ("batt".toList) (WArg.u ms) [WArg.f cur, WArg.u unused, WArg.f volt]) := by
    simp only [processSerialPacket, reduceIte]
    rw [if_neg (by decide), if_neg (by decide), if_neg (by decide), if_neg (by decide), if_neg (by decide), if_neg (by decide), if_neg (by decide)]
  rw [hmaster, hsel, hdisp]
  simp only [dispatchTail, Reproduces]
  refine ⟨trivial, ?_, trivial⟩
  simp [rtState, getDeviceTimeMs, writeSerial]

/-- C6: the claim as frozen is false: feeding an encoded frame back through
the receiver, validator, and dispatcher does NOT always reproduce the field
values. With the string argument "do\tdo" to the `ready` command of the
category table, the separator byte inside the string splits the field, and
the decoded robot name is "do". -/
theorem C6_tab_string_breaks_roundtrip :
    (readSerialM
        (writeSerial ("ready".toList) [.u 1500, .s ("do\tdo".toList)] (initialBridge 0)).1 'x'
        (writeSerial ("ready".toList) [.u 1500, .s ("do\tdo".toList)]
          (initialBridge 0)).2).2.1.readyState =
      ⟨"do".toList, true, 1500⟩ ∧
    (readSerialM
        (writeSerial ("ready".toList) [.u 1500, .s ("do\tdo".toList)] (initialBridge 0)).1 'x'
        (writeSerial ("ready".toList) [.u 1500, .s ("do\tdo".toList)]
          (initialBridge 0)).2).2.1.readyState ≠
      ⟨"do\tdo".toList, true, 1500⟩ := by
  constructor
  · decide
  · decide

/-- C6 (amended): for every command of the category table with tagged
arguments in decode range — device-ms within the range of the parse that
category uses, `d`-tag fields in `int32` range, `uint16_t`-cast fields below
2^16, string fields nonempty and free of the tab separator and the stop
byte — and a write sequence number that fits `int`, encoding the command with
`writeSerial` and feeding the frame back through the receiver, validator, and
dispatcher decodes it as the same category and reproduces the same field
values (`Reproduces`), consuming the whole stream. -/
theorem C6_roundtrip_amended (c : CatCmd) (b : Bridge) (cst : Char)
    (hwf : WFCmd c) (hw : b.writePacketNum ≤ 2147483647) :
    (readSerialM (writeSerial (cmdName c) (cmdArgs c) b).1 cst
        (writeSerial (cmdName c) (cmdArgs c) b).2).1 = .decoded .ok ∧
    Reproduces c (writeSerial (cmdName c) (cmdArgs c) b).2
      (readSerialM (writeSerial (cmdName c) (cmdArgs c) b).1 cst
        (writeSerial (cmdName c) (cmdArgs c) b).2).2.1 ∧
    (readSerialM (writeSerial (cmdName c) (cmdArgs c) b).1 cst
        (writeSerial (cmdName c) (cmdArgs c) b).2).2.2 = [] := by
  cases c with
  | txrx pn ec =>
    obtain ⟨h1, h2, h3⟩ := hwf
    exact rt_case_txrx b cst pn ec hw h1 h2 h3
  | state ms act bat mot rate =>
    exact rt_case_state b cst ms act bat mot rate hw hwf
  | enc ms lt rt2 ls rs =>
    obtain ⟨h1, h2, h3, h4, h5⟩ := hwf
    exact rt_case_enc b cst ms lt rt2 ls rs hw h1 h2 h3 h4 h5
  | bump ms v1 v2 =>
    obtain ⟨h1, h2, h3, h4, h5⟩ := hwf
    exact rt_case_bump b cst ms v1 v2 hw h1 h2 h3 h4 h5
  | fsr ms lv rv =>
    obtain ⟨h1, h2, h3⟩ := hwf
    exact rt_case_fsr b cst ms lv rv hw h1 h2 h3
  | grip ms pos =>
    obtain ⟨h1, h2, h3⟩ := hwf
    exact rt_case_grip b cst ms pos hw h1 h2 h3
  | linear ms pos he hm2 ia =>
    obtain ⟨h1, h2⟩ := hwf
    exact rt_case_linear b cst ms pos he hm2 ia hw h1 h2
  | batt ms cur unused volt =>
    obtain ⟨h1, h2⟩ := hwf
    exact rt_case_batt b cst ms cur unused volt hw h1
  | tilt ms pos =>
    obtain ⟨h1, h2, h3⟩ := hwf
    exact rt_case_tilt b cst ms pos hw h1 h2 h3
  | ready ms name2 =>
    obtain ⟨h1, h2, h3, h4⟩ := hwf
    exact rt_case_ready b cst ms name2 hw h1 h2 h3 h4

/-- Witness for C6 (amended): the `tilt` command with device-ms 99 and
position -5, encoded from the freshly constructed bridge, decodes back to
the same values. -/
theorem C6_roundtrip_amended_witness :
    (readSerialM (writeSerial (cmdName (.tilt 99 (-5))) (cmdArgs (.tilt 99 (-5)))
        (initialBridge 0)).1 'x'
        (writeSerial (cmdName (.tilt 99 (-5))) (cmdArgs (.tilt 99 (-5)))
          (initialBridge 0)).2).1 = .decoded .ok ∧
    Reproduces (.tilt 99 (-5))
      (writeSerial (cmdName (.tilt 99 (-5))) (cmdArgs (.tilt 99 (-5))) (initialBridge 0)).2
      (readSerialM (writeSerial (cmdName (.tilt 99 (-5))) (cmdArgs (.tilt 99 (-5)))
        (initialBridge 0)).1 'x'
        (writeSerial (cmdName (.tilt 99 (-5))) (cmdArgs (.tilt 99 (-5)))
          (initialBridge 0)).2).2.1 ∧
    (readSerialM (writeSerial (cmdName (.tilt 99 (-5))) (cmdArgs (.tilt 99 (-5)))
        (initialBridge 0)).1 'x'
        (writeSerial (cmdName (.tilt 99 (-5))) (cmdArgs (.tilt 99 (-5)))
          (initialBridge 0)).2).2.2 = [] :=
  C6_roundtrip_amended (.tilt 99 (-5)) (initialBridge 0) 'x'
    (by constructor
        · decide
        · constructor
          · decide
          · decide)
    (by decide)

theorem getNextSegment_keeps (b : Bridge) (fl : Bool) (bg : Bridge)
    (h : getNextSegment b = (fl, bg)) :
    bg.readPacketNum = b.readPacketNum ∧ bg.log = b.log := by
  unfold getNextSegment at h
  split at h
  · injection h with h1 h2
    subst h2
    exact ⟨rfl, rfl⟩
  · split at h <;>
    · injection h with h1 h2
      subst h2
      exact ⟨rfl, rfl⟩

theorem nextSegStep_keeps (b b1 : Bridge)
    (h : nextSegStep b = .missing b1 ∨ nextSegStep b = .exn b1 ∨
         ∃ s, nextSegStep b = .ok s b1) :
    b1.readPacketNum = b.readPacketNum ∧ ∀ m ∈ b.log, m ∈ b1.log := by
  unfold nextSegStep at h
  rcases hr : getNextSegment b with ⟨fl, bg⟩
  obtain ⟨k1, k2⟩ := getNextSegment_keeps b fl bg hr
  rw [hr] at h
  cases fl <;> simp only [] at h
  · rcases h with h | h | ⟨s, h⟩
    · injection h with hb
      subst hb
      refine ⟨k1, fun m hm => ?_⟩
      exact List.mem_cons_of_mem _ (k2 ▸ hm)
    · exact absurd h (by simp)
    · exact absurd h (by simp)
  · rcases h with h | h | ⟨s, h⟩
    · exact absurd h (by simp)
    · exact absurd h (by simp)
    · injection h with hs hb
      subst hb
      exact ⟨k1, fun m hm => k2 ▸ hm⟩

theorem segParse_keeps (parse : List Char → Option Int) (b b1 : Bridge)
    (h : segParse parse b = .missing b1 ∨ segParse parse b = .exn b1 ∨
         ∃ v, segParse parse b = .ok v b1) :
    b1.readPacketNum = b.readPacketNum ∧ ∀ m ∈ b.log, m ∈ b1.log := by
  unfold segParse at h
  cases hs : nextSegStep b with
  | missing bm =>
    rw [hs] at h
    simp only [] at h
    rcases h with h | h | ⟨v, h⟩
    · injection h with hb
      subst hb
      exact nextSegStep_keeps b bm (Or.inl hs)
    · exact absurd h (by simp)
    · exact absurd h (by simp)
  | exn bm =>
    rw [hs] at h
    simp only [] at h
    rcases h with h | h | ⟨v, h⟩
    · exact absurd h (by simp)
    · injection h with hb
      subst hb
      exact nextSegStep_keeps b bm (Or.inr (Or.inl hs))
    · exact absurd h (by simp)
  | ok s bm =>
    rw [hs] at h
    simp only [] at h
    rcases hp : parse s with _ | v <;> rw [hp] at h <;> simp only [] at h
    · rcases h with h | h | ⟨v, h⟩
      · exact absurd h (by simp)
      · injection h with hb
        subst hb
        exact nextSegStep_keeps b bm (Or.inr (Or.inr ⟨s, hs⟩))
      · exact absurd h (by simp)
    · rcases h with h | h | ⟨v2, h⟩
      · exact absurd h (by simp)
      · exact absurd h (by simp)
      · injection h with hv hb
        subst hb
        exact nextSegStep_keeps b bm (Or.inr (Or.inr ⟨s, hs⟩))

theorem parseDrive_keeps (b : Bridge) :
    ((parseDrive b).2).readPacketNum = b.readPacketNum ∧
    ∀ m ∈ b.log, m ∈ ((parseDrive b).2).log := by
  unfold parseDrive
  split
  next b1 heq1 =>
    obtain ⟨r1, l1⟩ := segParse_keeps stolCore _ b1 (Or.inl heq1)
    exact ⟨r1, fun m hm => (l1 m hm)⟩
  next b1 heq1 =>
    obtain ⟨r1, l1⟩ := segParse_keeps stolCore _ b1 (Or.inr (Or.inl heq1))
    exact ⟨r1, fun m hm => (l1 m hm)⟩
  next v1 b1 heq1 =>
    obtain ⟨r1, l1⟩ := segParse_keeps stolCore _ b1 (Or.inr (Or.inr ⟨v1, heq1⟩))
    try simp only []
    split
    next b2 heq2 =>
      obtain ⟨r2, l2⟩ := segParse_keeps stolCore _ b2 (Or.inl heq2)
      exact ⟨r2.trans (r1), fun m hm => (l2 m (l1 m hm))⟩
    next b2 heq2 =>
      obtain ⟨r2, l2⟩ := segParse_keeps stolCore _ b2 (Or.inr (Or.inl heq2))
      exact ⟨r2.trans (r1), fun m hm => (l2 m (l1 m hm))⟩
    next v2 b2 heq2 =>
      obtain ⟨r2, l2⟩ := segParse_keeps stolCore _ b2 (Or.inr (Or.inr ⟨v2, heq2⟩))
      try simp only []
      split
      next b3 heq3 =>
        obtain ⟨r3, l3⟩ := segParse_keeps stolCore _ b3 (Or.inl heq3)
        exact ⟨r3.trans (r2.trans (r1)), fun m hm => (l3 m (l2 m (l1 m hm)))⟩
      next b3 heq3 =>
        obtain ⟨r3, l3⟩ := segParse_keeps stolCore _ b3 (Or.inr (Or.inl heq3))
        exact ⟨r3.trans (r2.trans (r1)), fun m hm => (l3 m (l2 m (l1 m hm)))⟩
      next v3 b3 heq3 =>
        obtain ⟨r3, l3⟩ := segParse_keeps stolCore _ b3 (Or.inr (Or.inr ⟨v3, heq3⟩))
        try simp only []
        split
        next b4 heq4 =>
          obtain ⟨r4, l4⟩ := segParse_keeps stofCore _ b4 (Or.inl heq4)
          exact ⟨r4.trans (r3.trans (r2.trans (r1))), fun m hm => (l4 m (l3 m (l2 m (l1 m hm))))⟩
        next b4 heq4 =>
          obtain ⟨r4, l4⟩ := segParse_keeps stofCore _ b4 (Or.inr (Or.inl heq4))
          exact ⟨r4.trans (r3.trans (r2.trans (r1))), fun m hm => (l4 m (l3 m (l2 m (l1 m hm))))⟩
        next v4 b4 heq4 =>
          obtain ⟨r4, l4⟩ := segParse_keeps stofCore _ b4 (Or.inr (Or.inr ⟨v4, heq4⟩))
          try simp only []
          split
          next b5 heq5 =>
            obtain ⟨r5, l5⟩ := segParse_keeps stofCore _ b5 (Or.inl heq5)
            exact ⟨r5.trans (r4.trans (r3.trans (r2.trans (r1)))), fun m hm => (l5 m (l4 m (l3 m (l2 m (l1 m hm)))))⟩
          next b5 heq5 =>
            obtain ⟨r5, l5⟩ := segParse_keeps stofCore _ b5 (Or.inr (Or.inl heq5))
            exact ⟨r5.trans (r4.trans (r3.trans (r2.trans (r1)))), fun m hm => (l5 m (l4 m (l3 m (l2 m (l1 m hm)))))⟩
          next v5 b5 heq5 =>
            obtain ⟨r5, l5⟩ := segParse_keeps stofCore _ b5 (Or.inr (Or.inr ⟨v5, heq5⟩))
            exact ⟨r5.trans (r4.trans (r3.trans (r2.trans (r1)))), fun m hm => (l5 m (l4 m (l3 m (l2 m (l1 m hm)))))⟩

theorem parseBumper_keeps (b : Bridge) :
    ((parseBumper b).2).readPacketNum = b.readPacketNum ∧
    ∀ m ∈ b.log, m ∈ ((parseBumper b).2).log := by
  unfold parseBumper
  split
  next b1 heq1 =>
    obtain ⟨r1, l1⟩ := segParse_keeps stolCore _ b1 (Or.inl heq1)
    exact ⟨r1, fun m hm => (l1 m hm)⟩
  next b1 heq1 =>
    obtain ⟨r1, l1⟩ := segParse_keeps stolCore _ b1 (Or.inr (Or.inl heq1))
    exact ⟨r1, fun m hm => (l1 m hm)⟩
  next v1 b1 heq1 =>
    obtain ⟨r1, l1⟩ := segParse_keeps stolCore _ b1 (Or.inr (Or.inr ⟨v1, heq1⟩))
    try simp only []
    split
    next b2 heq2 =>
      obtain ⟨r2, l2⟩ := segParse_keeps stolCore _ b2 (Or.inl heq2)
      exact ⟨r2.trans (r1), fun m hm => (l2 m (l1 m hm))⟩
    next b2 heq2 =>
      obtain ⟨r2, l2⟩ := segParse_keeps stolCore _ b2 (Or.inr (Or.inl heq2))
      exact ⟨r2.trans (r1), fun m hm => (l2 m (l1 m hm))⟩
    next v2 b2 heq2 =>
      obtain ⟨r2, l2⟩ := segParse_keeps stolCore _ b2 (Or.inr (Or.inr ⟨v2, heq2⟩))
      try simp only []
      split
      next b3 heq3 =>
        obtain ⟨r3, l3⟩ := segParse_keeps stolCore _ b3 (Or.inl heq3)
        exact ⟨r3.trans (r2.trans (r1)), fun m hm => (l3 m (l2 m (l1 m hm)))⟩
      next b3 heq3 =>
        obtain ⟨r3, l3⟩ := segParse_keeps stolCore _ b3 (Or.inr (Or.inl heq3))
        exact ⟨r3.trans (r2.trans (r1)), fun m hm => (l3 m (l2 m (l1 m hm)))⟩
      next v3 b3 heq3 =>
        obtain ⟨r3, l3⟩ := segParse_keeps stolCore _ b3 (Or.inr (Or.inr ⟨v3, heq3⟩))
        exact ⟨r3.trans (r2.trans (r1)), fun m hm => (l3 m (l2 m (l1 m hm)))⟩

theorem parseFSR_keeps (b : Bridge) :
    ((parseFSR b).2).readPacketNum = b.readPacketNum ∧
    ∀ m ∈ b.log, m ∈ ((parseFSR b).2).log := by
  unfold parseFSR
  split
  next b1 heq1 =>
    obtain ⟨r1, l1⟩ := segParse_keeps stolCore _ b1 (Or.inl heq1)
    exact ⟨r1, fun m hm => (l1 m hm)⟩
  next b1 heq1 =>
    obtain ⟨r1, l1⟩ := segParse_keeps stolCore _ b1 (Or.inr (Or.inl heq1))
    exact ⟨r1, fun m hm => (l1 m hm)⟩
  next v1 b1 heq1 =>
    obtain ⟨r1, l1⟩ := segParse_keeps stolCore _ b1 (Or.inr (Or.inr ⟨v1, heq1⟩))
    try simp only []
    split
    next b2 heq2 =>
      obtain ⟨r2, l2⟩ := segParse_keeps stoiCore _ b2 (Or.inl heq2)
      exact ⟨r2.trans (r1), fun m hm => (l2 m (l1 m hm))⟩
    next b2 heq2 =>
      obtain ⟨r2, l2⟩ := segParse_keeps stoiCore _ b2 (Or.inr (Or.inl heq2))
      exact ⟨r2.trans (r1), fun m hm => (l2 m (l1 m hm))⟩
    next v2 b2 heq2 =>
      obtain ⟨r2, l2⟩ := segParse_keeps stoiCore _ b2 (Or.inr (Or.inr ⟨v2, heq2⟩))
      try simp only []
      split
      next b3 heq3 =>
        obtain ⟨r3, l3⟩ := segParse_keeps stoiCore _ b3 (Or.inl heq3)
        exact ⟨r3.trans (r2.trans (r1)), fun m hm => (l3 m (l2 m (l1 m hm)))⟩
      next b3 heq3 =>
        obtain ⟨r3, l3⟩ := segParse_keeps stoiCore _ b3 (Or.inr (Or.inl heq3))
        exact ⟨r3.trans (r2.trans (r1)), fun m hm => (l3 m (l2 m (l1 m hm)))⟩
      next v3 b3 heq3 =>
        obtain ⟨r3, l3⟩ := segParse_keeps stoiCore _ b3 (Or.inr (Or.inr ⟨v3, heq3⟩))
        exact ⟨r3.trans (r2.trans (r1)), fun m hm => (l3 m (l2 m (l1 m hm)))⟩

theorem parseGripper_keeps (b : Bridge) :
    ((parseGripper b).2).readPacketNum = b.readPacketNum ∧
    ∀ m ∈ b.log, m ∈ ((parseGripper b).2).log := by
  unfold parseGripper
  split
  next b1 heq1 =>
    obtain ⟨r1, l1⟩ := segParse_keeps stolCore _ b1 (Or.inl heq1)
    exact ⟨r1, fun m hm => (l1 m hm)⟩
  next b1 heq1 =>
    obtain ⟨r1, l1⟩ := segParse_keeps stolCore _ b1 (Or.inr (Or.inl heq1))
    exact ⟨r1, fun m hm => (l1 m hm)⟩
  next v1 b1 heq1 =>
    obtain ⟨r1, l1⟩ := segParse_keeps stolCore _ b1 (Or.inr (Or.inr ⟨v1, heq1⟩))
    try simp only []
    split
    next b2 heq2 =>
      obtain ⟨r2, l2⟩ := segParse_keeps stoiCore _ b2 (Or.inl heq2)
      exact ⟨r2.trans (r1), fun m hm => (l2 m (l1 m hm))⟩
    next b2 heq2 =>
      obtain ⟨r2, l2⟩ := segParse_keeps stoiCore _ b2 (Or.inr (Or.inl heq2))
      exact ⟨r2.trans (r1), fun m hm => (l2 m (l1 m hm))⟩
    next v2 b2 heq2 =>
      obtain ⟨r2, l2⟩ := segParse_keeps stoiCore _ b2 (Or.inr (Or.inr ⟨v2, heq2⟩))
      exact ⟨r2.trans (r1), fun m hm => (l2 m (l1 m hm))⟩

theorem parseLinear_keeps (b : Bridge) :
    ((parseLinear b).2).readPacketNum = b.readPacketNum ∧
    ∀ m ∈ b.log, m ∈ ((parseLinear b).2).log := by
  unfold parseLinear
  split
  next b1 heq1 =>
    obtain ⟨r1, l1⟩ := segParse_keeps stolCore _ b1 (Or.inl heq1)
    exact ⟨r1, fun m hm => (l1 m hm)⟩
  next b1 heq1 =>
    obtain ⟨r1, l1⟩ := segParse_keeps stolCore _ b1 (Or.inr (Or.inl heq1))
    exact ⟨r1, fun m hm => (l1 m hm)⟩
  next v1 b1 heq1 =>
    obtain ⟨r1, l1⟩ := segParse_keeps stolCore _ b1 (Or.inr (Or.inr ⟨v1, heq1⟩))
    try simp only []
    split
    next b2 heq2 =>
      obtain ⟨r2, l2⟩ := segParse_keeps stoiCore _ b2 (Or.inl heq2)
      exact ⟨r2.trans (r1), fun m hm => (l2 m (l1 m hm))⟩
    next b2 heq2 =>
      obtain ⟨r2, l2⟩ := segParse_keeps stoiCore _ b2 (Or.inr (Or.inl heq2))
      exact ⟨r2.trans (r1), fun m hm => (l2 m (l1 m hm))⟩
    next v2 b2 heq2 =>
      obtain ⟨r2, l2⟩ := segParse_keeps stoiCore _ b2 (Or.inr (Or.inr ⟨v2, heq2⟩))
      try simp only []
      split
      next b3 heq3 =>
        obtain ⟨r3, l3⟩ := segParse_keeps stoiCore _ b3 (Or.inl heq3)
        exact ⟨r3.trans (r2.trans (r1)), fun m hm => (l3 m (l2 m (l1 m hm)))⟩
      next b3 heq3 =>
        obtain ⟨r3, l3⟩ := segParse_keeps stoiCore _ b3 (Or.inr (Or.inl heq3))
        exact ⟨r3.trans (r2.trans (r1)), fun m hm => (l3 m (l2 m (l1 m hm)))⟩
      next v3 b3 heq3 =>
        obtain ⟨r3, l3⟩ := segParse_keeps stoiCore _ b3 (Or.inr (Or.inr ⟨v3, heq3⟩))
        try simp only []
        split
        next b4 heq4 =>
          obtain ⟨r4, l4⟩ := segParse_keeps stoiCore _ b4 (Or.inl heq4)
          exact ⟨r4.trans (r3.trans (r2.trans (r1))), fun m hm => (l4 m (l3 m (l2 m (l1 m hm))))⟩
        next b4 heq4 =>
          obtain ⟨r4, l4⟩ := segParse_keeps stoiCore _ b4 (Or.inr (Or.inl heq4))
          exact ⟨r4.trans (r3.trans (r2.trans (r1))), fun m hm => (l4 m (l3 m (l2 m (l1 m hm))))⟩
        next v4 b4 heq4 =>
          obtain ⟨r4, l4⟩ := segParse_keeps stoiCore _ b4 (Or.inr (Or.inr ⟨v4, heq4⟩))
          try simp only []
          split
          next b5 heq5 =>
            obtain ⟨r5, l5⟩ := segParse_keeps stoiCore _ b5 (Or.inl heq5)
            exact ⟨r5.trans (r4.trans (r3.trans (r2.trans (r1)))), fun m hm => (l5 m (l4 m (l3 m (l2 m (l1 m hm)))))⟩
          next b5 heq5 =>
            obtain ⟨r5, l5⟩ := segParse_keeps stoiCore _ b5 (Or.inr (Or.inl heq5))
            exact ⟨r5.trans (r4.trans (r3.trans (r2.trans (r1)))), fun m hm => (l5 m (l4 m (l3 m (l2 m (l1 m hm)))))⟩
          next v5 b5 heq5 =>
            obtain ⟨r5, l5⟩ := segParse_keeps stoiCore _ b5 (Or.inr (Or.inr ⟨v5, heq5⟩))
            exact ⟨r5.trans (r4.trans (r3.trans (r2.trans (r1)))), fun m hm => (l5 m (l4 m (l3 m (l2 m (l1 m hm)))))⟩

theorem parseBattery_keeps (b : Bridge) :
    ((parseBattery b).2).readPacketNum = b.readPacketNum ∧
    ∀ m ∈ b.log, m ∈ ((parseBattery b).2).log := by
  unfold parseBattery
  split
  next b1 heq1 =>
    obtain ⟨r1, l1⟩ := segParse_keeps stolCore _ b1 (Or.inl heq1)
    exact ⟨r1, fun m hm => (l1 m hm)⟩
  next b1 heq1 =>
    obtain ⟨r1, l1⟩ := segParse_keeps stolCore _ b1 (Or.inr (Or.inl heq1))
    exact ⟨r1, fun m hm => (l1 m hm)⟩
  next v1 b1 heq1 =>
    obtain ⟨r1, l1⟩ := segParse_keeps stolCore _ b1 (Or.inr (Or.inr ⟨v1, heq1⟩))
    try simp only []
    split
    next b2 heq2 =>
      obtain ⟨r2, l2⟩ := segParse_keeps stofCore _ b2 (Or.inl heq2)
      exact ⟨r2.trans (r1), fun m hm => (l2 m (l1 m hm))⟩
    next b2 heq2 =>
      obtain ⟨r2, l2⟩ := segParse_keeps stofCore _ b2 (Or.inr (Or.inl heq2))
      exact ⟨r2.trans (r1), fun m hm => (l2 m (l1 m hm))⟩
    next v2 b2 heq2 =>
      obtain ⟨r2, l2⟩ := segParse_keeps stofCore _ b2 (Or.inr (Or.inr ⟨v2, heq2⟩))
      try simp only []
      split
      next b3 heq3 =>
        obtain ⟨r3, l3⟩ := nextSegStep_keeps _ b3 (Or.inl heq3)
        exact ⟨r3.trans (r2.trans (r1)), fun m hm => (l3 m (l2 m (l1 m hm)))⟩
      next b3 heq3 =>
        obtain ⟨r3, l3⟩ := nextSegStep_keeps _ b3 (Or.inr (Or.inl heq3))
        exact ⟨r3.trans (r2.trans (r1)), fun m hm => (l3 m (l2 m (l1 m hm)))⟩
      next v3 b3 heq3 =>
        obtain ⟨r3, l3⟩ := nextSegStep_keeps _ b3 (Or.inr (Or.inr ⟨v3, heq3⟩))
        try simp only []
        split
        next b4 heq4 =>
          obtain ⟨r4, l4⟩ := segParse_keeps stofCore _ b4 (Or.inl heq4)
          exact ⟨r4.trans (r3.trans (r2.trans (r1))), fun m hm => (l4 m (l3 m (l2 m (l1 m hm))))⟩
        next b4 heq4 =>
          obtain ⟨r4, l4⟩ := segParse_keeps stofCore _ b4 (Or.inr (Or.inl heq4))
          exact ⟨r4.trans (r3.trans (r2.trans (r1))), fun m hm => (l4 m (l3 m (l2 m (l1 m hm))))⟩
        next v4 b4 heq4 =>
          obtain ⟨r4, l4⟩ := segParse_keeps stofCore _ b4 (Or.inr (Or.inr ⟨v4, heq4⟩))
          exact ⟨r4.trans (r3.trans (r2.trans (r1))), fun m hm => (l4 m (l3 m (l2 m (l1 m hm))))⟩

theorem parseTilter_keeps (b : Bridge) :
    ((parseTilter b).2).readPacketNum = b.readPacketNum ∧
    ∀ m ∈ b.log, m ∈ ((parseTilter b).2).log := by
  unfold parseTilter
  split
  next b1 heq1 =>
    obtain ⟨r1, l1⟩ := segParse_keeps stolCore _ b1 (Or.inl heq1)
    exact ⟨r1, fun m hm => (l1 m hm)⟩
  next b1 heq1 =>
    obtain ⟨r1, l1⟩ := segParse_keeps stolCore _ b1 (Or.inr (Or.inl heq1))
    exact ⟨r1, fun m hm => (l1 m hm)⟩
  next v1 b1 heq1 =>
    obtain ⟨r1, l1⟩ := segParse_keeps stolCore _ b1 (Or.inr (Or.inr ⟨v1, heq1⟩))
    try simp only []
    split
    next b2 heq2 =>
      obtain ⟨r2, l2⟩ := segParse_keeps stoiCore _ b2 (Or.inl heq2)
      exact ⟨r2.trans (r1), fun m hm => (l2 m (l1 m hm))⟩
    next b2 heq2 =>
      obtain ⟨r2, l2⟩ := segParse_keeps stoiCore _ b2 (Or.inr (Or.inl heq2))
      exact ⟨r2.trans (r1), fun m hm => (l2 m (l1 m hm))⟩
    next v2 b2 heq2 =>
      obtain ⟨r2, l2⟩ := segParse_keeps stoiCore _ b2 (Or.inr (Or.inr ⟨v2, heq2⟩))
      exact ⟨r2.trans (r1), fun m hm => (l2 m (l1 m hm))⟩

theorem processSerialPacket_keeps (cat : List Char) (b : Bridge) :
    ((processSerialPacket cat b).2).readPacketNum = b.readPacketNum ∧
    ∀ m ∈ b.log, m ∈ ((processSerialPacket cat b).2).log := by
  unfold processSerialPacket
  by_cases h1 : cat = "txrx".toList
  · rw [if_pos h1]
    split
    next b1 heq1 =>
      obtain ⟨r1, l1⟩ := segParse_keeps stolCore _ b1 (Or.inl heq1)
      exact ⟨r1, fun m hm => (l1 m hm)⟩
    next b1 heq1 =>
      obtain ⟨r1, l1⟩ := segParse_keeps stolCore _ b1 (Or.inr (Or.inl heq1))
      exact ⟨r1, fun m hm => (l1 m hm)⟩
    next v1 b1 heq1 =>
      obtain ⟨r1, l1⟩ := segParse_keeps stolCore _ b1 (Or.inr (Or.inr ⟨v1, heq1⟩))
      try simp only []
      split
      next b2 heq2 =>
        obtain ⟨r2, l2⟩ := segParse_keeps stoiCore _ b2 (Or.inl heq2)
        exact ⟨r2.trans (r1), fun m hm => (l2 m (l1 m hm))⟩
      next b2 heq2 =>
        obtain ⟨r2, l2⟩ := segParse_keeps stoiCore _ b2 (Or.inr (Or.inl heq2))
        exact ⟨r2.trans (r1), fun m hm => (l2 m (l1 m hm))⟩
      next v2 b2 heq2 =>
        obtain ⟨r2, l2⟩ := segParse_keeps stoiCore _ b2 (Or.inr (Or.inr ⟨v2, heq2⟩))
        split
        · exact ⟨r2.trans (r1), fun m hm => List.mem_cons_of_mem _ (l2 m (l1 m hm))⟩
        · exact ⟨r2.trans (r1), fun m hm => (l2 m (l1 m hm))⟩
  · rw [if_neg h1]
    by_cases h2 : cat = "state".toList
    · rw [if_pos h2]
      split
      next b1 heq1 =>
        obtain ⟨r1, l1⟩ := segParse_keeps stoiCore _ b1 (Or.inl heq1)
        exact ⟨r1, fun m hm => (l1 m hm)⟩
      next b1 heq1 =>
        obtain ⟨r1, l1⟩ := segParse_keeps stoiCore _ b1 (Or.inr (Or.inl heq1))
        exact ⟨r1, fun m hm => (l1 m hm)⟩
      next v1 b1 heq1 =>
        obtain ⟨r1, l1⟩ := segParse_keeps stoiCore _ b1 (Or.inr (Or.inr ⟨v1, heq1⟩))
        try simp only []
        split
        next b2 heq2 =>
          obtain ⟨r2, l2⟩ := segParse_keeps stoiCore _ b2 (Or.inl heq2)
          exact ⟨r2.trans (r1), fun m hm => (l2 m (l1 m hm))⟩
        next b2 heq2 =>
          obtain ⟨r2, l2⟩ := segParse_keeps stoiCore _ b2 (Or.inr (Or.inl heq2))
          exact ⟨r2.trans (r1), fun m hm => (l2 m (l1 m hm))⟩
        next v2 b2 heq2 =>
          obtain ⟨r2, l2⟩ := segParse_keeps stoiCore _ b2 (Or.inr (Or.inr ⟨v2, heq2⟩))
          try simp only []
          split
          next b3 heq3 =>
            obtain ⟨r3, l3⟩ := segParse_keeps stoiCore _ b3 (Or.inl heq3)
            exact ⟨r3.trans (r2.trans (r1)), fun m hm => (l3 m (l2 m (l1 m hm)))⟩
          next b3 heq3 =>
            obtain ⟨r3, l3⟩ := segParse_keeps stoiCore _ b3 (Or.inr (Or.inl heq3))
            exact ⟨r3.trans (r2.trans (r1)), fun m hm => (l3 m (l2 m (l1 m hm)))⟩
          next v3 b3 heq3 =>
            obtain ⟨r3, l3⟩ := segParse_keeps stoiCore _ b3 (Or.inr (Or.inr ⟨v3, heq3⟩))
            try simp only []
            split
            next b4 heq4 =>
              obtain ⟨r4, l4⟩ := segParse_keeps stoiCore _ b4 (Or.inl heq4)
              exact ⟨r4.trans (r3.trans (r2.trans (r1))), fun m hm => (l4 m (l3 m (l2 m (l1 m hm))))⟩
            next b4 heq4 =>
              obtain ⟨r4, l4⟩ := segParse_keeps stoiCore _ b4 (Or.inr (Or.inl heq4))
              exact ⟨r4.trans (r3.trans (r2.trans (r1))), fun m hm => (l4 m (l3 m (l2 m (l1 m hm))))⟩
            next v4 b4 heq4 =>
              obtain ⟨r4, l4⟩ := segParse_keeps stoiCore _ b4 (Or.inr (Or.inr ⟨v4, heq4⟩))
              try simp only []
              split
              next b5 heq5 =>
                obtain ⟨r5, l5⟩ := segParse_keeps stofCore _ b5 (Or.inl heq5)
                exact ⟨r5.trans (r4.trans (r3.trans (r2.trans (r1)))), fun m hm => (l5 m (l4 m (l3 m (l2 m (l1 m hm)))))⟩
              next b5 heq5 =>
                obtain ⟨r5, l5⟩ := segParse_keeps stofCore _ b5 (Or.inr (Or.inl heq5))
                exact ⟨r5.trans (r4.trans (r3.trans (r2.trans (r1)))), fun m hm => (l5 m (l4 m (l3 m (l2 m (l1 m hm)))))⟩
              next v5 b5 heq5 =>
                obtain ⟨r5, l5⟩ := segParse_keeps stofCore _ b5 (Or.inr (Or.inr ⟨v5, heq5⟩))
                exact ⟨r5.trans (r4.trans (r3.trans (r2.trans (r1)))), fun m hm => (l5 m (l4 m (l3 m (l2 m (l1 m hm)))))⟩
    · rw [if_neg h2]
      by_cases h3 : cat = "enc".toList
      · rw [if_pos h3]
        exact parseDrive_keeps b
      · rw [if_neg h3]
        by_cases h4 : cat = "bump".toList
        · rw [if_pos h4]
          exact parseBumper_keeps b
        · rw [if_neg h4]
          by_cases h5 : cat = "fsr".toList
          · rw [if_pos h5]
            exact parseFSR_keeps b
          · rw [if_neg h5]
            by_cases h6 : cat = "grip".toList
            · rw [if_pos h6]
              exact parseGripper_keeps b
            · rw [if_neg h6]
              by_cases h7 : cat = "linear".toList
              · rw [if_pos h7]
                exact parseLinear_keeps b
              · rw [if_neg h7]
                by_cases h8 : cat = "batt".toList
                · rw [if_pos h8]
                  exact parseBattery_keeps b
                · rw [if_neg h8]
                  by_cases h9 : cat = "tilt".toList
                  · rw [if_pos h9]
                    exact parseTilter_keeps b
                  · rw [if_neg h9]
                    by_cases h10 : cat = "ready".toList
                    · rw [if_pos h10]
                      split
                      next b1 heq1 =>
                        obtain ⟨r1, l1⟩ := segParse_keeps stoiCore _ b1 (Or.inl heq1)
                        exact ⟨r1, fun m hm => (l1 m hm)⟩
                      next b1 heq1 =>
                        obtain ⟨r1, l1⟩ := segParse_keeps stoiCore _ b1 (Or.inr (Or.inl heq1))
                        exact ⟨r1, fun m hm => (l1 m hm)⟩
                      next v1 b1 heq1 =>
                        obtain ⟨r1, l1⟩ := segParse_keeps stoiCore _ b1 (Or.inr (Or.inr ⟨v1, heq1⟩))
                        try simp only []
                        split
                        next b2 heq2 =>
                          obtain ⟨r2, l2⟩ := nextSegStep_keeps _ b2 (Or.inl heq2)
                          exact ⟨r2.trans (r1), fun m hm => (l2 m (l1 m hm))⟩
                        next b2 heq2 =>
                          obtain ⟨r2, l2⟩ := nextSegStep_keeps _ b2 (Or.inr (Or.inl heq2))
                          exact ⟨r2.trans (r1), fun m hm => (l2 m (l1 m hm))⟩
                        next v2 b2 heq2 =>
                          obtain ⟨r2, l2⟩ := nextSegStep_keeps _ b2 (Or.inr (Or.inr ⟨v2, heq2⟩))
                          exact ⟨r2.trans (r1), fun m hm => (l2 m (l1 m hm))⟩
                    · rw [if_neg h10]
                      exact ⟨rfl, fun m hm => hm⟩

theorem dispatchStage_counter (R : Bridge) :
    (((dispatchStage R).1 = .catMissing ∨ (dispatchStage R).1 = .ok) →
      (dispatchStage R).2.readPacketNum = R.readPacketNum + 1) ∧
    ((dispatchStage R).1 = .dispatchException →
      (dispatchStage R).2.readPacketNum = R.readPacketNum) ∧
    (∀ m ∈ R.log, m ∈ (dispatchStage R).2.log) ∧
    ((dispatchStage R).1 = .catMissing ∨ (dispatchStage R).1 = .ok ∨
      (dispatchStage R).1 = .dispatchException) := by
  unfold dispatchStage
  split
  next b1 heq =>
    obtain ⟨k1, k2⟩ := getNextSegment_keeps _ _ _ heq
    refine ⟨fun _ => ?_, fun h => absurd h (by simp), fun m hm => ?_, Or.inl rfl⟩
    · show b1.readPacketNum + 1 = R.readPacketNum + 1
      omega
    · show m ∈ LogMsg.catMissingLog :: b1.log
      exact List.mem_cons_of_mem _ (k2.symm ▸ hm)
  next b1 heq =>
    obtain ⟨k1, k2⟩ := getNextSegment_keeps _ _ _ heq
    try simp only []
    unfold dispatchTail
    split
    next b3 heq3 =>
      have k := processSerialPacket_keeps b1.currentBufferSegment
        { b1 with serialBuffer := b1.serialBuffer.take (b1.serialBuffer.length - 2) }
      rw [heq3] at k
      simp only [] at k
      obtain ⟨p1, p2⟩ := k
      refine ⟨fun _ => ?_, fun h => absurd h (by simp), fun m hm => ?_, Or.inr (Or.inl rfl)⟩
      · show b3.readPacketNum + 1 = R.readPacketNum + 1
        omega
      · show m ∈ b3.log
        exact p2 m (k2.symm ▸ hm)
    next b3 heq3 =>
      have k := processSerialPacket_keeps b1.currentBufferSegment
        { b1 with serialBuffer := b1.serialBuffer.take (b1.serialBuffer.length - 2) }
      rw [heq3] at k
      simp only [] at k
      obtain ⟨p1, p2⟩ := k
      refine ⟨fun h => ?_, fun _ => ?_, fun m hm => ?_, Or.inr (Or.inr rfl)⟩
      · rcases h with h | h <;> simp at h
      · show b3.readPacketNum = R.readPacketNum
        omega
      · show m ∈ LogMsg.dispatchExn :: b3.log
        exact List.mem_cons_of_mem _ (p2 m (k2.symm ▸ hm))

theorem dispatchStage_not_chk (R : Bridge) :
    (dispatchStage R).1 ≠ .tooShort ∧ (dispatchStage R).1 ≠ .checksumParseError ∧
    (dispatchStage R).1 ≠ .checksumMismatch := by
  obtain ⟨_, _, _, h⟩ := dispatchStage_counter R
  rcases h with h | h | h <;> rw [h] <;> exact ⟨by decide, by decide, by decide⟩

theorem decodeSeqOnward_not_chk (b : Bridge) :
    (decodeSeqOnward b).1 ≠ .tooShort ∧ (decodeSeqOnward b).1 ≠ .checksumParseError ∧
    (decodeSeqOnward b).1 ≠ .checksumMismatch := by
  unfold decodeSeqOnward
  split
  next b1 heq => exact ⟨by simp, by simp, by simp⟩
  next b1 heq =>
    split
    next hs => exact ⟨by simp, by simp, by simp⟩
    next v hs =>
      try simp only []
      split
      · exact dispatchStage_not_chk _
      · exact dispatchStage_not_chk _

/-- C1 (amended): for payloads long enough to pass the length gate and whose
trailing two characters parse as hex, the Validator rejects with a checksum
mismatch exactly when the 8-bit sum of the payload minus its last two
characters differs from the parsed trailing byte; when they agree, the decode
never fails with a too-short, checksum-parse, or checksum-mismatch error.
Payloads shorter than 5 characters are rejected as malformed before the
checksum comparison (see the counterexample). -/
theorem C1_checksum_gate_amended (payload : List Char) (b : Bridge) (recv : Nat)
    (hlen : 5 ≤ payload.length)
    (hrecv : parseRecvChecksum payload = some recv) :
    (checksum8 (payload.take (payload.length - 2)) ≠ recv →
      (decodePacket payload b).1 = .checksumMismatch) ∧
    (checksum8 (payload.take (payload.length - 2)) = recv →
      (decodePacket payload b).1 ≠ .tooShort ∧
      (decodePacket payload b).1 ≠ .checksumParseError ∧
      (decodePacket payload b).1 ≠ .checksumMismatch) := by
  have hnlt : ¬(payload.length < 5) := by omega
  simp only [decodePacket]
  rw [if_neg hnlt, hrecv]
  simp only []
  constructor
  · intro hne
    rw [if_pos hne]
  · intro heq
    rw [if_neg (fun hne => hne heq)]
    exact decodeSeqOnward_not_chk _

/-- Witness for C1 (amended): the 5-character payload "0\tsab" has byte sum
172 over its first three characters while its trailing hex digits parse to
171, and the Validator rejects it with a checksum mismatch. -/
theorem C1_checksum_gate_amended_witness :
    (checksum8 (("0\tsab".toList).take (("0\tsab".toList).length - 2)) ≠ 171 →
      (decodePacket ("0\tsab".toList) (initialBridge 0)).1 = .checksumMismatch) ∧
    (checksum8 (("0\tsab".toList).take (("0\tsab".toList).length - 2)) = 171 →
      (decodePacket ("0\tsab".toList) (initialBridge 0)).1 ≠ .tooShort ∧
      (decodePacket ("0\tsab".toList) (initialBridge 0)).1 ≠ .checksumParseError ∧
      (decodePacket ("0\tsab".toList) (initialBridge 0)).1 ≠ .checksumMismatch) :=
  C1_checksum_gate_amended ("0\tsab".toList) (initialBridge 0) 171 (by decide) (by decide)

/-- C1 counterexample to the frozen claim: the 3-character payload "0ab" has
byte sum 48 over everything except its last two characters while those last
two characters parse as the hex byte 171 — the sums differ — yet validation
fails with the too-short error, not a checksum error: the length gate fires
before any checksum comparison. -/
theorem C1_short_payload_counterexample :
    checksum8 (("0ab".toList).take (("0ab".toList).length - 2)) = 48 ∧
    parseRecvChecksum ("0ab".toList) = some 171 ∧
    (decodePacket ("0ab".toList) (initialBridge 0)).1 = .tooShort ∧
    (decodePacket ("0ab".toList) (initialBridge 0)).1 ≠ .checksumMismatch ∧
    (decodePacket ("0ab".toList) (initialBridge 0)).1 ≠ .checksumParseError := by
  refine ⟨by decide, by decide, by decide, by decide, by decide⟩

/-- C2 (amended): per attempted decode of a received payload the read counter
advances by exactly one for the too-short, checksum-mismatch, and
sequence-missing failures; it is left UNCHANGED when the trailing checksum
characters fail to parse and when the sequence segment fails to parse (the
uncaught `std::stoi` exception); for a decode that reaches the dispatcher the
counter becomes anchor+1 on normal dispatch return and category-missing, and
stays at the anchor on a dispatch exception, where the anchor is the old
counter or, after a logged desync, the received sequence value. -/
theorem C2_read_counter_amended (payload : List Char) (b : Bridge) :
    (((decodePacket payload b).1 = .tooShort ∨
      (decodePacket payload b).1 = .checksumMismatch ∨
      (decodePacket payload b).1 = .seqMissing) →
        (decodePacket payload b).2.readPacketNum = b.readPacketNum + 1) ∧
    (((decodePacket payload b).1 = .checksumParseError ∨
      (decodePacket payload b).1 = .seqParseException) →
        (decodePacket payload b).2.readPacketNum = b.readPacketNum) ∧
    (((decodePacket payload b).1 = .ok ∨ (decodePacket payload b).1 = .catMissing) →
        ((decodePacket payload b).2.readPacketNum = b.readPacketNum + 1 ∨
         ∃ n, n ≠ b.readPacketNum ∧
           LogMsg.desync n b.readPacketNum ∈ (decodePacket payload b).2.log ∧
           (decodePacket payload b).2.readPacketNum = n + 1)) ∧
    ((decodePacket payload b).1 = .dispatchException →
        ((decodePacket payload b).2.readPacketNum = b.readPacketNum ∨
         ∃ n, n ≠ b.readPacketNum ∧
           LogMsg.desync n b.readPacketNum ∈ (decodePacket payload b).2.log ∧
           (decodePacket payload b).2.readPacketNum = n)) := by
  by_cases hlen : payload.length < 5
  · simp only [decodePacket]
    rw [if_pos hlen]
    refine ⟨fun _ => rfl, fun h => ?_, fun h => ?_, fun h => ?_⟩
    · rcases h with h | h <;> simp at h
    · rcases h with h | h <;> simp at h
    · simp at h
  · simp only [decodePacket]
    rw [if_neg hlen]
    cases hr : parseRecvChecksum payload with
    | none =>
      simp only []
      refine ⟨?_, ?_, ?_, ?_⟩ <;> first
        | trivial
        | (intro h; trivial)
    | some recv =>
      simp only []
      by_cases hck : checksum8 (payload.take (payload.length - 2)) ≠ recv
      · rw [if_pos hck]
        refine ⟨fun _ => rfl, fun h => ?_, fun h => ?_, fun h => ?_⟩
        · rcases h with h | h <;> simp at h
        · rcases h with h | h <;> simp at h
        · simp at h
      · rw [if_neg hck]
        simp only [decodeSeqOnward]
        split
        next b1 heq =>
          obtain ⟨k1, k2⟩ := getNextSegment_keeps _ _ _ heq
          simp only [] at k1 k2
          refine ⟨fun _ => ?_, fun h => ?_, fun h => ?_, fun h => ?_⟩
          · show b1.readPacketNum + 1 = b.readPacketNum + 1
            omega
          · rcases h with h | h <;> simp at h
          · rcases h with h | h <;> simp at h
          · simp at h
        next b1 heq =>
          obtain ⟨k1, k2⟩ := getNextSegment_keeps _ _ _ heq
          simp only [] at k1 k2
          split
          next hs =>
            refine ⟨fun h => ?_, fun _ => ?_, fun h => ?_, fun h => ?_⟩
            · rcases h with h | h | h <;> simp at h
            · show b1.readPacketNum = b.readPacketNum
              omega
            · rcases h with h | h <;> simp at h
            · simp at h
          next v hs =>
            try simp only []
            by_cases hds : intToU32 v ≠ b1.readPacketNum
            · rw [if_pos hds]
              obtain ⟨q1, q2, q3, q4⟩ := dispatchStage_counter
                { b1 with readPacketNum := intToU32 v,
                          log := .desync (intToU32 v) b1.readPacketNum :: b1.log }
              have hmem : LogMsg.desync (intToU32 v) b.readPacketNum ∈
                  ({ b1 with readPacketNum := intToU32 v,
                             log := .desync (intToU32 v) b1.readPacketNum :: b1.log } : Bridge).log := by
                show LogMsg.desync (intToU32 v) b.readPacketNum ∈
                  LogMsg.desync (intToU32 v) b1.readPacketNum :: b1.log
                rw [k1]
                exact List.mem_cons_self _ _
              have hne' : intToU32 v ≠ b.readPacketNum := by
                rw [← k1]; exact hds
              rcases q4 with h4 | h4 | h4
              · -- catMissing
                have c := q1 (Or.inl h4)
                simp only [] at c
                refine ⟨fun h => ?_, fun h => ?_, fun _ => ?_, fun h => ?_⟩
                · rcases h with h | h | h <;> rw [h4] at h <;> simp at h
                · rcases h with h | h <;> rw [h4] at h <;> simp at h
                · exact Or.inr ⟨intToU32 v, hne', q3 _ hmem, c⟩
                · rw [h4] at h; simp at h
              · -- ok
                have c := q1 (Or.inr h4)
                simp only [] at c
                refine ⟨fun h => ?_, fun h => ?_, fun _ => ?_, fun h => ?_⟩
                · rcases h with h | h | h <;> rw [h4] at h <;> simp at h
                · rcases h with h | h <;> rw [h4] at h <;> simp at h
                · exact Or.inr ⟨intToU32 v, hne', q3 _ hmem, c⟩
                · rw [h4] at h; simp at h
              · -- dispatchException
                have c := q2 h4
                simp only [] at c
                refine ⟨fun h => ?_, fun h => ?_, fun h => ?_, fun _ => ?_⟩
                · rcases h with h | h | h <;> rw [h4] at h <;> simp at h
                · rcases h with h | h <;> rw [h4] at h <;> simp at h
                · rcases h with h | h <;> rw [h4] at h <;> simp at h
                · exact Or.inr ⟨intToU32 v, hne', q3 _ hmem, c⟩
            · rw [if_neg hds]
              obtain ⟨q1, q2, q3, q4⟩ := dispatchStage_counter b1
              rcases q4 with h4 | h4 | h4
              · have c := q1 (Or.inl h4)
                refine ⟨fun h => ?_, fun h => ?_, fun _ => ?_, fun h => ?_⟩
                · rcases h with h | h | h <;> rw [h4] at h <;> simp at h
                · rcases h with h | h <;> rw [h4] at h <;> simp at h
                · exact Or.inl (by omega)
                · rw [h4] at h; simp at h
              · have c := q1 (Or.inr h4)
                refine ⟨fun h => ?_, fun h => ?_, fun _ => ?_, fun h => ?_⟩
                · rcases h with h | h | h <;> rw [h4] at h <;> simp at h
                · rcases h with h | h <;> rw [h4] at h <;> simp at h
                · exact Or.inl (by omega)
                · rw [h4] at h; simp at h
              · have c := q2 h4
                refine ⟨fun h => ?_, fun h => ?_, fun h => ?_, fun _ => ?_⟩
                · rcases h with h | h | h <;> rw [h4] at h <;> simp at h
                · rcases h with h | h <;> rw [h4] at h <;> simp at h
                · rcases h with h | h <;> rw [h4] at h <;> simp at h
                · exact Or.inl (by omega)

/-- Witness for C2 (amended): the two-character payload "ab" is rejected as
too short and the read counter advances from 0 to 1. -/
theorem C2_read_counter_amended_witness :
    (decodePacket ("ab".toList) (initialBridge 0)).2.readPacketNum =
      (initialBridge 0).readPacketNum + 1 :=
  (C2_read_counter_amended ("ab".toList) (initialBridge 0)).1 (Or.inl (by decide))

/-- C2 counterexample to the frozen claim: the payload "0\tstate\tzz57" has a
valid checksum (0x57) and an in-sync sequence number 0, but its "state" body
throws inside dispatch ("zz" is not numeric), and the read counter does NOT
increment — it stays at 0 instead of advancing to 1. -/
theorem C2_dispatch_exception_counterexample :
    (decodePacket ("0\tstate\tzz57".toList) (initialBridge 0)).1 = .dispatchException ∧
    (decodePacket ("0\tstate\tzz57".toList) (initialBridge 0)).2.readPacketNum = 0 ∧
    (initialBridge 0).readPacketNum = 0 := by
  refine ⟨by decide, by decide, by decide⟩

/-- C4: the claim is refuted by the code: a payload whose first segment is
non-numeric does not fail as sequence-missing — the `std::stoi` call at line
228 throws, the exception is not caught inside `readSerial`, and the `try` in
`run()` catches it, sets exit code 1, and breaks the driving loop. The
payload "x\tsf4" carries a valid checksum (0xf4) but a non-numeric sequence
segment "x"; its decode is the uncaught sequence-parse exception, the read
counter does not advance, and a session that receives it terminates with
exit code 1. -/
theorem C4_seq_parse_exception_aborts :
    (decodePacket ("x\tsf4".toList) (initialBridge 0)).1 = .seqParseException ∧
    (decodePacket ("x\tsf4".toList) (initialBridge 0)).2.readPacketNum = 0 ∧
    runSession [("x\tsf4".toList)] (initialBridge 0) =
      (1, (decodePacket ("x\tsf4".toList) (initialBridge 0)).2) := by
  refine ⟨by decide, by decide, by decide⟩

theorem containsStartPair_tail (c : Char) (l : List Char)
    (h : containsStartPair (c :: l) = false) : containsStartPair l = false := by
  cases l with
  | nil => rfl
  | cons d t =>
    unfold containsStartPair at h
    simp at h
    exact h.2

theorem wait_no_pair : ∀ (n : Nat) (l : List Char) (c2 : Char), l.length ≤ n →
    containsStartPair l = false → (waitForPacketStart l c2).1 = false := by
  intro n
  induction n with
  | zero =>
    intro l c2 hl hc
    cases l with
    | nil => rfl
    | cons c t => simp at hl
  | succ n ih =>
    intro l c2 hl hc
    cases l with
    | nil => rfl
    | cons c1 t =>
      cases t with
      | nil => rfl
      | cons r rs =>
        have hc' : containsStartPair (r :: rs) = false := containsStartPair_tail _ _ hc
        have hpair : ¬(c1 = PACKET_START_0 ∧ r = PACKET_START_1) := by
          unfold containsStartPair at hc
          simp at hc
          intro hp
          exact absurd (hc.1 hp.1) (fun hne => hne hp.2)
        simp only [waitForPacketStart]
        by_cases h1 : c1 = PACKET_START_0
        · rw [if_pos h1]
          have h2 : ¬(r = PACKET_START_1) := fun h2 => hpair ⟨h1, h2⟩
          rw [if_neg h2]
          refine ih rs r ?_ (containsStartPair_tail _ _ hc')
          simp at hl
          omega
        · rw [if_neg h1]
          by_cases hst : c1 = PACKET_STOP ∨ c2 = PACKET_STOP
          · rw [if_pos hst]
          · rw [if_neg hst]
            refine ih (r :: rs) c2 ?_ hc'
            simp at hl ⊢
            omega

theorem accumulate_no_stop (l : List Char) (h : PACKET_STOP ∉ l) :
    accumulateFrame l = none := by
  induction l with
  | nil => rfl
  | cons c t ih =>
    have hc : c ≠ PACKET_STOP := fun he => h (he ▸ List.mem_cons_self c t)
    have ht := ih (fun hm => h (List.mem_cons_of_mem c hm))
    simp [accumulateFrame, hc, ht]

/-- C9 (amended): the start-search phase is indeed non-blocking — on a byte
stream with no consecutive start-marker pair, `waitForPacketStart` reports
false within its bounded window and `readSerial` returns "no frame yet" —
but the byte-accumulation loop after a start pair is found has NO timeout:
on a stream with no stop byte, `while (true)` spins forever (`accumulateFrame`
never produces a frame; see the counterexample for the blocking receiver). -/
theorem C9_receiver_amended (l : List Char) (c2 : Char) (b : Bridge) :
    (containsStartPair l = false → (waitForPacketStart l c2).1 = false) ∧
    (containsStartPair l = false → (readSerialM l c2 b).1 = .noStart) ∧
    (PACKET_STOP ∉ l → accumulateFrame l = none) := by
  refine ⟨fun hc => wait_no_pair l.length l c2 le_rfl hc, fun hc => ?_, accumulate_no_stop l⟩
  have hw := wait_no_pair l.length l c2 le_rfl hc
  unfold readSerialM
  rcases hwp : waitForPacketStart l c2 with ⟨fl, rest, cc⟩
  rw [hwp] at hw
  simp only [] at hw
  subst hw
  rfl

/-- Witness for C9 (amended): the stream "abc" contains no start pair and no
stop byte; the receiver reports no frame and the accumulation loop never
produces one. -/
theorem C9_receiver_amended_witness :
    (waitForPacketStart ("abc".toList) 'x').1 = false ∧
    (readSerialM ("abc".toList) 'x' (initialBridge 0)).1 = .noStart ∧
    accumulateFrame ("abc".toList) = none :=
  ⟨(C9_receiver_amended ("abc".toList) 'x' (initialBridge 0)).1 (by decide),
   (C9_receiver_amended ("abc".toList) 'x' (initialBridge 0)).2.1 (by decide),
   (C9_receiver_amended ("abc".toList) 'x' (initialBridge 0)).2.2 (by decide)⟩

/-- C9 counterexample to the frozen claim: after a valid start pair, a stream
that ends with no stop byte makes `readSerial` block indefinitely in the
accumulation loop — the call never returns ("suspension anywhere in frame
reception is a short bounded polling wait" is false). -/
theorem C9_blocking_counterexample :
    (readSerialM [PACKET_START_0, PACKET_START_1, 'a'] 'x' (initialBridge 0)).1 =
      .neverReturns := by
  decide

/-- C10: confirmed — `getDeviceTime` subtracts the reference device
milliseconds from the incoming device milliseconds in unsigned 32-bit
arithmetic: when the incoming stamp is numerically below the reference the
difference wraps modulo 2^32 (landing 2^32 ms minus the gap after the
reference), when it is at or above the reference the difference is exact,
and in both cases the computed host time is never before the reference. -/
theorem C10_unsigned_wrap_confirmed (b : Bridge) (t : Nat)
    (ht : t < 4294967296) (hoff : b.offsetTimeMs < 4294967296) :
    (t < b.offsetTimeMs →
      getDeviceTimeMs b t = b.deviceStartTimeMs + (4294967296 - (b.offsetTimeMs - t))) ∧
    (b.offsetTimeMs ≤ t →
      getDeviceTimeMs b t = b.deviceStartTimeMs + (t - b.offsetTimeMs)) ∧
    b.deviceStartTimeMs ≤ getDeviceTimeMs b t := by
  unfold getDeviceTimeMs
  refine ⟨fun h => ?_, fun h => ?_, ?_⟩ <;> omega

/-- Witness for C10: with the clock reference captured at host 1000 ms and
device 4000000000 ms, an incoming stamp of 1500 ms (numerically before the
reference) wraps: the host time is 1000 + (2^32 - (4000000000 - 1500)) ms,
after the reference rather than before it. -/
theorem C10_unsigned_wrap_confirmed_witness :
    getDeviceTimeMs (setStartTime 1000 4000000000 (initialBridge 0)) 1500 =
      1000 + (4294967296 - (4000000000 - 1500)) :=
  (C10_unsigned_wrap_confirmed (setStartTime 1000 4000000000 (initialBridge 0)) 1500
    (by decide) (by decide)).1 (by decide)

/-- C3 (amended): when a well-formed frame carries sequence number `w` while
the local read counter expects something else, the Validator logs a desync
warning (frame processing continues — not fatal) and resets the local counter
to `w`; the next expected sequence is then `w`+1 only when dispatch returns
normally — after a dispatch exception the counter remains `w`, not `w`+1. -/
theorem C3_desync_amended (b : Bridge) (w : Nat) (cat joined : List Char) (d1 d2 : Char)
    (hw : w ≤ 2147483647) (hcat_tab : '\t' ∉ cat) (hcat_ne : cat ≠ [])
    (hchk : stoulHexPair d1 d2 = some (checksum8 (natDec w ++ '\t' :: (cat ++ '\t' :: joined))))
    (hne : w ≠ b.readPacketNum) :
    LogMsg.desync w b.readPacketNum ∈
      (decodePacket (natDec w ++ '\t' :: (cat ++ '\t' :: joined) ++ [d1, d2]) b).2.log ∧
    ((decodePacket (natDec w ++ '\t' :: (cat ++ '\t' :: joined) ++ [d1, d2]) b).1 = .ok →
      (decodePacket (natDec w ++ '\t' :: (cat ++ '\t' :: joined) ++ [d1, d2]) b).2.readPacketNum
        = w + 1) ∧
    ((decodePacket (natDec w ++ '\t' :: (cat ++ '\t' :: joined) ++ [d1, d2]) b).1 =
        .dispatchException →
      (decodePacket (natDec w ++ '\t' :: (cat ++ '\t' :: joined) ++ [d1, d2]) b).2.readPacketNum
        = w) := by
  rw [decode_encoded b w cat joined d1 d2 hw hcat_tab hcat_ne hchk]
  simp only [if_neg hne]
  rcases hp : processSerialPacket cat
      { b with
        serialBuffer := natDec w ++ '\t' :: (cat ++ '\t' :: joined),
        serialBufferIndex := 0 + (natDec w).length + 1 + cat.length + 1,
        currentBufferSegment := cat,
        currentSegmentNum := b.currentSegmentNum + 1 + 1,
        readPacketNum := w,
        log := .desync w b.readPacketNum :: b.log } with ⟨fl, b3⟩
  have k := processSerialPacket_keeps cat
      { b with
        serialBuffer := natDec w ++ '\t' :: (cat ++ '\t' :: joined),
        serialBufferIndex := 0 + (natDec w).length + 1 + cat.length + 1,
        currentBufferSegment := cat,
        currentSegmentNum := b.currentSegmentNum + 1 + 1,
        readPacketNum := w,
        log := .desync w b.readPacketNum :: b.log }
  rw [hp] at k
  simp only [] at k
  obtain ⟨p1, p2⟩ := k
  have hmem : LogMsg.desync w b.readPacketNum ∈ b3.log :=
    p2 _ (List.mem_cons_self _ _)
  cases fl
  · exact ⟨List.mem_cons_of_mem _ hmem, fun h => by simp [dispatchTail] at h, fun _ => by
      show b3.readPacketNum = w
      omega⟩
  · exact ⟨hmem, fun _ => by
      show b3.readPacketNum + 1 = w + 1
      omega, fun h => by simp [dispatchTail] at h⟩

/-- Witness for C3 (amended): the frame body "7\ttilt\t99\t-5" with checksum
"e3" arrives while the counter expects 0: the desync is logged, the decode
succeeds, and the counter becomes 8 = 7+1. -/
theorem C3_desync_amended_witness :
    LogMsg.desync 7 (initialBridge 0).readPacketNum ∈
      (decodePacket (natDec 7 ++ '\t' :: ("tilt".toList ++ '\t' :: ("99\t-5".toList)) ++
        ['e', '3']) (initialBridge 0)).2.log ∧
    ((decodePacket (natDec 7 ++ '\t' :: ("tilt".toList ++ '\t' :: ("99\t-5".toList)) ++
        ['e', '3']) (initialBridge 0)).1 = .ok →
      (decodePacket (natDec 7 ++ '\t' :: ("tilt".toList ++ '\t' :: ("99\t-5".toList)) ++
        ['e', '3']) (initialBridge 0)).2.readPacketNum = 7 + 1) ∧
    ((decodePacket (natDec 7 ++ '\t' :: ("tilt".toList ++ '\t' :: ("99\t-5".toList)) ++
        ['e', '3']) (initialBridge 0)).1 = .dispatchException →
      (decodePacket (natDec 7 ++ '\t' :: ("tilt".toList ++ '\t' :: ("99\t-5".toList)) ++
        ['e', '3']) (initialBridge 0)).2.readPacketNum = 7) :=
  C3_desync_amended (initialBridge 0) 7 ("tilt".toList) ("99\t-5".toList) 'e' '3'
    (by decide) (by decide) (by decide) (by decide) (by decide)

/-- C3 counterexample to the frozen claim's last clause: the desynced frame
"7\tstate\tzz5e" (received sequence 7, expected 0, valid checksum) logs the
desync and resets the counter to 7, but its dispatch throws, so after the
frame is processed the next expected sequence is 7 — not 7+1 = 8. -/
theorem C3_no_increment_counterexample :
    (decodePacket ("7\tstate\tzz5e".toList) (initialBridge 0)).1 = .dispatchException ∧
    LogMsg.desync 7 0 ∈ (decodePacket ("7\tstate\tzz5e".toList) (initialBridge 0)).2.log ∧
    (decodePacket ("7\tstate\tzz5e".toList) (initialBridge 0)).2.readPacketNum = 7 := by
  refine ⟨by decide, by decide, by decide⟩

/-- C5: confirmed — every encoded frame is the two start markers, the decimal
rendering of the current write sequence number, a tab separator, the command
name, each argument as a tab followed by its formatted text, two characters
that parse as the hex byte equal to the 8-bit checksum of every byte after
the start markers, and the stop marker; and the write counter increments by
exactly one per encode call (the model returns the frame whether or not the
transmission succeeds, as the source ignores the result of the device
write). -/
theorem C5_encoder_frame_layout (name : List Char) (args : List WArg) (b : Bridge) :
    ∃ d1 d2,
      (writeSerial name args b).1 =
        PACKET_START_0 :: PACKET_START_1 ::
          ((natDec b.writePacketNum ++ '\t' :: (name ++ argsText args)) ++ [d1, d2] ++
            [PACKET_STOP]) ∧
      stoulHexPair d1 d2 =
        some (checksum8 (natDec b.writePacketNum ++ '\t' :: (name ++ argsText args))) ∧
      (writeSerial name args b).2.writePacketNum = b.writePacketNum + 1 := by
  obtain ⟨d1, d2, hf, hb2, hchk, _, _⟩ := writeSerial_frame name args b
  refine ⟨d1, d2, hf, hchk, ?_⟩
  rw [hb2]

/-- C7 (amended): the readiness probe transmitted by `checkReady` is the
encoding of command name "?" (not "s") with the single string argument
"dodobot": its frame is the start pair, the write counter, a tab, the byte
'?', a tab, "dodobot", the two checksum hex characters, and the stop byte;
the probe bumps the write counter like any encode. -/
theorem C7_probe_frame_amended (b : Bridge) :
    ∃ d1 d2,
      (checkReadyProbe b).1 =
        PACKET_START_0 :: PACKET_START_1 ::
          ((natDec b.writePacketNum ++ '\t' :: ('?' :: '\t' :: "dodobot".toList)) ++
            [d1, d2] ++ [PACKET_STOP]) ∧
      stoulHexPair d1 d2 =
        some (checksum8 (natDec b.writePacketNum ++ '\t' :: ('?' :: '\t' :: "dodobot".toList))) ∧
      (checkReadyProbe b).2.writePacketNum = b.writePacketNum + 1 := by
  obtain ⟨d1, d2, hf, hb2, hchk, _, _⟩ :=
    writeSerial_frame ("?".toList) [.s ("dodobot".toList)] b
  have hbody : ("?".toList ++ argsText [.s ("dodobot".toList)]) =
      '?' :: '\t' :: "dodobot".toList := by decide
  rw [hbody] at hf hchk
  refine ⟨d1, d2, hf, hchk, ?_⟩
  show (writeSerial ("?".toList) [.s ("dodobot".toList)] b).2.writePacketNum =
    b.writePacketNum + 1
  rw [hb2]

/-- C7 counterexample to the frozen claim: from the fresh bridge the probe
frame is the encoding of name "?" — its bytes are "0\t?\tdodobot6c" framed by
the markers — and it differs from the encoding of command name "s" with the
same argument, which the claim asserts it to be. -/
theorem C7_probe_name_counterexample :
    (checkReadyProbe (initialBridge 0)).1 =
      PACKET_START_0 :: PACKET_START_1 :: ("0\t?\tdodobot6c\n".toList) ∧
    (checkReadyProbe (initialBridge 0)).1 ≠
      (writeSerial ("s".toList) [.s ("dodobot".toList)] (initialBridge 0)).1 := by
  refine ⟨by decide, by decide⟩

/-- C8 (amended): when every segment of a "state" frame is present and
parses, the Device Operational State is overwritten wholesale — the resulting
record is built entirely from the frame's five fields, with nothing retained
from the previous state — and the decode returns normally. (When a required
segment is missing the decode aborts early but the already-decoded leading
fields are NOT discarded; see the counterexample.) -/
theorem C8_state_overwrite_amended (bd : Bridge) (ms : Nat) (act bat mot : Bool) (rate : Int)
    (hview : bd.serialBuffer.drop bd.serialBufferIndex =
      natDec ms ++ '\t' :: (fmtInt (if act then 1 else 0) ++
        ('\t' :: (fmtInt (if bat then 1 else 0) ++
          ('\t' :: (fmtInt (if mot then 1 else 0) ++
            ('\t' :: (fmtFixed4 rate ++ argsText []))))))))
    (hms : ms ≤ 2147483647) :
    ((processSerialPacket ("state".toList) bd).2).robotState = ⟨ms, act, bat, mot, rate⟩ ∧
    (processSerialPacket ("state".toList) bd).1 = true := by
  rw [dispatch_state bd ms act bat mot rate hview hms]
  exact ⟨rfl, rfl⟩

/-- Witness for C8 (amended): a full "state" body "1500\t1\t0\t1\t2.0000"
decoded over a bridge whose previous state was ⟨7, false, true, true, 42⟩
yields exactly ⟨1500, true, false, true, 20000⟩ — nothing of the old state
survives. -/
theorem C8_state_overwrite_amended_witness :
    ((processSerialPacket ("state".toList)
        { initialBridge 0 with
          serialBuffer := ("1500\t1\t0\t1\t2.0000".toList),
          robotState := ⟨7, false, true, true, 42⟩ }).2).robotState =
      ⟨1500, true, false, true, 20000⟩ ∧
    (processSerialPacket ("state".toList)
        { initialBridge 0 with
          serialBuffer := ("1500\t1\t0\t1\t2.0000".toList),
          robotState := ⟨7, false, true, true, 42⟩ }).1 = true :=
  C8_state_overwrite_amended
    { initialBridge 0 with
      serialBuffer := ("1500\t1\t0\t1\t2.0000".toList),
      robotState := ⟨7, false, true, true, 42⟩ }
    1500 true false true 20000 (by decide) (by decide)

/-- C8 counterexample to the frozen claim: the frame "0\tstate\t1500\t163"
(valid checksum 0x63) ends after the is-active field. The decode aborts with
a segment-missing log, but the already-decoded leading fields are NOT
discarded: starting from state ⟨7, false, true, true, 42⟩ the bridge is left
with the partial merge ⟨1500, true, true, true, 42⟩ — neither the old state
nor a whole new one. -/
theorem C8_partial_merge_counterexample :
    (decodePacket ("0\tstate\t1500\t163".toList)
        { initialBridge 0 with robotState := ⟨7, false, true, true, 42⟩ }).1 = .ok ∧
    LogMsg.segmentMissing ∈
      (decodePacket ("0\tstate\t1500\t163".toList)
        { initialBridge 0 with robotState := ⟨7, false, true, true, 42⟩ }).2.log ∧
    (decodePacket ("0\tstate\t1500\t163".toList)
        { initialBridge 0 with robotState := ⟨7, false, true, true, 42⟩ }).2.robotState =
      ⟨1500, true, true, true, 42⟩ ∧
    (decodePacket ("0\tstate\t1500\t163".toList)
        { initialBridge 0 with robotState := ⟨7, false, true, true, 42⟩ }).2.robotState ≠
      ⟨7, false, true, true, 42⟩ := by
  refine ⟨by decide, by decide, by decide, by decide⟩
